import Mathlib

/-!
# AAI: combat groups and attack coordination

A shallow embedding of `AAIGroup.cpp`, `AAIAttackManager.cpp` and the parts of
`aidef.h` they use.

* C++ `float` values are read as rationals (exact arithmetic), except for the
  multiplication in `AAIGroup::Update`, which is rounded to single precision.
* Pointers are identifiers (`GroupId`, `AttackId`, `SectorId`); `nullptr` is `none`.
* Calls into collaborators that only return a value are fields of `Env`;
  calls that act on a collaborator are recorded, in program order, as `Event`s.
-/

namespace AAI

/-! ## Basic types -/

/-- The struct `UnitId` of `aidef.h`: a wrapped `int`. -/
structure UnitId where
  id : Int
deriving DecidableEq, Repr

/-- The default constructor `UnitId() : id(-1)`. -/
def UnitId.default : UnitId := ⟨-1⟩

/-- The member `UnitId::IsValid`. -/
def UnitId.IsValid (u : UnitId) : Bool := if u.id ≥ 0 then true else false

/-- Identifier of a unit definition (its class is declared outside the embedded sources). -/
structure UnitDefId where
  id : Int
deriving DecidableEq, Repr

/-- Address of an `AAIAttack` object. -/
abbrev AttackId := Nat

/-- Address of an `AAIGroup` object. -/
abbrev GroupId := Nat

/-- Address of an `AAISector` object. -/
abbrev SectorId := Nat

/-- The engine type `float3`. -/
structure float3 where
  x : ℚ
  y : ℚ
  z : ℚ
deriving DecidableEq, Repr

/-- The engine constant `ZeroVector`. -/
def ZeroVector : float3 := ⟨0, 0, 0⟩

/-- The enum `UnitTask` of `aidef.h`. -/
inductive UnitTask
  | UNIT_IDLE | UNIT_ATTACKING | DEFENDING | GUARDING | MOVING | BUILDING | SCOUTING
  | ASSISTING | RECLAIMING | HEADING_TO_RALLYPOINT | UNIT_KILLED | ENEMY_UNIT | BOMB_TARGET
deriving DecidableEq, Repr

/-- The group tasks used by `AAIGroup.cpp` (the enum itself is declared in a header that is
not part of the embedded sources). -/
inductive GroupTask
  | GROUP_IDLE | GROUP_ATTACKING | GROUP_DEFENDING | GROUP_PATROLING | GROUP_BOMBING
  | GROUP_RETREATING
deriving DecidableEq, Repr

/-- Modelled from the spec: the declaration of the target types is missing from the sources;
the spec gives the closed enumeration STATIC, SURFACE, FLOATER, SUBMERGED, AIR. -/
inductive ETargetType
  | SURFACE | AIR | FLOATER | SUBMERGED | STATIC
deriving DecidableEq, Repr

/-- The unit categories tested by the embedded code (`isGroundCombat`, `isHoverCombat`,
`isSeaCombat`, `isSubmarineCombat`, `isAirCombat`, `isMobileArtillery`, `isStaticDefence`);
every other category is `OTHER`. The declaration is missing from the sources. -/
inductive EUnitCategory
  | GROUND_COMBAT | HOVER_COMBAT | SEA_COMBAT | SUBMARINE_COMBAT | AIR_COMBAT
  | MOBILE_ARTILLERY | STATIC_DEFENCE | OTHER
deriving DecidableEq, Repr

/-- The answers of an `AAIUnitType` to the queries the embedded code makes. -/
structure AAIUnitType where
  IsAssaultUnit : Bool
  IsAntiAir : Bool
  IsAntiSurface : Bool
  CanFightTargetType : ETargetType → Bool

/-- The answer of an `AAIMovementType` to the one query the embedded code makes. -/
structure AAIMovementType where
  CannotMoveToOtherContinents : Bool
deriving DecidableEq, Repr

/-- The command ids used by `AAIGroup.cpp`. -/
inductive CommandId
  | CMD_STOP | CMD_MOVE | CMD_FIGHT | CMD_GUARD | CMD_ATTACK | CMD_PATROL
deriving DecidableEq, Repr

/-- An engine `Command`: its id, the pushed parameters and whether `SHIFT_KEY` is set in its
options. -/
structure Command where
  id : CommandId
  params : List ℚ
  shiftKey : Bool
deriving DecidableEq, Repr

/-- The constructor `Command(id)`. -/
def Command.mk1 (id : CommandId) : Command := ⟨id, [], false⟩

/-- The member `Command::PushPos`. -/
def Command.PushPos (c : Command) (p : float3) : Command :=
  { c with params := c.params ++ [p.x, p.y, p.z] }

/-- The member `Command::PushParam`. -/
def Command.PushParam (c : Command) (v : ℚ) : Command :=
  { c with params := c.params ++ [v] }

/-- The call `c.SetOpts(c.GetOpts() | SHIFT_KEY)`. -/
def Command.SetShift (c : Command) : Command := { c with shiftKey := true }

/-- Calls that act on a collaborator, as made by a group (`this` is the calling group). -/
inductive Event
  /-- The call `ai->Getexecute()->GiveOrder(&c, unit, owner)`. -/
  | GiveOrder (c : Command) (unit : Int) (owner : String)
  /-- The call `ai->Getut()->SetUnitStatus(unit, task)`. -/
  | SetUnitStatus (unit : Int) (status : UnitTask)
  /-- The call `ai->Getut()->AssignGroupToEnemy(unit, this)`. -/
  | AssignGroupToEnemy (unit : Int)
  /-- The call `ai->Log(...)`, by its format string. -/
  | Log (msg : String)
  /-- The call `attack->RemoveGroup(this)`. -/
  | RemoveGroup (a : AttackId)
  /-- The call `ai->Getaf()->CheckTarget(attacker, category, health)`. -/
  | CheckTarget (attacker : UnitId) (category : EUnitCategory) (health : ℚ)
  /-- The call `ai->Getam()->AttackNextSectorOrAbort(attack)`. -/
  | AttackNextSectorOrAbort (a : AttackId)
  /-- The call `attack->StopAttack()`. -/
  | StopAttack (a : AttackId)
  /-- The statement `--sector->rally_points`. -/
  | DecRallyPoints (s : SectorId)
  /-- The statement `++sector->rally_points`. -/
  | IncRallyPoints (s : SectorId)
deriving DecidableEq, Repr

/-! ## The group -/

/-- The data members of `AAIGroup`. -/
structure AAIGroup where
  m_groupDefId : UnitDefId
  m_continentId : Int
  m_units : List UnitId
  m_maxSize : Int
  m_groupType : AAIUnitType
  m_category : EUnitCategory
  m_moveType : AAIMovementType
  m_targetPosition : float3
  m_targetSector : Option SectorId
  m_rallyPoint : float3
  attack : Option AttackId
  task : GroupTask
  task_importance : ℚ
  lastCommand : Command
  lastCommandFrame : Int

/-- What a group reads from an `AAIAttack` it points to. -/
structure AttackView where
  HasTargetBeenCleared : Bool
  m_combatUnitGroups : List AAIGroup

/-- The collaborators of a group, as far as they answer queries: configuration (`cfg`),
the build tree, the engine callback, the map, the brain and the attack objects. -/
structure Env where
  AIR_ONLY_MOD : Bool
  MAX_GROUP_SIZE : Int
  MAX_AIR_GROUP_SIZE : Int
  MAX_ANTI_AIR_GROUP_SIZE : Int
  MAX_ARTY_GROUP_SIZE : Int
  MAX_NAVAL_GROUP_SIZE : Int
  MAX_SUBMARINE_GROUP_SIZE : Int
  MIN_AIR_SUPPORT_EFFICIENCY : ℚ
  /-- The engine constant `SQUARE_SIZE`. -/
  SQUARE_SIZE : ℚ
  GetUnitType : UnitDefId → AAIUnitType
  GetUnitCategory : UnitDefId → EUnitCategory
  GetMovementType : UnitDefId → AAIMovementType
  /-- The value `s_buildTree.GetCombatPower(defId).GetCombatPowerVsTargetType(t)`. -/
  GetCombatPower : UnitDefId → ETargetType → ℚ
  GetTargetType : UnitDefId → ETargetType
  GetMaxSpeed : UnitDefId → ℚ
  GetHealth : UnitDefId → ℚ
  /-- The member `UnitDefId::isValid`. -/
  unitDefIdIsValid : UnitDefId → Bool
  GetCurrentFrame : Int
  GetUnitPos : Int → float3
  GetUnitDefId : UnitId → UnitDefId
  GetSectorOfPos : float3 → Option SectorId
  DetermineAttackPosition : SectorId → float3
  distance_to_base : SectorId → Int
  /-- The call `DetermineRallyPoint(rallyPoint, moveType, continentId)`: whether a rally point
  was found, and the value of the reference argument afterwards. -/
  DetermineRallyPoint : float3 → AAIMovementType → Int → Bool × float3
  attackView : AttackId → AttackView
  /-- The engine function `fastmath::apxsqrt`. -/
  apxsqrt : ℚ → ℚ
  /-- The value returned by `rand()`. -/
  rand : Nat

/-- The constant `AAIConstants::minCombatPowerForSoloAttack` of `aidef.h`. -/
def minCombatPowerForSoloAttack : ℚ := 5 / 2

/-- The constant `AAIConstants::maxSquaredDistToRallyPoint` of `aidef.h`. -/
def maxSquaredDistToRallyPoint (env : Env) : ℚ :=
  (16 * env.SQUARE_SIZE) * (16 * env.SQUARE_SIZE)

/-- The value of the literal `0.97f`: the single precision number nearest to 97/100. -/
def float097 : ℚ := 16273900 / 16777216

/-- Rounding to the nearest integer, a tie to the even one. -/
def roundHalfEven (q : ℚ) : Int :=
  if q - ⌊q⌋ < 1 / 2 then ⌊q⌋
  else if q - ⌊q⌋ > 1 / 2 then ⌊q⌋ + 1
  else if ⌊q⌋ % 2 = 0 then ⌊q⌋ else ⌊q⌋ + 1

/-- Rounding of an exact result to single precision, as an operation on `float` does: to the
nearest number with 24 significant bits, a tie to the even one. Overflow and subnormal
numbers are not modelled. -/
def roundToFloat (q : ℚ) : ℚ :=
  if q = 0 then 0
  else (roundHalfEven (q / (2 : ℚ) ^ (Int.log 2 |q| - 23)) : ℚ) * (2 : ℚ) ^ (Int.log 2 |q| - 23)

namespace AAIGroup

/-- The accessor `GetCurrentSize`: the number of members, as an `int`. -/
def GetCurrentSize (g : AAIGroup) : Int := (g.m_units.length : Int)

/-- The member `AAIGroup::AddUnit`: the returned value, the group afterwards and the calls
made. -/
def AddUnit (_env : Env) (g : AAIGroup) (unitId : UnitId) (unitDefId : UnitDefId)
    (continentId : Int) : Bool × AAIGroup × List Event :=
  if g.m_continentId = continentId
      ∧ g.m_groupDefId = unitDefId
      ∧ GetCurrentSize g < g.m_maxSize
      ∧ g.attack = none
      ∧ g.task ≠ GroupTask.GROUP_ATTACKING ∧ g.task ≠ GroupTask.GROUP_BOMBING then
    let g1 := { g with m_units := g.m_units ++ [unitId] }
    if g1.m_rallyPoint.x > 0 then
      let c := (Command.mk1 CommandId.CMD_MOVE).PushPos g1.m_rallyPoint
      let c := if g1.m_category = EUnitCategory.AIR_COMBAT then c.SetShift else c
      (true, g1, [Event.GiveOrder c unitId.id "Group::AddUnit"])
    else
      (true, g1, [])
  else
    (false, g, [])

/-- The calls `CheckTarget` made by `RemoveUnit` for a valid attacker while members remain. -/
def airSupportCalls (env : Env) (attackerUnitId : UnitId) : List Event :=
  let attackerDefId := env.GetUnitDefId attackerUnitId
  if env.unitDefIdIsValid attackerDefId = true ∧ env.AIR_ONLY_MOD = false then
    let category := env.GetUnitCategory attackerDefId
    let check := [Event.CheckTarget attackerUnitId category (env.GetHealth attackerDefId)]
    if category = EUnitCategory.STATIC_DEFENCE then check
    else if category = EUnitCategory.GROUND_COMBAT
        ∧ env.GetCombatPower attackerDefId ETargetType.SURFACE > env.MIN_AIR_SUPPORT_EFFICIENCY
      then check
    else if category = EUnitCategory.SEA_COMBAT
        ∧ env.GetCombatPower attackerDefId ETargetType.FLOATER > env.MIN_AIR_SUPPORT_EFFICIENCY
      then check
    else if category = EUnitCategory.HOVER_COMBAT
        ∧ env.GetCombatPower attackerDefId ETargetType.SURFACE > env.MIN_AIR_SUPPORT_EFFICIENCY
      then check
    else []
  else []

/-- The member `AAIGroup::RemoveUnit`. The loop stops at the first member equal to `unitId`
and erases it, which is `List.erase`; when no member is equal the error is logged. -/
def RemoveUnit (env : Env) (g : AAIGroup) (unitId attackerUnitId : UnitId) :
    Bool × AAIGroup × List Event :=
  if unitId ∈ g.m_units then
    let newGroupSize := GetCurrentSize g - 1
    let g1 := { g with m_units := g.m_units.erase unitId }
    let r1 : AAIGroup × List Event :=
      if newGroupSize = 0 then
        match g1.attack with
        | some a => ({ g1 with task := GroupTask.GROUP_IDLE, attack := none },
                     [Event.RemoveGroup a])
        | none => ({ g1 with task := GroupTask.GROUP_IDLE }, [])
      else (g1, [])
    let ev2 : List Event :=
      if attackerUnitId.IsValid = true ∧ newGroupSize > 0 then airSupportCalls env attackerUnitId
      else []
    (true, r1.1, r1.2 ++ ev2)
  else
    let unitDefId := env.GetUnitDefId unitId
    if env.unitDefIdIsValid unitDefId = true then
      (false, g, [Event.Log "Error: Failed to remove unit %s from group of %s!"])
    else
      (false, g, [Event.Log "Error: Failed to remove unit with unknown unit type from group of %s!"])

/-- The calls made by the loop of `GiveOrderToGroup`, member by member. -/
def orderCalls (c : Command) (task : UnitTask) (owner : String) : List UnitId → List Event
  | [] => []
  | u :: us => Event.GiveOrder c u.id owner :: Event.SetUnitStatus u.id task
      :: orderCalls c task owner us

/-- The member `AAIGroup::GiveOrderToGroup`. -/
def GiveOrderToGroup (env : Env) (g : AAIGroup) (c : Command) (importance : ℚ)
    (task : UnitTask) (owner : String) : AAIGroup × List Event :=
  ({ g with lastCommandFrame := env.GetCurrentFrame, task_importance := importance },
   orderCalls c task owner g.m_units)

/-- The member `AAIGroup::Update`: the statement `task_importance *= 0.97f`, a multiplication
of two `float` values rounded to `float` (the rest of its body is commented out or has no
effect). -/
def Update (_env : Env) (g : AAIGroup) : AAIGroup :=
  { g with task_importance := roundToFloat (g.task_importance * float097) }

/-- The member `AAIGroup::GetCombatPowerVsTargetType`. -/
def GetCombatPowerVsTargetType (env : Env) (g : AAIGroup) (targetType : ETargetType) : ℚ :=
  (g.m_units.length : ℚ) * env.GetCombatPower g.m_groupDefId targetType

/-- The member `AAIGroup::GetTargetType`. -/
def GetTargetType (env : Env) (g : AAIGroup) : ETargetType :=
  env.GetTargetType g.m_groupDefId

/-- The member `AAIGroup::GetGroupPos`: the position of the last member, `ZeroVector` for a
group without members. -/
def GetGroupPos (env : Env) (g : AAIGroup) : float3 :=
  match g.m_units.getLast? with
  | some unit => env.GetUnitPos unit.id
  | none => ZeroVector

/-- The member `AAIGroup::IsEntireGroupAtRallyPoint`. -/
def IsEntireGroupAtRallyPoint (env : Env) (g : AAIGroup) : Bool :=
  let position := GetGroupPos env g
  let dx := position.x - g.m_rallyPoint.x
  let dy := position.z - g.m_rallyPoint.z
  decide (dx * dx + dy * dy < maxSquaredDistToRallyPoint env)

/-- The member `AAIGroup::TargetUnitKilled`. -/
def TargetUnitKilled (env : Env) (g : AAIGroup) : AAIGroup × List Event :=
  if env.AIR_ONLY_MOD = false then
    if g.m_category = EUnitCategory.AIR_COMBAT then
      let c := (Command.mk1 CommandId.CMD_MOVE).PushPos g.m_rallyPoint
      GiveOrderToGroup env g c 90 UnitTask.MOVING "Group::TargetUnitKilled"
    else (g, [])
  else (g, [])

/-- The member `AAIGroup::AttackSector`. -/
def AttackSector (env : Env) (g : AAIGroup) (sector : SectorId) (importance : ℚ) :
    AAIGroup × List Event :=
  let attackPosition := env.DetermineAttackPosition sector
  let c := (Command.mk1 CommandId.CMD_FIGHT).PushPos attackPosition
  let r := GiveOrderToGroup env g c (importance + 8) UnitTask.UNIT_ATTACKING "Group::AttackSector"
  ({ r.1 with m_targetPosition := attackPosition, m_targetSector := some sector,
              task := GroupTask.GROUP_ATTACKING }, r.2)

/-- The member `AAIGroup::Defend`. -/
def Defend (env : Env) (g : AAIGroup) (unitId : UnitId) (enemyPosition : float3)
    (importance : Int) : AAIGroup × List Event :=
  let enemyPositionKnown : Bool := decide (enemyPosition.x > 0)
  let cmd := Command.mk1 (if enemyPositionKnown then CommandId.CMD_FIGHT else CommandId.CMD_GUARD)
  if enemyPositionKnown then
    let cmd := cmd.PushPos enemyPosition
    let r := GiveOrderToGroup env g cmd (importance : ℚ) UnitTask.DEFENDING "Group::Defend"
    ({ r.1 with m_targetPosition := enemyPosition,
                m_targetSector := env.GetSectorOfPos enemyPosition,
                task := GroupTask.GROUP_DEFENDING }, r.2)
  else
    let cmd := cmd.PushParam (unitId.id : ℚ)
    let r := GiveOrderToGroup env g cmd (importance : ℚ) UnitTask.GUARDING "Group::Defend"
    let pos := env.GetUnitPos unitId.id
    ({ r.1 with m_targetPosition := pos, m_targetSector := env.GetSectorOfPos pos,
                task := GroupTask.GROUP_DEFENDING }, r.2)

/-- The member `AAIGroup::Retreat`. -/
def Retreat (env : Env) (g : AAIGroup) (pos : float3) : AAIGroup × List Event :=
  let g1 := { g with task := GroupTask.GROUP_RETREATING }
  let c := (Command.mk1 CommandId.CMD_MOVE).PushPos pos
  let r := GiveOrderToGroup env g1 c 105 UnitTask.MOVING "Group::Retreat"
  ({ r.1 with m_targetPosition := pos, m_targetSector := env.GetSectorOfPos pos }, r.2)

/-- The member `AAIGroup::GetRandomUnit`. -/
def GetRandomUnit (env : Env) (g : AAIGroup) : UnitId :=
  if g.m_units.isEmpty then UnitId.default
  else
    let selectedUnitId := env.rand % g.m_units.length
    (g.m_units.get? selectedUnitId).getD UnitId.default

/-- The member `AAIGroup::SufficientAttackPower`. -/
def SufficientAttackPower (env : Env) (g : AAIGroup) : Bool :=
  if g.m_units.length ≥ 3 then true
  else if g.m_groupType.IsAntiAir = true then
    if env.GetCombatPower g.m_groupDefId ETargetType.AIR > minCombatPowerForSoloAttack then true
    else false
  else
    let targetType := GetTargetType env g
    if targetType = ETargetType.SURFACE then
      if env.GetCombatPower g.m_groupDefId ETargetType.SURFACE > minCombatPowerForSoloAttack
      then true else false
    else if targetType = ETargetType.FLOATER then
      if env.GetCombatPower g.m_groupDefId ETargetType.FLOATER > minCombatPowerForSoloAttack
      then true else false
    else if targetType = ETargetType.SUBMERGED then
      if env.GetCombatPower g.m_groupDefId ETargetType.SUBMERGED > minCombatPowerForSoloAttack
      then true else false
    else false

/-- The member `AAIGroup::IsAvailableForAttack`. -/
def IsAvailableForAttack (env : Env) (g : AAIGroup) : Bool :=
  if g.attack = none ∧ IsEntireGroupAtRallyPoint env g = true then
    if g.m_groupType.IsAssaultUnit = true ∧ SufficientAttackPower env g = true then true
    else if g.m_groupType.IsAntiAir = true ∧ g.m_groupType.IsAssaultUnit = false then true
    else false
  else false

/-- The member `AAIGroup::UnitIdle`. The effects of the two calls into the attack manager and
the attack (`AttackNextSectorOrAbort`, `StopAttack`) are recorded as calls only. -/
def UnitIdle (env : Env) (g : AAIGroup) (unit : Int) : AAIGroup × List Event :=
  if env.GetCurrentFrame - g.lastCommandFrame < 10 then (g, [])
  else if g.m_category = EUnitCategory.AIR_COMBAT ∧ g.task ≠ GroupTask.GROUP_IDLE
      ∧ env.AIR_ONLY_MOD = false then
    let c := (Command.mk1 CommandId.CMD_MOVE).PushPos g.m_rallyPoint
    let r := GiveOrderToGroup env g c 100 UnitTask.MOVING "Group::Idle_a"
    ({ r.1 with task := GroupTask.GROUP_IDLE }, r.2)
  else
    match g.attack with
    | some a =>
      let pos := env.GetUnitPos unit
      let sector := env.GetSectorOfPos pos
      if sector = g.m_targetSector ∨ g.m_targetSector = none then
        if (env.GetUnitType g.m_groupDefId).IsAssaultUnit = true
            ∧ (env.attackView a).HasTargetBeenCleared = true then
          (g, [Event.Log "Combat group idle - checking for next sector to attack",
               Event.AttackNextSectorOrAbort a])
        else if (env.GetUnitType g.m_groupDefId).IsAntiAir = true then
          match (env.attackView a).m_combatUnitGroups with
          | first :: _ =>
            let unitId := GetRandomUnit env first
            if unitId.IsValid = true then
              let c := (Command.mk1 CommandId.CMD_GUARD).PushParam (unitId.id : ℚ)
              GiveOrderToGroup env g c 110 UnitTask.GUARDING "Group::Idle_b"
            else (g, [])
          | [] => (g, [Event.StopAttack a])
        else (g, [])
      else
        if (env.GetUnitType g.m_groupDefId).IsAssaultUnit = true then
          match g.m_targetSector with
          | some target =>
            let attackPosition := env.DetermineAttackPosition target
            let c := (Command.mk1 CommandId.CMD_FIGHT).PushPos attackPosition
            (g, [Event.GiveOrder c unit "Group::Idle_c",
                 Event.SetUnitStatus unit UnitTask.UNIT_ATTACKING])
          | none => (g, [])
        else (g, [])
    | none =>
      if g.task = GroupTask.GROUP_RETREATING then
        let pos := env.GetUnitPos unit
        let temp := env.GetSectorOfPos pos
        if temp = g.m_targetSector ∨ g.m_targetSector = none then
          ({ g with task := GroupTask.GROUP_IDLE }, [])
        else (g, [])
      else if g.task = GroupTask.GROUP_DEFENDING then
        let pos := env.GetUnitPos unit
        let temp := env.GetSectorOfPos pos
        if temp = g.m_targetSector ∨ g.m_targetSector = none then
          ({ g with task := GroupTask.GROUP_IDLE }, [])
        else (g, [])
      else (g, [])

/-- The member `AAIGroup::BombTarget`. -/
def BombTarget (env : Env) (g : AAIGroup) (target_id : Int) (target_pos : float3) :
    AAIGroup × List Event :=
  let c := (Command.mk1 CommandId.CMD_ATTACK).PushPos target_pos
  let r := GiveOrderToGroup env g c 110 UnitTask.UNIT_ATTACKING "Group::BombTarget"
  ({ r.1 with task := GroupTask.GROUP_BOMBING }, r.2 ++ [Event.AssignGroupToEnemy target_id])

/-- The member `AAIGroup::DefendAirSpace`. -/
def DefendAirSpace (env : Env) (g : AAIGroup) (pos : float3) : AAIGroup × List Event :=
  let c := (Command.mk1 CommandId.CMD_PATROL).PushPos pos
  let r := GiveOrderToGroup env g c 110 UnitTask.UNIT_ATTACKING "Group::DefendAirSpace"
  ({ r.1 with task := GroupTask.GROUP_PATROLING }, r.2)

/-- The member `AAIGroup::AirRaidUnit`. -/
def AirRaidUnit (env : Env) (g : AAIGroup) (unit_id : Int) : AAIGroup × List Event :=
  let c := (Command.mk1 CommandId.CMD_ATTACK).PushParam (unit_id : ℚ)
  let r := GiveOrderToGroup env g c 110 UnitTask.UNIT_ATTACKING "Group::AirRaidUnit"
  ({ r.1 with task := GroupTask.GROUP_ATTACKING }, r.2 ++ [Event.AssignGroupToEnemy unit_id])

/-- The member `AAIGroup::GetNewRallyPoint`. The result is `none` when a sector pointer
returned by `GetSectorOfPos` is null where the code dereferences it. -/
def GetNewRallyPoint (env : Env) (g : AAIGroup) : Option (AAIGroup × List Event) :=
  let old : Option (List Event) :=
    if g.m_rallyPoint.x > 0 then
      (env.GetSectorOfPos g.m_rallyPoint).map (fun sector => [Event.DecRallyPoints sector])
    else some []
  match old with
  | none => none
  | some ev1 =>
    let found := env.DetermineRallyPoint g.m_rallyPoint g.m_moveType g.m_continentId
    let g1 := { g with m_rallyPoint := found.2 }
    if found.1 = true then
      match env.GetSectorOfPos g1.m_rallyPoint with
      | none => none
      | some sector =>
        if g1.task = GroupTask.GROUP_IDLE then
          let c := (Command.mk1 CommandId.CMD_MOVE).PushPos g1.m_rallyPoint
          let r := GiveOrderToGroup env g1 c 90 UnitTask.HEADING_TO_RALLYPOINT "Group::RallyPoint"
          some (r.1, ev1 ++ [Event.IncRallyPoints sector] ++ r.2)
        else some (g1, ev1 ++ [Event.IncRallyPoints sector])
    else
      some (g1, ev1 ++ [Event.Log "Failed to determine rally point for goup of unit type %s!"])

/-- The member `AAIGroup::UpdateRallyPoint`. -/
def UpdateRallyPoint (env : Env) (g : AAIGroup) : Option (AAIGroup × List Event) :=
  match env.GetSectorOfPos g.m_rallyPoint with
  | none => none
  | some sector =>
    if env.distance_to_base sector ≤ 0 then GetNewRallyPoint env g else some (g, [])

/-- The maximum group size chosen by the constructor. -/
def ctorMaxSize (env : Env) (groupType : AAIUnitType) (category : EUnitCategory) : Int :=
  if env.AIR_ONLY_MOD = true then env.MAX_AIR_GROUP_SIZE
  else if groupType.IsAntiAir = true ∧ groupType.IsAntiSurface = false then
    env.MAX_ANTI_AIR_GROUP_SIZE
  else if category = EUnitCategory.MOBILE_ARTILLERY then env.MAX_ARTY_GROUP_SIZE
  else if category = EUnitCategory.AIR_COMBAT then env.MAX_AIR_GROUP_SIZE
  else if category = EUnitCategory.SEA_COMBAT then env.MAX_NAVAL_GROUP_SIZE
  else if category = EUnitCategory.SUBMARINE_COMBAT then env.MAX_SUBMARINE_GROUP_SIZE
  else env.MAX_GROUP_SIZE

/-- The group as the constructor has set it up when it calls `GetNewRallyPoint`. -/
def ctorInit (env : Env) (unitDefId : UnitDefId) (continentId : Int) : AAIGroup :=
  { m_groupDefId := unitDefId
    m_continentId := continentId
    m_units := []
    m_maxSize := ctorMaxSize env (env.GetUnitType unitDefId) (env.GetUnitCategory unitDefId)
    m_groupType := env.GetUnitType unitDefId
    m_category := env.GetUnitCategory unitDefId
    m_moveType := env.GetMovementType unitDefId
    m_targetPosition := ZeroVector
    m_targetSector := none
    m_rallyPoint := ZeroVector
    attack := none
    task := GroupTask.GROUP_IDLE
    task_importance := 0
    lastCommand := Command.mk1 CommandId.CMD_STOP
    lastCommandFrame := 0 }

/-- The constructor `AAIGroup::AAIGroup`. -/
def ctor (env : Env) (unitDefId : UnitDefId) (continentId : Int) :
    Option (AAIGroup × List Event) :=
  (GetNewRallyPoint env (ctorInit env unitDefId continentId)).map
    (fun r => (r.1, r.2 ++ [Event.Log "Creating new group - max size: %i   unit type: %s   continent: %i"]))

/-- The destructor `AAIGroup::~AAIGroup`: the calls it makes. -/
def dtor (env : Env) (g : AAIGroup) : Option (List Event) :=
  let ev1 : List Event :=
    match g.attack with
    | some a => [Event.RemoveGroup a]
    | none => []
  if g.m_rallyPoint.x > 0 then
    (env.GetSectorOfPos g.m_rallyPoint).map (fun sector => ev1 ++ [Event.DecRallyPoints sector])
  else some ev1

/-- A call of a member function of a group, or a write to its public member `attack` from
outside (the attack manager and the attack do that). -/
inductive GroupOp
  | AddUnit (unitId : UnitId) (unitDefId : UnitDefId) (continentId : Int)
  | RemoveUnit (unitId attackerUnitId : UnitId)
  | GiveOrderToGroup (c : Command) (importance : ℚ) (task : UnitTask) (owner : String)
  | Update
  | TargetUnitKilled
  | AttackSector (sector : SectorId) (importance : ℚ)
  | Defend (unitId : UnitId) (enemyPosition : float3) (importance : Int)
  | Retreat (pos : float3)
  | UnitIdle (unit : Int)
  | BombTarget (target_id : Int) (target_pos : float3)
  | DefendAirSpace (pos : float3)
  | AirRaidUnit (unit_id : Int)
  | UpdateRallyPoint
  | GetNewRallyPoint
  | SetAttack (a : Option AttackId)

/-- The group after one call; `none` when the call dereferences a null sector. -/
def applyOp (env : Env) (g : AAIGroup) : GroupOp → Option AAIGroup
  | GroupOp.AddUnit u d c => some (AddUnit env g u d c).2.1
  | GroupOp.RemoveUnit u a => some (RemoveUnit env g u a).2.1
  | GroupOp.GiveOrderToGroup c i t o => some (GiveOrderToGroup env g c i t o).1
  | GroupOp.Update => some (Update env g)
  | GroupOp.TargetUnitKilled => some (TargetUnitKilled env g).1
  | GroupOp.AttackSector s i => some (AttackSector env g s i).1
  | GroupOp.Defend u p i => some (Defend env g u p i).1
  | GroupOp.Retreat p => some (Retreat env g p).1
  | GroupOp.UnitIdle u => some (UnitIdle env g u).1
  | GroupOp.BombTarget t p => some (BombTarget env g t p).1
  | GroupOp.DefendAirSpace p => some (DefendAirSpace env g p).1
  | GroupOp.AirRaidUnit u => some (AirRaidUnit env g u).1
  | GroupOp.UpdateRallyPoint => (UpdateRallyPoint env g).map Prod.fst
  | GroupOp.GetNewRallyPoint => (GetNewRallyPoint env g).map Prod.fst
  | GroupOp.SetAttack a => some { g with attack := a }

/-- The group after a sequence of calls, each made in the environment given with it (frames,
unit positions and the other answers of the collaborators change between calls). -/
def applyOps : AAIGroup → List (Env × GroupOp) → Option AAIGroup
  | g, [] => some g
  | g, (env, op) :: rest =>
    match applyOp env g op with
    | some g1 => applyOps g1 rest
    | none => none

/-- The admission test of `AddUnit`. -/
def AddUnitAdmits (g : AAIGroup) (unitDefId : UnitDefId) (continentId : Int) : Prop :=
  g.m_continentId = continentId ∧ g.m_groupDefId = unitDefId
    ∧ GetCurrentSize g < g.m_maxSize ∧ g.attack = none
    ∧ g.task ≠ GroupTask.GROUP_ATTACKING ∧ g.task ≠ GroupTask.GROUP_BOMBING

/-- Two group states with the same member list and the same maximum size. -/
def SameMembers (g g1 : AAIGroup) : Prop :=
  g1.m_units = g.m_units ∧ g1.m_maxSize = g.m_maxSize

end AAIGroup

/-! ## The attack manager -/

/-- A `std::vector<float>` with one entry per target type, by the index constants of
`AAITargetType` (`staticIndex`, `surfaceIndex`, `floaterIndex`, `submergedIndex`; `airIndex` is
the remaining one). The same shape stands for `MobileTargetTypeValues`, whose declaration is
missing from the sources. -/
structure TargetTypeValues where
  surfaceIndex : ℚ
  airIndex : ℚ
  floaterIndex : ℚ
  submergedIndex : ℚ
  staticIndex : ℚ
deriving DecidableEq, Repr

/-- A vector filled with `0.0f`. -/
def TargetTypeValues.zero : TargetTypeValues := ⟨0, 0, 0, 0, 0⟩

/-- Modelled from the spec: `MobileTargetTypeValues::AddValueForTargetType` is missing from
the sources; the count kept for the given target type grows by the given value. -/
def TargetTypeValues.AddValueForTargetType (v : TargetTypeValues) (t : ETargetType) (x : ℚ) :
    TargetTypeValues :=
  match t with
  | ETargetType.SURFACE => { v with surfaceIndex := v.surfaceIndex + x }
  | ETargetType.AIR => { v with airIndex := v.airIndex + x }
  | ETargetType.FLOATER => { v with floaterIndex := v.floaterIndex + x }
  | ETargetType.SUBMERGED => { v with submergedIndex := v.submergedIndex + x }
  | ETargetType.STATIC => { v with staticIndex := v.staticIndex + x }

/-- Modelled from the spec: the class `AAIAttack` is missing from the sources. The spec gives
it a set of participating groups and the frame of the last order; the manager reads
`m_lastAttackOrderInFrame`. -/
structure AAIAttack where
  m_groups : List GroupId
  m_lastAttackOrderInFrame : Int
  m_attackDestination : Option SectorId
deriving DecidableEq, Repr

/-- Calls made by the attack manager into its collaborators, queries included. -/
inductive ManagerEvent
  /-- The call `attack->CheckIfFailed()`. -/
  | CheckIfFailed (a : AttackId)
  /-- The call `attack->HasTargetBeenCleared()`. -/
  | HasTargetBeenCleared (a : AttackId)
  /-- The call `attack->DetermineSectorToContinueAttack()`. -/
  | DetermineSectorToContinueAttack (a : AttackId)
  /-- The call `ai->Map()->DetermineSectorToAttack(...)`. -/
  | DetermineSectorToAttack (combatPowerGlobal : TargetTypeValues)
      (combatPowerOnContinent : List TargetTypeValues)
      (numberOfAssaultGroupsOfTargetType : TargetTypeValues)
  /-- The expression `new AAIAttack(ai)`. -/
  | NewAttack (a : AttackId)
  /-- The call `attack->AddGroup(group)`. -/
  | AddGroup (a : AttackId) (g : GroupId)
  /-- The call `attack->AttackSector(sector)`. -/
  | AttackSector (a : AttackId) (s : SectorId)
  /-- The call `attack->StopAttack()`. -/
  | StopAttack (a : AttackId)
  /-- The statement `delete attack`. -/
  | DeleteAttack (a : AttackId)
deriving DecidableEq, Repr

/-- The state the attack manager works on: its slots `m_activeAttacks`, the group and attack
objects by address, the next free attack address, and the calls made so far. -/
structure World where
  m_activeAttacks : List (Option AttackId)
  groups : GroupId → AAIGroup
  attacks : AttackId → AAIAttack
  nextAttack : AttackId
  calls : List ManagerEvent

/-- The collaborators of the attack manager as far as they answer queries. The answers of
stateful collaborators may depend on everything that happened before the call. -/
structure ManagerEnv where
  env : Env
  MAX_ATTACKS : Nat
  /-- The value of `AAIMap::GetNumberOfContinents()`. -/
  GetNumberOfContinents : Nat
  /-- The list `ai->GetUnitGroupsList(category)`. -/
  GetUnitGroupsList : EUnitCategory → List GroupId
  /-- The value of `sector->GetContinentID()`. -/
  GetContinentID : SectorId → Int
  CheckIfFailed : World → AttackId → Bool
  HasTargetBeenCleared : World → AttackId → Bool
  DetermineSectorToContinueAttack : World → AttackId → Option SectorId
  DetermineSectorToAttack : World → TargetTypeValues → List TargetTypeValues → TargetTypeValues →
    Option SectorId
  /-- Whether `attack->AddGroup(group)` returns true. -/
  AddGroupAccepts : World → AttackId → GroupId → Bool
  /-- The value `m_maxSpottedCombatUnitsOfTargetType.GetValueOfTargetType(ETargetType::AIR)`. -/
  maxSpottedAirCombatUnits : ℚ
  /-- The value `GetRecentAttacksBy(ETargetType::AIR)`. -/
  recentAttacksByAir : ℚ

namespace World

/-- Appends a call to the record. -/
def record (w : World) (e : ManagerEvent) : World := { w with calls := w.calls ++ [e] }

/-- Writes the member `attack` of the group at address `g`. -/
def setGroupAttack (w : World) (g : GroupId) (a : Option AttackId) : World :=
  { w with groups := fun i => if i = g then { w.groups g with attack := a } else w.groups i }

end World

namespace AAIAttack

/-- Modelled from the spec: `AAIAttack::AddGroup` is missing from the sources. Whether the
attack accepts the group is left to the collaborator; an accepted group joins the set of
participating groups. -/
def AddGroup (menv : ManagerEnv) (w : World) (a : AttackId) (g : GroupId) : Bool × World :=
  let w1 := w.record (ManagerEvent.AddGroup a g)
  if menv.AddGroupAccepts w a g = true then
    let att := w1.attacks a
    let att1 := if g ∈ att.m_groups then att else { att with m_groups := att.m_groups ++ [g] }
    (true, { w1 with attacks := fun i => if i = a then att1 else w1.attacks i })
  else (false, w1)

/-- Modelled from the spec: `AAIAttack::AttackSector` is missing from the sources. The attack
order toward the sector is issued and the frame of the order recorded; the orders to the
member groups are given inside the attack and are not part of this record. -/
def AttackSector (menv : ManagerEnv) (w : World) (a : AttackId) (sector : SectorId) : World :=
  let w1 := w.record (ManagerEvent.AttackSector a sector)
  let att := w1.attacks a
  let att1 := { att with m_lastAttackOrderInFrame := menv.env.GetCurrentFrame,
                         m_attackDestination := some sector }
  { w1 with attacks := fun i => if i = a then att1 else w1.attacks i }

/-- Modelled from the spec: `AAIAttack::StopAttack` is missing from the sources. All member
groups are detached (their `attack` becomes null) and the set of participating groups is
emptied. -/
def StopAttack (w : World) (a : AttackId) : World :=
  let w1 := w.record (ManagerEvent.StopAttack a)
  let att := w1.attacks a
  { w1 with
    groups := fun i => if i ∈ att.m_groups then { w1.groups i with attack := none }
                       else w1.groups i
    attacks := fun i => if i = a then { att with m_groups := [] } else w1.attacks i }

/-- The expression `new AAIAttack(ai)`: the address of the new object and the state with it. -/
def new (w : World) : AttackId × World :=
  let a := w.nextAttack
  let w1 := w.record (ManagerEvent.NewAttack a)
  (a, { w1 with
        nextAttack := a + 1
        attacks := fun i => if i = a then ⟨[], 0, none⟩ else w1.attacks i })

end AAIAttack

namespace AAIAttackManager

/-- The four lists filled by `DetermineCombatUnitGroupsAvailableForattack`, and its counter. -/
structure AvailableGroups where
  availableAssaultGroupsGlobal : List GroupId
  availableAAGroupsGlobal : List GroupId
  availableAssaultGroupsOnContinent : List (List GroupId)
  availableAAGroupsOnContinent : List (List GroupId)
  numberOfAssaultUnitGroups : Int
deriving DecidableEq, Repr

/-- The statement `v[continentId].push_back(group)` on a vector of lists; `none` when the index
is outside the vector. -/
def pushOnContinent (v : List (List GroupId)) (continentId : Int) (group : GroupId) :
    Option (List (List GroupId)) :=
  if 0 ≤ continentId ∧ continentId.toNat < v.length then
    some (v.set continentId.toNat (v.getD continentId.toNat [] ++ [group]))
  else none

/-- The body of the inner loop of `DetermineCombatUnitGroupsAvailableForattack` for one
group. -/
def gatherGroup (menv : ManagerEnv) (w : World) (acc : AvailableGroups) (group : GroupId) :
    Option AvailableGroups :=
  let g := w.groups group
  if AAIGroup.IsAvailableForAttack menv.env g = true then
    let unitType := g.m_groupType
    if unitType.IsAssaultUnit = true then
      if g.m_moveType.CannotMoveToOtherContinents = true then
        (pushOnContinent acc.availableAssaultGroupsOnContinent g.m_continentId group).map
          (fun v => { acc with availableAssaultGroupsOnContinent := v,
                               numberOfAssaultUnitGroups := acc.numberOfAssaultUnitGroups + 1 })
      else
        some { acc with
               availableAssaultGroupsGlobal := acc.availableAssaultGroupsGlobal ++ [group],
               numberOfAssaultUnitGroups := acc.numberOfAssaultUnitGroups + 1 }
    else if unitType.IsAntiAir = true then
      if g.m_moveType.CannotMoveToOtherContinents = true then
        (pushOnContinent acc.availableAAGroupsOnContinent g.m_continentId group).map
          (fun v => { acc with availableAAGroupsOnContinent := v })
      else
        some { acc with availableAAGroupsGlobal := acc.availableAAGroupsGlobal ++ [group] }
    else some acc
  else some acc

/-- The loops of `DetermineCombatUnitGroupsAvailableForattack` over a list of groups. -/
def gatherGroups (menv : ManagerEnv) (w : World) :
    AvailableGroups → List GroupId → Option AvailableGroups
  | acc, [] => some acc
  | acc, group :: rest =>
    match gatherGroup menv w acc group with
    | some acc1 => gatherGroups menv w acc1 rest
    | none => none

/-- The vector `combatUnitCategories` of `DetermineCombatUnitGroupsAvailableForattack`. -/
def combatUnitCategories : List EUnitCategory :=
  [EUnitCategory.GROUND_COMBAT, EUnitCategory.HOVER_COMBAT, EUnitCategory.SEA_COMBAT,
   EUnitCategory.SUBMARINE_COMBAT]

/-- The groups visited by `DetermineCombatUnitGroupsAvailableForattack`, in the order of the
visit: the group lists of the four combat categories one after the other. -/
def visitedGroups (menv : ManagerEnv) : List GroupId :=
  menv.GetUnitGroupsList EUnitCategory.GROUND_COMBAT
    ++ menv.GetUnitGroupsList EUnitCategory.HOVER_COMBAT
    ++ menv.GetUnitGroupsList EUnitCategory.SEA_COMBAT
    ++ menv.GetUnitGroupsList EUnitCategory.SUBMARINE_COMBAT

/-- The member `DetermineCombatUnitGroupsAvailableForattack`, called as in `TryToLaunchAttack`
with empty lists and vectors of `numberOfContinents` empty lists; `none` when a continent id
is outside the vectors. -/
def DetermineCombatUnitGroupsAvailableForattack (menv : ManagerEnv) (w : World) :
    Option AvailableGroups :=
  gatherGroups menv w
    { availableAssaultGroupsGlobal := []
      availableAAGroupsGlobal := []
      availableAssaultGroupsOnContinent := List.replicate menv.GetNumberOfContinents []
      availableAAGroupsOnContinent := List.replicate menv.GetNumberOfContinents []
      numberOfAssaultUnitGroups := 0 }
    (visitedGroups menv)

/-- The body of the loop of `DetermineCombatPowerOfGroups` for one group. -/
def addCombatPowerOfGroup (env : Env) (g : AAIGroup)
    (acc : TargetTypeValues × TargetTypeValues) : TargetTypeValues × TargetTypeValues :=
  let numberOfGroupsOfTargetType := acc.2.AddValueForTargetType (AAIGroup.GetTargetType env g) 1
  let combatPower := { acc.1 with
    staticIndex := acc.1.staticIndex + AAIGroup.GetCombatPowerVsTargetType env g ETargetType.STATIC }
  let category := g.m_category
  if category = EUnitCategory.GROUND_COMBAT then
    ({ combatPower with surfaceIndex := combatPower.surfaceIndex
          + AAIGroup.GetCombatPowerVsTargetType env g ETargetType.SURFACE },
     numberOfGroupsOfTargetType)
  else if category = EUnitCategory.HOVER_COMBAT then
    ({ combatPower with
        surfaceIndex := combatPower.surfaceIndex
          + AAIGroup.GetCombatPowerVsTargetType env g ETargetType.SURFACE
        floaterIndex := combatPower.floaterIndex
          + AAIGroup.GetCombatPowerVsTargetType env g ETargetType.FLOATER },
     numberOfGroupsOfTargetType)
  else if category = EUnitCategory.SEA_COMBAT ∨ category = EUnitCategory.SUBMARINE_COMBAT then
    ({ combatPower with
        floaterIndex := combatPower.floaterIndex
          + AAIGroup.GetCombatPowerVsTargetType env g ETargetType.FLOATER
        submergedIndex := combatPower.submergedIndex
          + AAIGroup.GetCombatPowerVsTargetType env g ETargetType.SUBMERGED },
     numberOfGroupsOfTargetType)
  else (combatPower, numberOfGroupsOfTargetType)

/-- The member `DetermineCombatPowerOfGroups`: the vector `combatPower` and the counts
`numberOfGroupsOfTargetType` after the call. -/
def DetermineCombatPowerOfGroups (env : Env) (groups : List AAIGroup)
    (combatPower : TargetTypeValues) (numberOfGroupsOfTargetType : TargetTypeValues) :
    TargetTypeValues × TargetTypeValues :=
  groups.foldl (fun acc g => addCombatPowerOfGroup env g acc)
    (combatPower, numberOfGroupsOfTargetType)

/-- The loop of `TryToLaunchAttack` over the continents: the vector of combat powers per
continent and the counts after it. -/
def combatPowerOfContinents (env : Env) (w : World) :
    List (List GroupId) → TargetTypeValues → List TargetTypeValues × TargetTypeValues
  | [], counts => ([], counts)
  | groups :: rest, counts =>
    let r := DetermineCombatPowerOfGroups env (groups.map w.groups) TargetTypeValues.zero counts
    let rs := combatPowerOfContinents env w rest r.2
    (r.1 :: rs.1, rs.2)

/-- The member `SelectNumberOfGroups`: the value of its parameter `selectedGroupList` when it
returns. All three lists are passed by value, so this value is local to the call. -/
def SelectNumberOfGroups (selectedGroupList : List GroupId) (maxNumberOfGroups : Int)
    (groupList1 groupList2 : List GroupId) : List GroupId :=
  let step := fun (acc : List GroupId × Int) (group : GroupId) =>
    if acc.2 ≥ maxNumberOfGroups then acc else (acc.1 ++ [group], acc.2 + 1)
  ((groupList2.foldl step (groupList1.foldl step (selectedGroupList, 0)))).1

/-- The member `AddGroupsToAttack`. -/
def AddGroupsToAttack (menv : ManagerEnv) (w : World) (attack : AttackId) :
    List GroupId → World
  | [] => w
  | group :: rest =>
    let r := AAIAttack.AddGroup menv w attack group
    let w1 := if r.1 = true then r.2.setGroupAttack group (some attack) else r.2
    AddGroupsToAttack menv w1 attack rest

/-- The loop of `AbortAttack` over the slots: the first slot holding the attack is emptied. -/
def clearSlot (attack : AttackId) : List (Option AttackId) → List (Option AttackId)
  | [] => []
  | a :: rest => if a = some attack then none :: rest else a :: clearSlot attack rest

/-- The member `AbortAttack`. -/
def AbortAttack (w : World) (attack : AttackId) : World :=
  let w1 := AAIAttack.StopAttack w attack
  let w2 := { w1 with m_activeAttacks := clearSlot attack w1.m_activeAttacks }
  w2.record (ManagerEvent.DeleteAttack attack)

/-- The member `AbortAttackIfFailed`: the returned value and the state afterwards. -/
def AbortAttackIfFailed (menv : ManagerEnv) (w : World) (attack : AttackId) : Bool × World :=
  if menv.env.GetCurrentFrame - (w.attacks attack).m_lastAttackOrderInFrame < 30 then (false, w)
  else
    let w1 := w.record (ManagerEvent.CheckIfFailed attack)
    if menv.CheckIfFailed w attack = true then (true, AbortAttack w1 attack)
    else (false, w1)

/-- The member `AttackNextSectorOrAbort`. -/
def AttackNextSectorOrAbort (menv : ManagerEnv) (w : World) (attack : AttackId) : World :=
  if menv.env.GetCurrentFrame - (w.attacks attack).m_lastAttackOrderInFrame < 60 then w
  else
    let w1 := w.record (ManagerEvent.DetermineSectorToContinueAttack attack)
    match menv.DetermineSectorToContinueAttack w attack with
    | some dest => AAIAttack.AttackSector menv w1 attack dest
    | none => AbortAttack w1 attack

/-- The three arguments `TryToLaunchAttack` passes to `DetermineSectorToAttack`: the global
combat power, the combat power per continent and the number of assault groups per target
type. -/
def sectorQuery (menv : ManagerEnv) (w : World) (avail : AvailableGroups) :
    TargetTypeValues × List TargetTypeValues × TargetTypeValues :=
  let global := DetermineCombatPowerOfGroups menv.env
    (avail.availableAssaultGroupsGlobal.map w.groups) TargetTypeValues.zero TargetTypeValues.zero
  let onContinent := combatPowerOfContinents menv.env w
    avail.availableAssaultGroupsOnContinent global.2
  (global.1, onContinent.1, onContinent.2)

/-- The block of `TryToLaunchAttack` under `if(targetSector)`; `none` when the slot index or the
continent of the target sector is outside its vector. -/
def orderAttack (menv : ManagerEnv) (w : World) (avail : AvailableGroups)
    (availableAttackId : Int) (targetSector : SectorId) : Option World :=
  let r := AAIAttack.new w
  let attack := r.1
  if 0 ≤ availableAttackId ∧ availableAttackId.toNat < r.2.m_activeAttacks.length
      ∧ 0 ≤ menv.GetContinentID targetSector
      ∧ (menv.GetContinentID targetSector).toNat < menv.GetNumberOfContinents then
    let w2 := { r.2 with
      m_activeAttacks := r.2.m_activeAttacks.set availableAttackId.toNat (some attack) }
    let continent := (menv.GetContinentID targetSector).toNat
    let w3 := AddGroupsToAttack menv w2 attack
      (avail.availableAssaultGroupsOnContinent.getD continent [])
    let w4 := AddGroupsToAttack menv w3 attack avail.availableAssaultGroupsGlobal
    let w5 :=
      if menv.maxSpottedAirCombatUnits > 2 / 10 ∨ menv.recentAttacksByAir > 9 / 10 then
        let antiAirGroups : List GroupId := []
        let _selected := SelectNumberOfGroups antiAirGroups 1
          (avail.availableAAGroupsOnContinent.getD continent []) avail.availableAAGroupsGlobal
        AddGroupsToAttack menv w4 attack antiAirGroups
      else w4
    some (AAIAttack.AttackSector menv w5 attack targetSector)
  else none

/-- The member `TryToLaunchAttack`; `none` when an index is outside its vector. -/
def TryToLaunchAttack (menv : ManagerEnv) (w : World) (availableAttackId : Int) : Option World :=
  match DetermineCombatUnitGroupsAvailableForattack menv w with
  | none => none
  | some avail =>
    if avail.numberOfAssaultUnitGroups = 0 then some w
    else
      let q := sectorQuery menv w avail
      let w1 := w.record (ManagerEvent.DetermineSectorToAttack q.1 q.2.1 q.2.2)
      match menv.DetermineSectorToAttack w q.1 q.2.1 q.2.2 with
      | none => some w1
      | some targetSector => orderAttack menv w1 avail availableAttackId targetSector

/-- The body of the loop of `Update` for one slot: the state and `availableAttackId` after
it. -/
def updateSlot (menv : ManagerEnv) (st : World × Int) (attackId : Nat) : World × Int :=
  match st.1.m_activeAttacks.getD attackId none with
  | some attack =>
    let r := AbortAttackIfFailed menv st.1 attack
    if r.1 = true then (r.2, (attackId : Int))
    else
      let w1 := r.2.record (ManagerEvent.HasTargetBeenCleared attack)
      if menv.HasTargetBeenCleared r.2 attack = true then
        (AttackNextSectorOrAbort menv w1 attack, st.2)
      else (w1, st.2)
  | none => (st.1, (attackId : Int))

/-- The loop of `Update` over the slots. -/
def updateSlots (menv : ManagerEnv) (w : World) : World × Int :=
  (List.range w.m_activeAttacks.length).foldl (updateSlot menv) (w, -1)

/-- The member `AAIAttackManager::Update`. -/
def Update (menv : ManagerEnv) (w : World) : Option World :=
  let st := updateSlots menv w
  if st.2 ≥ 0 then TryToLaunchAttack menv st.1 st.2 else some st.1

/-- A group the gathering puts into an assault list: available for an attack and of an
assault-capable type. -/
def isAvailableAssault (menv : ManagerEnv) (w : World) (g : GroupId) : Bool :=
  AAIGroup.IsAvailableForAttack menv.env (w.groups g) && (w.groups g).m_groupType.IsAssaultUnit

/-- A group the gathering puts into an anti-air list: available for an attack, not of an
assault-capable type, and of an anti-air type. -/
def isAvailableAntiAir (menv : ManagerEnv) (w : World) (g : GroupId) : Bool :=
  AAIGroup.IsAvailableForAttack menv.env (w.groups g)
    && !(w.groups g).m_groupType.IsAssaultUnit && (w.groups g).m_groupType.IsAntiAir

/-- A group that cannot move to other continents. -/
def isContinentBound (w : World) (g : GroupId) : Bool :=
  (w.groups g).m_moveType.CannotMoveToOtherContinents

/-- A continent-bound group of continent `c`. -/
def isBoundTo (w : World) (c : Nat) (g : GroupId) : Bool :=
  isContinentBound w g && decide ((w.groups g).m_continentId = (c : Int))

/-- The continent id of a group is an index of the vectors with one entry per continent. -/
def continentInRange (menv : ManagerEnv) (w : World) (g : GroupId) : Prop :=
  0 ≤ (w.groups g).m_continentId
    ∧ (w.groups g).m_continentId.toNat < menv.GetNumberOfContinents

/-- What the gathering has added to its lists after visiting the groups `l`. -/
structure Gathered (menv : ManagerEnv) (w : World) (acc : AvailableGroups) (l : List GroupId)
    (res : AvailableGroups) : Prop where
  lenAssault : res.availableAssaultGroupsOnContinent.length
    = acc.availableAssaultGroupsOnContinent.length
  lenAA : res.availableAAGroupsOnContinent.length = acc.availableAAGroupsOnContinent.length
  assaultGlobal : res.availableAssaultGroupsGlobal = acc.availableAssaultGroupsGlobal
    ++ l.filter (fun g => isAvailableAssault menv w g && !isContinentBound w g)
  aaGlobal : res.availableAAGroupsGlobal = acc.availableAAGroupsGlobal
    ++ l.filter (fun g => isAvailableAntiAir menv w g && !isContinentBound w g)
  assaultOnContinent : ∀ c : Nat, res.availableAssaultGroupsOnContinent.getD c []
    = acc.availableAssaultGroupsOnContinent.getD c []
      ++ l.filter (fun g => isAvailableAssault menv w g && isBoundTo w c g)
  aaOnContinent : ∀ c : Nat, res.availableAAGroupsOnContinent.getD c []
    = acc.availableAAGroupsOnContinent.getD c []
      ++ l.filter (fun g => isAvailableAntiAir menv w g && isBoundTo w c g)
  count : res.numberOfAssaultUnitGroups = acc.numberOfAssaultUnitGroups
    + ((l.filter (fun g => isAvailableAssault menv w g)).length : Int)

/-- What `AddGroupsToAttack` has done to a state after offering the groups `l` to the attack
`a`: the groups the attack has accepted have joined its participating groups and have their
member `attack` set; nothing else has changed in any group. -/
structure Offered (menv : ManagerEnv) (a : AttackId) (l : List GroupId) (w res : World) :
    Prop where
  slots : res.m_activeAttacks = w.m_activeAttacks
  next : res.nextAttack = w.nextAttack
  calls : res.calls = w.calls ++ l.map (ManagerEvent.AddGroup a)
  attacks : ∀ b, b ≠ a → res.attacks b = w.attacks b
  lastOrder : (res.attacks a).m_lastAttackOrderInFrame = (w.attacks a).m_lastAttackOrderInFrame
  mono : ∀ g, g ∈ (w.attacks a).m_groups → g ∈ (res.attacks a).m_groups
  joined : ∀ g, g ∈ (res.attacks a).m_groups →
    g ∈ (w.attacks a).m_groups ∨ (res.groups g).attack = some a
  groups : ∀ g, res.groups g = w.groups g
    ∨ (g ∈ l ∧ g ∈ (res.attacks a).m_groups
        ∧ res.groups g = { w.groups g with attack := some a })
  accepted : ∀ g ∈ l, (∀ w1, menv.AddGroupAccepts w1 a g = true) →
    (res.groups g).attack = some a

/-- The groups offered to a new attack on continent `c`, in the order of the offers: the
available continent-bound assault groups of that continent, then the available assault groups
that can move to other continents, each in the order of the visit. -/
def offeredGroups (menv : ManagerEnv) (w : World) (c : Nat) : List GroupId :=
  (visitedGroups menv).filter (fun g => isAvailableAssault menv w g && isBoundTo w c g)
    ++ (visitedGroups menv).filter
        (fun g => isAvailableAssault menv w g && !isContinentBound w g)

end AAIAttackManager

/-- A call that evaluates failure or continuation of the attack `a`, orders it to attack,
stops it or deletes it. -/
def ManagerEvent.concerns (a : AttackId) : ManagerEvent → Bool
  | ManagerEvent.CheckIfFailed b => decide (b = a)
  | ManagerEvent.DetermineSectorToContinueAttack b => decide (b = a)
  | ManagerEvent.AttackSector b _ => decide (b = a)
  | ManagerEvent.StopAttack b => decide (b = a)
  | ManagerEvent.DeleteAttack b => decide (b = a)
  | _ => false

namespace AAIAttackManager

/-- The state `w`, reached from `w0` during `Update`, has left the attack `a` alone: it is
still in slot `i`, the number of slots, the attack object and the next free address are those
of `w0`, groups have kept continent and movement type, and no call made since `w0` concerns
`a`. -/
structure Kept (a : AttackId) (i : Nat) (w0 w : World) : Prop where
  slot : w.m_activeAttacks[i]? = some (some a)
  len : w.m_activeAttacks.length = w0.m_activeAttacks.length
  att : w.attacks a = w0.attacks a
  next : w.nextAttack = w0.nextAttack
  continent : ∀ g, (w.groups g).m_continentId = (w0.groups g).m_continentId
  moveType : ∀ g, (w.groups g).m_moveType = (w0.groups g).m_moveType
  calls : ∃ evs, w.calls = w0.calls ++ evs ∧ ∀ e ∈ evs, ManagerEvent.concerns a e = false

end AAIAttackManager

/-! ## A small concrete world

Ground assault units of one type on continent 0; unit 7 stands on the rally point
`(100, 0, 100)`, every other unit far away from it. -/

/-- An assault unit type that fights surface targets only. -/
def exampleUnitType : AAIUnitType :=
  { IsAssaultUnit := true
    IsAntiAir := false
    IsAntiSurface := true
    CanFightTargetType := fun t => decide (t = ETargetType.SURFACE) }

/-- The rally point handed out in the concrete world. -/
def exampleRallyPoint : float3 := ⟨100, 0, 100⟩

/-- The collaborators of the concrete world. -/
def exampleEnv : Env :=
  { AIR_ONLY_MOD := false
    MAX_GROUP_SIZE := 2
    MAX_AIR_GROUP_SIZE := 2
    MAX_ANTI_AIR_GROUP_SIZE := 2
    MAX_ARTY_GROUP_SIZE := 2
    MAX_NAVAL_GROUP_SIZE := 2
    MAX_SUBMARINE_GROUP_SIZE := 2
    MIN_AIR_SUPPORT_EFFICIENCY := 1
    SQUARE_SIZE := 8
    GetUnitType := fun _ => exampleUnitType
    GetUnitCategory := fun _ => EUnitCategory.GROUND_COMBAT
    GetMovementType := fun _ => ⟨true⟩
    GetCombatPower := fun _ _ => 3
    GetTargetType := fun _ => ETargetType.SURFACE
    GetMaxSpeed := fun _ => 1
    GetHealth := fun _ => 1
    unitDefIdIsValid := fun d => decide (d.id > 0)
    GetCurrentFrame := 100
    GetUnitPos := fun u => if u = 7 then exampleRallyPoint else ⟨5000, 0, 5000⟩
    GetUnitDefId := fun _ => ⟨1⟩
    GetSectorOfPos := fun _ => some 0
    DetermineAttackPosition := fun _ => ⟨900, 0, 900⟩
    distance_to_base := fun _ => 1
    DetermineRallyPoint := fun _ _ _ => (true, exampleRallyPoint)
    attackView := fun _ => ⟨false, []⟩
    apxsqrt := fun q => q
    rand := 0 }

/-- The group the constructor returns in the concrete world, for unit type 1 on continent 0. -/
def exampleGroup : AAIGroup :=
  { m_groupDefId := ⟨1⟩
    m_continentId := 0
    m_units := []
    m_maxSize := 2
    m_groupType := exampleUnitType
    m_category := EUnitCategory.GROUND_COMBAT
    m_moveType := ⟨true⟩
    m_targetPosition := ZeroVector
    m_targetSector := none
    m_rallyPoint := exampleRallyPoint
    attack := none
    task := GroupTask.GROUP_IDLE
    task_importance := 90
    lastCommand := Command.mk1 CommandId.CMD_STOP
    lastCommandFrame := 100 }

/-- The calls the constructor makes in the concrete world. -/
def exampleCtorCalls : List Event :=
  [Event.IncRallyPoints 0,
   Event.Log "Creating new group - max size: %i   unit type: %s   continent: %i"]

/-- Three admissions (the third is refused: the group is full) and one removal. -/
def exampleOps : List (Env × AAIGroup.GroupOp) :=
  [(exampleEnv, AAIGroup.GroupOp.AddUnit ⟨1⟩ ⟨1⟩ 0), (exampleEnv, AAIGroup.GroupOp.AddUnit ⟨7⟩ ⟨1⟩ 0),
   (exampleEnv, AAIGroup.GroupOp.AddUnit ⟨9⟩ ⟨1⟩ 0), (exampleEnv, AAIGroup.GroupOp.RemoveUnit ⟨1⟩ ⟨-1⟩)]

/-- A group whose only member is unit 7, attached to attack 5 and attacking. -/
def exampleLoneGroup : AAIGroup :=
  { exampleGroup with
    m_units := [⟨7⟩]
    attack := some 5
    task := GroupTask.GROUP_ATTACKING }

/-- The squared planar distance of a position to the rally point of a group, as computed in
`IsEntireGroupAtRallyPoint`. -/
def squaredDistToRallyPoint (g : AAIGroup) (position : float3) : ℚ :=
  (position.x - g.m_rallyPoint.x) * (position.x - g.m_rallyPoint.x)
    + (position.z - g.m_rallyPoint.z) * (position.z - g.m_rallyPoint.z)

/-- The wording of the specification for "every current member has reached the staging
position": each member is closer to the rally point than the fixed squared distance. -/
def EveryMemberAtRallyPoint (env : Env) (g : AAIGroup) : Prop :=
  ∀ u ∈ g.m_units,
    squaredDistToRallyPoint g (env.GetUnitPos u.id) < maxSquaredDistToRallyPoint env

/-- A group of two: unit 1 is far from the rally point, unit 7, added last, stands on it. -/
def exampleSpreadGroup : AAIGroup :=
  { exampleGroup with m_units := [⟨1⟩, ⟨7⟩] }

/-- An anti-air unit type that is not assault-capable. -/
def exampleAntiAirType : AAIUnitType :=
  { IsAssaultUnit := false
    IsAntiAir := true
    IsAntiSurface := false
    CanFightTargetType := fun t => decide (t = ETargetType.AIR) }

/-- An assault group whose only member, unit 7, stands on the rally point. -/
def exampleAssaultReady : AAIGroup :=
  { exampleGroup with m_units := [⟨7⟩] }

/-- An anti-air group whose only member, unit 7, stands on the rally point. -/
def exampleAntiAirReady : AAIGroup :=
  { exampleGroup with
    m_units := [⟨7⟩]
    m_groupType := exampleAntiAirType }

/-- The collaborators of the attack manager in the concrete world: one continent, the groups
at addresses 0 and 1 in the list of ground combat groups, air units spotted, and a region
selector that always answers sector 3. -/
def exampleManagerEnv : ManagerEnv :=
  { env := exampleEnv
    MAX_ATTACKS := 2
    GetNumberOfContinents := 1
    GetUnitGroupsList := fun c => if c = EUnitCategory.GROUND_COMBAT then [0, 1] else []
    GetContinentID := fun _ => 0
    CheckIfFailed := fun _ _ => false
    HasTargetBeenCleared := fun _ _ => false
    DetermineSectorToContinueAttack := fun _ _ => none
    DetermineSectorToAttack := fun _ _ _ _ => some 3
    AddGroupAccepts := fun _ _ _ => true
    maxSpottedAirCombatUnits := 1
    recentAttacksByAir := 0 }

/-- Two empty slots; the assault group at address 0, the anti-air group everywhere else. -/
def exampleWorld : World :=
  { m_activeAttacks := [none, none]
    groups := fun i => if i = 0 then exampleAssaultReady else exampleAntiAirReady
    attacks := fun _ => ⟨[], 0, none⟩
    nextAttack := 0
    calls := [] }

/-- What the gathering returns in `exampleWorld`. -/
def exampleAvail : AAIAttackManager.AvailableGroups :=
  { availableAssaultGroupsGlobal := []
    availableAAGroupsGlobal := []
    availableAssaultGroupsOnContinent := [[0]]
    availableAAGroupsOnContinent := [[1]]
    numberOfAssaultUnitGroups := 1 }

/-- Two empty slots and anti-air groups only. -/
def exampleWorldAntiAirOnly : World :=
  { exampleWorld with groups := fun _ => exampleAntiAirReady }

/-- What the gathering returns in `exampleWorldAntiAirOnly`. -/
def exampleAvailAntiAirOnly : AAIAttackManager.AvailableGroups :=
  { availableAssaultGroupsGlobal := []
    availableAAGroupsGlobal := []
    availableAssaultGroupsOnContinent := [[]]
    availableAAGroupsOnContinent := [[0, 1]]
    numberOfAssaultUnitGroups := 0 }

/-- Slot 0 holds attack 0, ordered to attack in frame 90 (the current frame is 100); the
assault group at address 0 belongs to it. -/
def exampleWorldActive : World :=
  { m_activeAttacks := [some 0, none]
    groups := fun i =>
      if i = 0 then { exampleAssaultReady with attack := some 0 } else exampleAntiAirReady
    attacks := fun _ => ⟨[0], 90, some 3⟩
    nextAttack := 1
    calls := [] }

/-- `AbortAttackIfFailed` is blocked by its gate: it returns false and has made no call. -/
def AAIAttackManager.AbortAttackIfFailedBlocked (menv : ManagerEnv) (w : World)
    (attack : AttackId) : Prop :=
  (AAIAttackManager.AbortAttackIfFailed menv w attack).1 = false
    ∧ (AAIAttackManager.AbortAttackIfFailed menv w attack).2.calls = w.calls

/-- `AttackNextSectorOrAbort` is blocked by its gate: it has made no call. -/
def AAIAttackManager.AttackNextSectorOrAbortBlocked (menv : ManagerEnv) (w : World)
    (attack : AttackId) : Prop :=
  (AAIAttackManager.AttackNextSectorOrAbort menv w attack).calls = w.calls

/-- The concrete world with the last attack order of attack 0 in frame 60, 40 frames before
the current frame. -/
def exampleWorldOlder : World :=
  { exampleWorldActive with attacks := fun _ => ⟨[0], 60, some 3⟩ }

/-- The concrete world with the last attack order of attack 0 in frame 0, 100 frames before
the current frame. -/
def exampleWorldOld : World :=
  { exampleWorldActive with attacks := fun _ => ⟨[0], 0, some 3⟩ }

/-- The collaborators of the attack manager in the concrete world, with every attack
reporting its target as cleared. -/
def exampleManagerEnvCleared : ManagerEnv :=
  { exampleManagerEnv with HasTargetBeenCleared := fun _ _ => true }

/-- Both slots are occupied: attack 0, with the assault group at address 0, was last ordered
in frame 0; attack 1, without groups, in frame 95 (the current frame is 100). -/
def exampleWorldFull : World :=
  { m_activeAttacks := [some 0, some 1]
    groups := fun i =>
      if i = 0 then { exampleAssaultReady with attack := some 0 } else exampleAntiAirReady
    attacks := fun i => if i = 0 then ⟨[0], 0, some 3⟩ else ⟨[], 95, some 3⟩
    nextAttack := 2
    calls := [] }

namespace AAIAttackManager

/-- The constructor `AAIAttackManager::AAIAttackManager`: `MAX_ATTACKS` empty slots. -/
def ctor (menv : ManagerEnv) : List (Option AttackId) :=
  List.replicate menv.MAX_ATTACKS none

/-- No attack is held by two slots. -/
def SlotsDistinct (w : World) : Prop :=
  ∀ (i j : Nat) (a : AttackId),
    w.m_activeAttacks[i]? = some (some a) → w.m_activeAttacks[j]? = some (some a) → i = j

/-- The attacks in the slots have been allocated: their addresses are below the next free
address. -/
def SlotsAllocated (w : World) : Prop :=
  ∀ (i : Nat) (a : AttackId), w.m_activeAttacks[i]? = some (some a) → a < w.nextAttack

/-- What a launch that got the target sector `s` has done to the state `w`: the result
`res` holds the new attack in the slot, the available assault groups of the continent of `s`
and the global ones have been offered, and the accepted ones belong to the new attack. -/
structure Launched (menv : ManagerEnv) (w : World) (availableAttackId : Int) (s : SectorId)
    (avail : AvailableGroups) (res : World) : Prop where
  slots : res.m_activeAttacks
    = w.m_activeAttacks.set availableAttackId.toNat (some w.nextAttack)
  next : res.nextAttack = w.nextAttack + 1
  calls : res.calls = w.calls
    ++ [ManagerEvent.DetermineSectorToAttack (sectorQuery menv w avail).1
          (sectorQuery menv w avail).2.1 (sectorQuery menv w avail).2.2,
        ManagerEvent.NewAttack w.nextAttack]
    ++ (offeredGroups menv w (menv.GetContinentID s).toNat).map
          (ManagerEvent.AddGroup w.nextAttack)
    ++ [ManagerEvent.AttackSector w.nextAttack s]
  groups : ∀ g, res.groups g = w.groups g
    ∨ (g ∈ offeredGroups menv w (menv.GetContinentID s).toNat
        ∧ g ∈ (res.attacks w.nextAttack).m_groups
        ∧ res.groups g = { w.groups g with attack := some w.nextAttack })
  accepted : ∀ g ∈ offeredGroups menv w (menv.GetContinentID s).toNat,
    (∀ w1, menv.AddGroupAccepts w1 w.nextAttack g = true) →
      (res.groups g).attack = some w.nextAttack
  attacks : ∀ b, b ≠ w.nextAttack → res.attacks b = w.attacks b
  joined : ∀ g ∈ (res.attacks w.nextAttack).m_groups, (res.groups g).attack = some w.nextAttack

/-- The three ways `TryToLaunchAttack` returns: without an available assault group, without
a target sector, or after a launch. -/
inductive LaunchOutcome (menv : ManagerEnv) (w : World) (availableAttackId : Int)
    (avail : AvailableGroups) (res : World) : Prop
  | noGroups (h0 : avail.numberOfAssaultUnitGroups = 0) (hres : res = w)
  | noTarget (h0 : avail.numberOfAssaultUnitGroups ≠ 0)
      (hsel : menv.DetermineSectorToAttack w (sectorQuery menv w avail).1
        (sectorQuery menv w avail).2.1 (sectorQuery menv w avail).2.2 = none)
      (hres : res = w.record (ManagerEvent.DetermineSectorToAttack (sectorQuery menv w avail).1
        (sectorQuery menv w avail).2.1 (sectorQuery menv w avail).2.2))
  | launched (h0 : avail.numberOfAssaultUnitGroups ≠ 0) (s : SectorId)
      (hsel : menv.DetermineSectorToAttack w (sectorQuery menv w avail).1
        (sectorQuery menv w avail).2.1 (sectorQuery menv w avail).2.2 = some s)
      (hl : Launched menv w availableAttackId s avail res)

end AAIAttackManager

/-- The expression `new AAIAttack(ai)` as a call. -/
def ManagerEvent.isNewAttack : ManagerEvent → Bool
  | ManagerEvent.NewAttack _ => true
  | _ => false

/-- The call of the region selector `DetermineSectorToAttack`. -/
def ManagerEvent.isSectorQuery : ManagerEvent → Bool
  | ManagerEvent.DetermineSectorToAttack _ _ _ => true
  | _ => false

/-- A call made only by `TryToLaunchAttack`. -/
def ManagerEvent.isLaunchCall : ManagerEvent → Bool
  | ManagerEvent.DetermineSectorToAttack _ _ _ => true
  | ManagerEvent.NewAttack _ => true
  | ManagerEvent.AddGroup _ _ => true
  | _ => false

namespace AAIAttackManager

/-- What the body of the loop of `Update` for slot `k` may do to a state: it empties slot `k`
or leaves the slots alone, keeps the next free address, continent and movement type of every
group, and makes no call of a launch. -/
structure SlotStep (k : Nat) (w res : World) : Prop where
  slots : res.m_activeAttacks = w.m_activeAttacks
    ∨ res.m_activeAttacks = w.m_activeAttacks.set k none
  next : res.nextAttack = w.nextAttack
  continent : ∀ g, (res.groups g).m_continentId = (w.groups g).m_continentId
  moveType : ∀ g, (res.groups g).m_moveType = (w.groups g).m_moveType
  calls : ∃ evs, res.calls = w.calls ++ evs ∧ ∀ e ∈ evs, ManagerEvent.isLaunchCall e = false

/-- The state of the loop of `Update` over the slots of `w0` after the slots below `k`. -/
structure Pass (menv : ManagerEnv) (w0 : World) (k : Nat) (st : World × Int) : Prop where
  len : st.1.m_activeAttacks.length = w0.m_activeAttacks.length
  next : st.1.nextAttack = w0.nextAttack
  distinct : SlotsDistinct st.1
  alloc : SlotsAllocated st.1
  tail : ∀ j : Nat, k ≤ j → st.1.m_activeAttacks[j]? = w0.m_activeAttacks[j]?
  avail : st.2 = -1
    ∨ (0 ≤ st.2 ∧ st.2.toNat < w0.m_activeAttacks.length
        ∧ st.1.m_activeAttacks[st.2.toNat]? = some none)
  continent : ∀ g, (st.1.groups g).m_continentId = (w0.groups g).m_continentId
  moveType : ∀ g, (st.1.groups g).m_moveType = (w0.groups g).m_moveType
  calls : ∃ evs, st.1.calls = w0.calls ++ evs ∧ ∀ e ∈ evs, ManagerEvent.isLaunchCall e = false
  quiet : (∀ j : Nat, w0.m_activeAttacks[j]? ≠ some none) →
    (∀ w1 a, menv.CheckIfFailed w1 a = false) → st.2 = -1

end AAIAttackManager

/-- Entry by entry sum of two vectors. -/
def TargetTypeValues.add (a b : TargetTypeValues) : TargetTypeValues :=
  { surfaceIndex := a.surfaceIndex + b.surfaceIndex
    airIndex := a.airIndex + b.airIndex
    floaterIndex := a.floaterIndex + b.floaterIndex
    submergedIndex := a.submergedIndex + b.submergedIndex
    staticIndex := a.staticIndex + b.staticIndex }

/-- Entry by entry sum of a list of vectors. -/
def TargetTypeValues.sum (l : List TargetTypeValues) : TargetTypeValues :=
  l.foldr TargetTypeValues.add TargetTypeValues.zero

/-- The wording of the specification for what one group adds to the combat power: member
count times power against STATIC in any case; against SURFACE for ground and hover combat;
against FLOATER for hover, sea and submarine combat; against SUBMERGED for sea and submarine
combat; nothing against AIR. -/
def powerContribution (env : Env) (g : AAIGroup) : TargetTypeValues :=
  { staticIndex := (g.m_units.length : ℚ) * env.GetCombatPower g.m_groupDefId ETargetType.STATIC
    surfaceIndex :=
      if g.m_category = EUnitCategory.GROUND_COMBAT ∨ g.m_category = EUnitCategory.HOVER_COMBAT
      then (g.m_units.length : ℚ) * env.GetCombatPower g.m_groupDefId ETargetType.SURFACE
      else 0
    floaterIndex :=
      if g.m_category = EUnitCategory.HOVER_COMBAT ∨ g.m_category = EUnitCategory.SEA_COMBAT
          ∨ g.m_category = EUnitCategory.SUBMARINE_COMBAT
      then (g.m_units.length : ℚ) * env.GetCombatPower g.m_groupDefId ETargetType.FLOATER
      else 0
    submergedIndex :=
      if g.m_category = EUnitCategory.SEA_COMBAT ∨ g.m_category = EUnitCategory.SUBMARINE_COMBAT
      then (g.m_units.length : ℚ) * env.GetCombatPower g.m_groupDefId ETargetType.SUBMERGED
      else 0
    airIndex := 0 }

/-- The wording of the specification for what one group adds to the group counts: 1 at the
target type of the group. -/
def countContribution (env : Env) (g : AAIGroup) : TargetTypeValues :=
  { surfaceIndex := if env.GetTargetType g.m_groupDefId = ETargetType.SURFACE then 1 else 0
    airIndex := if env.GetTargetType g.m_groupDefId = ETargetType.AIR then 1 else 0
    floaterIndex := if env.GetTargetType g.m_groupDefId = ETargetType.FLOATER then 1 else 0
    submergedIndex := if env.GetTargetType g.m_groupDefId = ETargetType.SUBMERGED then 1 else 0
    staticIndex := if env.GetTargetType g.m_groupDefId = ETargetType.STATIC then 1 else 0 }

namespace AAIAttackManager

/-- The lists filled by the gathering, by name: the two global lists and, for each continent,
the assault list and the anti-air list. -/
inductive Bucket
  | assaultGlobal
  | antiAirGlobal
  | assaultOnContinent (c : Nat)
  | antiAirOnContinent (c : Nat)
deriving DecidableEq, Repr

/-- The list of a bucket. -/
def AvailableGroups.bucket (avail : AvailableGroups) : Bucket → List GroupId
  | Bucket.assaultGlobal => avail.availableAssaultGroupsGlobal
  | Bucket.antiAirGlobal => avail.availableAAGroupsGlobal
  | Bucket.assaultOnContinent c => avail.availableAssaultGroupsOnContinent.getD c []
  | Bucket.antiAirOnContinent c => avail.availableAAGroupsOnContinent.getD c []

end AAIAttackManager

namespace AAIGroup

/-- Whether no `AddUnit` call of the sequence is given a unit that is a member of the group
at the time of the call. -/
def addsOnlyNewUnits : AAIGroup → List (Env × GroupOp) → Bool
  | _, [] => true
  | g, (env, op) :: rest =>
    (match op with
      | GroupOp.AddUnit u _ _ => decide (u ∉ g.m_units)
      | _ => true)
    && (match applyOp env g op with
      | some g1 => addsOnlyNewUnits g1 rest
      | none => true)

end AAIGroup

/-- The same unit admitted twice. -/
def exampleOpsTwice : List (Env × AAIGroup.GroupOp) :=
  [(exampleEnv, AAIGroup.GroupOp.AddUnit ⟨7⟩ ⟨1⟩ 0), (exampleEnv, AAIGroup.GroupOp.AddUnit ⟨7⟩ ⟨1⟩ 0)]

/-- The collaborators of the concrete world 100 frames later. -/
def exampleEnvLater : Env :=
  { exampleEnv with GetCurrentFrame := 200 }

/-- The ready assault group with another task and another frame of the last command. -/
def exampleAssaultReadyDefending : AAIGroup :=
  { exampleAssaultReady with task := GroupTask.GROUP_DEFENDING, lastCommandFrame := 3 }

/-- A retreating group, last commanded in frame 0, whose target sector is sector 0. -/
def exampleRetreating : AAIGroup :=
  { exampleAssaultReady with
    task := GroupTask.GROUP_RETREATING
    lastCommandFrame := 0
    m_targetSector := some 0 }

/-- An order given to a unit: a call `ai->Getexecute()->GiveOrder(...)`. -/
def Event.isOrder : Event → Bool
  | Event.GiveOrder _ _ _ => true
  | _ => false

/-- A hint forwarded to the air force manager: a call `ai->Getaf()->CheckTarget(...)`. -/
def Event.isCheckTarget : Event → Bool
  | Event.CheckTarget _ _ _ => true
  | _ => false

namespace AAIGroup

/-- The group after one call and the calls made by it; `none` when the call dereferences a
null sector. -/
def applyOpCalls (env : Env) (g : AAIGroup) : GroupOp → Option (AAIGroup × List Event)
  | GroupOp.AddUnit u d c => some (AddUnit env g u d c).2
  | GroupOp.RemoveUnit u a => some (RemoveUnit env g u a).2
  | GroupOp.GiveOrderToGroup c i t o => some (GiveOrderToGroup env g c i t o)
  | GroupOp.Update => some (Update env g, [])
  | GroupOp.TargetUnitKilled => some (TargetUnitKilled env g)
  | GroupOp.AttackSector s i => some (AttackSector env g s i)
  | GroupOp.Defend u p i => some (Defend env g u p i)
  | GroupOp.Retreat p => some (Retreat env g p)
  | GroupOp.UnitIdle u => some (UnitIdle env g u)
  | GroupOp.BombTarget t p => some (BombTarget env g t p)
  | GroupOp.DefendAirSpace p => some (DefendAirSpace env g p)
  | GroupOp.AirRaidUnit u => some (AirRaidUnit env g u)
  | GroupOp.UpdateRallyPoint => UpdateRallyPoint env g
  | GroupOp.GetNewRallyPoint => GetNewRallyPoint env g
  | GroupOp.SetAttack a => some ({ g with attack := a }, [])

/-- The attacker for which `RemoveUnit` calls `CheckTarget` once members remain: a valid unit
type, not in an air-only mod, that is a static defence, or a ground or hover combat unit whose
combat power against surface targets exceeds `MIN_AIR_SUPPORT_EFFICIENCY`, or a sea combat unit
whose combat power against floating targets does. -/
def attackerWorthAirSupport (env : Env) (attackerUnitId : UnitId) : Prop :=
  env.unitDefIdIsValid (env.GetUnitDefId attackerUnitId) = true ∧ env.AIR_ONLY_MOD = false
  ∧ (env.GetUnitCategory (env.GetUnitDefId attackerUnitId) = EUnitCategory.STATIC_DEFENCE
    ∨ (env.GetUnitCategory (env.GetUnitDefId attackerUnitId) = EUnitCategory.GROUND_COMBAT
      ∧ env.GetCombatPower (env.GetUnitDefId attackerUnitId) ETargetType.SURFACE
          > env.MIN_AIR_SUPPORT_EFFICIENCY)
    ∨ (env.GetUnitCategory (env.GetUnitDefId attackerUnitId) = EUnitCategory.SEA_COMBAT
      ∧ env.GetCombatPower (env.GetUnitDefId attackerUnitId) ETargetType.FLOATER
          > env.MIN_AIR_SUPPORT_EFFICIENCY)
    ∨ (env.GetUnitCategory (env.GetUnitDefId attackerUnitId) = EUnitCategory.HOVER_COMBAT
      ∧ env.GetCombatPower (env.GetUnitDefId attackerUnitId) ETargetType.SURFACE
          > env.MIN_AIR_SUPPORT_EFFICIENCY))

end AAIGroup

/-- The concrete world where every unit is a static defence without combat power. -/
def exampleEnvStaticDefence : Env :=
  { exampleEnv with
    GetUnitCategory := fun _ => EUnitCategory.STATIC_DEFENCE
    GetCombatPower := fun _ _ => 0 }

/-- A group with the two members 1 and 7. -/
def exampleGroupOfTwo : AAIGroup :=
  { exampleGroup with m_units := [⟨1⟩, ⟨7⟩] }

namespace AAIGroup

/-- The first part of `GetNewRallyPoint`: the old rally point, if there is one, is taken from
the count of its sector; `none` when that sector is null. -/
def releaseRallyPoint (env : Env) (g : AAIGroup) : Option (List Event) :=
  if g.m_rallyPoint.x > 0 then
    (env.GetSectorOfPos g.m_rallyPoint).map (fun sector => [Event.DecRallyPoints sector])
  else some []

/-- The second part of `GetNewRallyPoint`, from the call of `DetermineRallyPoint` on, after the
calls `ev1` of the first part. -/
def acquireRallyPoint (env : Env) (g : AAIGroup) (ev1 : List Event) :
    Option (AAIGroup × List Event) :=
  let found := env.DetermineRallyPoint g.m_rallyPoint g.m_moveType g.m_continentId
  let g1 := { g with m_rallyPoint := found.2 }
  if found.1 = true then
    match env.GetSectorOfPos g1.m_rallyPoint with
    | none => none
    | some sector =>
      if g1.task = GroupTask.GROUP_IDLE then
        let c := (Command.mk1 CommandId.CMD_MOVE).PushPos g1.m_rallyPoint
        let r := GiveOrderToGroup env g1 c 90 UnitTask.HEADING_TO_RALLYPOINT "Group::RallyPoint"
        some (r.1, ev1 ++ [Event.IncRallyPoints sector] ++ r.2)
      else some (g1, ev1 ++ [Event.IncRallyPoints sector])
  else
    some (g1, ev1 ++ [Event.Log "Failed to determine rally point for goup of unit type %s!"])

end AAIGroup

/-! ## The rally point counters of the sectors -/

/-- A statement `--sector->rally_points` or `++sector->rally_points`. -/
def Event.isRallyCount : Event → Bool
  | Event.DecRallyPoints _ => true
  | Event.IncRallyPoints _ => true
  | _ => false

/-- What a call adds to the member `rally_points` of the sector `sector`. -/
def Event.rallyDelta (sector : SectorId) : Event → Int
  | Event.DecRallyPoints s => if s = sector then -1 else 0
  | Event.IncRallyPoints s => if s = sector then 1 else 0
  | _ => 0

/-- The members `rally_points` of the sectors after one call. -/
def Event.applyToRallyPoints (rally_points : SectorId → Int) : Event → SectorId → Int
  | Event.DecRallyPoints s => Function.update rally_points s (rally_points s - 1)
  | Event.IncRallyPoints s => Function.update rally_points s (rally_points s + 1)
  | _ => rally_points

/-- The members `rally_points` of the sectors after a sequence of calls. -/
def applyRallyEvents (rally_points : SectorId → Int) (evs : List Event) : SectorId → Int :=
  evs.foldl Event.applyToRallyPoints rally_points

/-- The live groups and the members `rally_points` of the sectors. -/
structure GroupSystem where
  groups : List AAIGroup
  rally_points : SectorId → Int

/-- No group and every count 0. -/
def GroupSystem.empty : GroupSystem := ⟨[], fun _ => 0⟩

/-- The construction of a group, a call of an operation of the live group at index `i`, or the
destruction of that group. -/
inductive SystemOp
  | create (unitDefId : UnitDefId) (continentId : Int)
  | call (i : Nat) (op : AAIGroup.GroupOp)
  | destroy (i : Nat)

/-- The system after one step; `none` when the step dereferences a null sector or names a
group that is not live. -/
def stepSystem (env : Env) (s : GroupSystem) : SystemOp → Option GroupSystem
  | SystemOp.create unitDefId continentId =>
    match AAIGroup.ctor env unitDefId continentId with
    | some r => some ⟨s.groups ++ [r.1], applyRallyEvents s.rally_points r.2⟩
    | none => none
  | SystemOp.call i op =>
    match s.groups[i]? with
    | some g =>
      match AAIGroup.applyOpCalls env g op with
      | some r => some ⟨s.groups.set i r.1, applyRallyEvents s.rally_points r.2⟩
      | none => none
    | none => none
  | SystemOp.destroy i =>
    match s.groups[i]? with
    | some g =>
      match AAIGroup.dtor env g with
      | some ev => some ⟨s.groups.eraseIdx i, applyRallyEvents s.rally_points ev⟩
      | none => none
    | none => none

/-- The system after a sequence of steps, each made in the environment given with it. -/
def runSystem : GroupSystem → List (Env × SystemOp) → Option GroupSystem
  | s, [] => some s
  | s, (env, op) :: rest =>
    match stepSystem env s op with
    | some s1 => runSystem s1 rest
    | none => none

/-- Whether the group has a valid rally point (`m_rallyPoint.x > 0.0f`) that lies in the
sector `sector`. -/
def hasRallyPointIn (sectorOf : float3 → Option SectorId) (sector : SectorId) (g : AAIGroup) :
    Bool :=
  decide (g.m_rallyPoint.x > 0 ∧ sectorOf g.m_rallyPoint = some sector)

/-- The count of every sector is the number of live groups whose valid rally point lies in
it. -/
def RallyPointsBalanced (sectorOf : float3 → Option SectorId) (s : GroupSystem) : Prop :=
  ∀ sector : SectorId,
    s.rally_points sector = ((s.groups.countP (hasRallyPointIn sectorOf sector) : Nat) : Int)

/-- A condition on the answers of `DetermineRallyPoint`, which `GetNewRallyPoint` does not
enforce: the position left in the reference argument is valid (`x > 0`) when a rally point was
found, and is not valid when none was found. -/
def ProviderWritesValidity (env : Env) : Prop :=
  ∀ (p : float3) (m : AAIMovementType) (c : Int),
    ((env.DetermineRallyPoint p m c).1 = true → (env.DetermineRallyPoint p m c).2.x > 0)
    ∧ ((env.DetermineRallyPoint p m c).1 = false → ¬ (env.DetermineRallyPoint p m c).2.x > 0)

/-- A call leaves the rally point of the group `g` as it was and does not count. -/
def KeepsRallyPoint (g : AAIGroup) (r : AAIGroup × List Event) : Prop :=
  r.1.m_rallyPoint = g.m_rallyPoint ∧ ∀ e ∈ r.2, e.isRallyCount = false

/-- The concrete world when no rally point can be found. -/
def exampleEnvNoRallyPoint : Env :=
  { exampleEnv with DetermineRallyPoint := fun _ _ _ => (false, ZeroVector) }

/-- Two groups are created, the first loses its rally point and is destroyed. -/
def exampleSystemRun : List (Env × SystemOp) :=
  [(exampleEnv, SystemOp.create ⟨1⟩ 0),
   (exampleEnv, SystemOp.create ⟨1⟩ 0),
   (exampleEnvNoRallyPoint, SystemOp.call 0 AAIGroup.GroupOp.GetNewRallyPoint),
   (exampleEnv, SystemOp.destroy 0)]

/-- The concrete world when no rally point can be found and `DetermineRallyPoint` leaves its
reference argument as it was. -/
def exampleEnvRallyPointKept : Env :=
  { exampleEnv with DetermineRallyPoint := fun p _ _ => (false, p) }

/-- A group is created and fails to get a new rally point. -/
def exampleFailedRun : List (Env × SystemOp) :=
  [(exampleEnv, SystemOp.create ⟨1⟩ 0),
   (exampleEnvRallyPointKept, SystemOp.call 0 AAIGroup.GroupOp.GetNewRallyPoint)]

/-- A group is created, fails to get a new rally point and is destroyed. -/
def exampleFailedRunDestroyed : List (Env × SystemOp) :=
  exampleFailedRun ++ [(exampleEnv, SystemOp.destroy 0)]

/-- The group of the example after it has lost its rally point. -/
def exampleGroupNoRallyPoint : AAIGroup :=
  { exampleGroup with m_rallyPoint := ZeroVector }

/-! ## Theorems -/

section GroupTheorems

open AAIGroup

theorem AddUnit_of_admits (env : Env) (g : AAIGroup) (unitId : UnitId) (unitDefId : UnitDefId)
    (continentId : Int) (h : AddUnitAdmits g unitDefId continentId) :
    (AddUnit env g unitId unitDefId continentId).1 = true
    ∧ (AddUnit env g unitId unitDefId continentId).2.1
        = { g with m_units := g.m_units ++ [unitId] } := by
  unfold AddUnitAdmits at h
  unfold AddUnit
  rw [if_pos h]
  by_cases hr : g.m_rallyPoint.x > 0
  · rw [if_pos hr]; exact ⟨rfl, rfl⟩
  · rw [if_neg hr]; exact ⟨rfl, rfl⟩

theorem AddUnit_of_not_admits (env : Env) (g : AAIGroup) (unitId : UnitId)
    (unitDefId : UnitDefId) (continentId : Int) (h : ¬ AddUnitAdmits g unitDefId continentId) :
    AddUnit env g unitId unitDefId continentId = (false, g, []) := by
  unfold AddUnitAdmits at h
  unfold AddUnit
  rw [if_neg h]

/-- C1: `AddUnit` returns true exactly when continent and unit type are those of the group,
the current size is strictly below the maximum size, the group has no attack and its task is
neither attacking nor bombing; on true the unit is appended to the member list, on false the
group is unchanged and no call is made. -/
theorem AddUnit_contract (env : Env) (g : AAIGroup) (unitId : UnitId) (unitDefId : UnitDefId)
    (continentId : Int) :
    ((AddUnit env g unitId unitDefId continentId).1 = true ↔
        (continentId = g.m_continentId ∧ unitDefId = g.m_groupDefId
          ∧ GetCurrentSize g < g.m_maxSize ∧ g.attack = none
          ∧ g.task ≠ GroupTask.GROUP_ATTACKING ∧ g.task ≠ GroupTask.GROUP_BOMBING))
    ∧ ((AddUnit env g unitId unitDefId continentId).1 = true →
        (AddUnit env g unitId unitDefId continentId).2.1.m_units = g.m_units ++ [unitId])
    ∧ ((AddUnit env g unitId unitDefId continentId).1 = false →
        (AddUnit env g unitId unitDefId continentId).2.1 = g
          ∧ (AddUnit env g unitId unitDefId continentId).2.2 = []) := by
  by_cases h : AddUnitAdmits g unitDefId continentId
  · obtain ⟨hret, hg⟩ := AddUnit_of_admits env g unitId unitDefId continentId h
    obtain ⟨h1, h2, h3⟩ := h
    refine ⟨⟨fun _ => ⟨h1.symm, h2.symm, h3⟩, fun _ => hret⟩, fun _ => ?_, fun hf => ?_⟩
    · rw [hg]
    · rw [hret] at hf; exact absurd hf.symm Bool.false_ne_true
  · have hr := AddUnit_of_not_admits env g unitId unitDefId continentId h
    rw [hr]
    refine ⟨⟨fun hf => absurd hf Bool.false_ne_true, fun hc => ?_⟩,
      fun hf => absurd hf Bool.false_ne_true, fun _ => ⟨rfl, rfl⟩⟩
    exact absurd ⟨hc.1.symm, hc.2.1.symm, hc.2.2⟩ h

/-! ### Member list and maximum size under the operations of a group -/

theorem RemoveUnit_units (env : Env) (g : AAIGroup) (unitId attackerUnitId : UnitId) :
    (RemoveUnit env g unitId attackerUnitId).2.1.m_units = g.m_units.erase unitId
    ∧ (RemoveUnit env g unitId attackerUnitId).2.1.m_maxSize = g.m_maxSize := by
  unfold RemoveUnit
  by_cases hm : unitId ∈ g.m_units
  · rw [if_pos hm]
    by_cases h0 : GetCurrentSize g - 1 = 0
    · cases ha : g.attack <;> simp [h0, ha]
    · simp [h0]
  · rw [if_neg hm]
    have he : g.m_units.erase unitId = g.m_units := List.erase_of_not_mem hm
    by_cases hv : env.unitDefIdIsValid (env.GetUnitDefId unitId) = true
    · simp [hv, he]
    · simp [hv, he]

theorem GiveOrderToGroup_units (env : Env) (g : AAIGroup) (c : Command) (importance : ℚ)
    (task : UnitTask) (owner : String) :
    (GiveOrderToGroup env g c importance task owner).1.m_units = g.m_units
    ∧ (GiveOrderToGroup env g c importance task owner).1.m_maxSize = g.m_maxSize :=
  ⟨rfl, rfl⟩

theorem UnitIdle_units (env : Env) (g : AAIGroup) (unit : Int) :
    SameMembers g (UnitIdle env g unit).1 := by
  simp only [UnitIdle]
  repeat' split
  all_goals exact ⟨rfl, rfl⟩

theorem GetNewRallyPoint_units (env : Env) (g g1 : AAIGroup) (ev : List Event)
    (h : GetNewRallyPoint env g = some (g1, ev)) : SameMembers g g1 := by
  simp only [GetNewRallyPoint] at h
  repeat' split at h
  all_goals first
    | (cases h; exact ⟨rfl, rfl⟩)
    | cases h

theorem TargetUnitKilled_units (env : Env) (g : AAIGroup) :
    SameMembers g (TargetUnitKilled env g).1 := by
  simp only [TargetUnitKilled]
  repeat' split
  all_goals exact ⟨rfl, rfl⟩

theorem Defend_units (env : Env) (g : AAIGroup) (u : UnitId) (p : float3) (i : Int) :
    SameMembers g (Defend env g u p i).1 := by
  simp only [Defend]
  repeat' split
  all_goals exact ⟨rfl, rfl⟩

theorem UpdateRallyPoint_units (env : Env) (g g1 : AAIGroup) (ev : List Event)
    (h : UpdateRallyPoint env g = some (g1, ev)) : SameMembers g g1 := by
  simp only [UpdateRallyPoint] at h
  split at h
  · cases h
  · split at h
    · exact GetNewRallyPoint_units env g g1 ev h
    · cases h; exact ⟨rfl, rfl⟩

/-- What one call does to the member list, and that it keeps the maximum size. -/
theorem applyOp_units (env : Env) (g g1 : AAIGroup) (op : GroupOp)
    (h : applyOp env g op = some g1) :
    g1.m_maxSize = g.m_maxSize
    ∧ (g1.m_units = g.m_units
        ∨ (∃ u, g1.m_units = g.m_units ++ [u] ∧ GetCurrentSize g < g.m_maxSize)
        ∨ ∃ u, g1.m_units = g.m_units.erase u) := by
  have same : SameMembers g g1 → g1.m_maxSize = g.m_maxSize
      ∧ (g1.m_units = g.m_units
        ∨ (∃ u, g1.m_units = g.m_units ++ [u] ∧ GetCurrentSize g < g.m_maxSize)
        ∨ ∃ u, g1.m_units = g.m_units.erase u) := fun hs => ⟨hs.2, Or.inl hs.1⟩
  cases op with
  | AddUnit u d c =>
    simp only [applyOp, Option.some.injEq] at h
    subst h
    by_cases ha : AddUnitAdmits g d c
    · rw [(AddUnit_of_admits env g u d c ha).2]
      exact ⟨rfl, Or.inr (Or.inl ⟨u, rfl, ha.2.2.1⟩)⟩
    · rw [AddUnit_of_not_admits env g u d c ha]
      exact ⟨rfl, Or.inl rfl⟩
  | RemoveUnit u a =>
    simp only [applyOp, Option.some.injEq] at h
    subst h
    exact ⟨(RemoveUnit_units env g u a).2, Or.inr (Or.inr ⟨u, (RemoveUnit_units env g u a).1⟩)⟩
  | GiveOrderToGroup c i t o => cases h; exact same ⟨rfl, rfl⟩
  | Update => cases h; exact same ⟨rfl, rfl⟩
  | TargetUnitKilled => cases h; exact same (TargetUnitKilled_units env g)
  | AttackSector s i => cases h; exact same ⟨rfl, rfl⟩
  | Defend u p i => cases h; exact same (Defend_units env g u p i)
  | Retreat p => cases h; exact same ⟨rfl, rfl⟩
  | UnitIdle u => cases h; exact same (UnitIdle_units env g u)
  | BombTarget t p => cases h; exact same ⟨rfl, rfl⟩
  | DefendAirSpace p => cases h; exact same ⟨rfl, rfl⟩
  | AirRaidUnit u => cases h; exact same ⟨rfl, rfl⟩
  | UpdateRallyPoint =>
    simp only [applyOp] at h
    cases hr : UpdateRallyPoint env g with
    | none => rw [hr] at h; cases h
    | some r =>
      rw [hr] at h
      cases h
      exact same (UpdateRallyPoint_units env g r.1 r.2 hr)
  | GetNewRallyPoint =>
    simp only [applyOp] at h
    cases hr : GetNewRallyPoint env g with
    | none => rw [hr] at h; cases h
    | some r =>
      rw [hr] at h
      cases h
      exact same (GetNewRallyPoint_units env g r.1 r.2 hr)
  | SetAttack a => cases h; exact same ⟨rfl, rfl⟩

/-- The capacity invariant is kept by every call. -/
theorem applyOp_capacity (env : Env) (g g1 : AAIGroup) (op : GroupOp)
    (h : applyOp env g op = some g1) (hinv : GetCurrentSize g ≤ g.m_maxSize) :
    GetCurrentSize g1 ≤ g1.m_maxSize := by
  obtain ⟨hmax, hu | ⟨u, hu, hlt⟩ | ⟨u, hu⟩⟩ := applyOp_units env g g1 op h
  · unfold GetCurrentSize at *
    rw [hmax, hu]; exact hinv
  · unfold GetCurrentSize at *
    rw [hmax, hu, List.length_append, List.length_singleton]
    push_cast
    omega
  · unfold GetCurrentSize at *
    rw [hmax, hu]
    have : (g.m_units.erase u).length ≤ g.m_units.length := List.length_erase_le u g.m_units
    omega

theorem applyOps_capacity (ops : List (Env × GroupOp)) :
    ∀ (g g1 : AAIGroup), applyOps g ops = some g1 → GetCurrentSize g ≤ g.m_maxSize →
      GetCurrentSize g1 ≤ g1.m_maxSize ∧ g1.m_maxSize = g.m_maxSize := by
  induction ops with
  | nil =>
    intro g g1 h hinv
    simp only [applyOps, Option.some.injEq] at h
    subst h
    exact ⟨hinv, rfl⟩
  | cons eo rest ih =>
    intro g g1 h hinv
    obtain ⟨env, op⟩ := eo
    simp only [applyOps] at h
    cases hs : applyOp env g op with
    | none => rw [hs] at h; exact absurd h (by simp)
    | some g2 =>
      rw [hs] at h
      have h2 := applyOp_capacity env g g2 op hs hinv
      have h3 := ih g2 g1 h h2
      exact ⟨h3.1, h3.2.trans (applyOp_units env g g2 op hs).1⟩

theorem ctor_units (env : Env) (unitDefId : UnitDefId) (continentId : Int) (g0 : AAIGroup)
    (ev : List Event) (hc : ctor env unitDefId continentId = some (g0, ev)) :
    g0.m_units = [] := by
  unfold ctor at hc
  cases hr : GetNewRallyPoint env (ctorInit env unitDefId continentId) with
  | none => rw [hr] at hc; cases hc
  | some r =>
    rw [hr] at hc
    cases hc
    exact (GetNewRallyPoint_units env _ r.1 r.2 hr).1

/-- C2: for a group created with a non-negative maximum size, after every sequence of calls
of its operations (among them `AddUnit` and `RemoveUnit`, with any arguments, each call in its
own environment) the member count is at most the maximum size, which is still the one set at
creation; and `AddUnit` and `RemoveUnit` always return. -/
theorem capacity_invariant (env0 : Env) (unitDefId : UnitDefId) (continentId : Int)
    (g0 : AAIGroup) (ev : List Event)
    (hc : ctor env0 unitDefId continentId = some (g0, ev)) (hmax : 0 ≤ g0.m_maxSize)
    (ops : List (Env × GroupOp)) (g : AAIGroup) (h : applyOps g0 ops = some g) :
    GetCurrentSize g ≤ g.m_maxSize ∧ g.m_maxSize = g0.m_maxSize
    ∧ (∀ env u d c, (applyOp env g (GroupOp.AddUnit u d c)).isSome = true)
    ∧ (∀ env u a, (applyOp env g (GroupOp.RemoveUnit u a)).isSome = true) := by
  have h0 : GetCurrentSize g0 ≤ g0.m_maxSize := by
    unfold GetCurrentSize
    rw [ctor_units env0 unitDefId continentId g0 ev hc]
    exact hmax
  obtain ⟨h1, h2⟩ := applyOps_capacity ops g0 g h h0
  exact ⟨h1, h2, fun _ _ _ _ => rfl, fun _ _ _ => rfl⟩

theorem example_ctor : ctor exampleEnv ⟨1⟩ 0 = some (exampleGroup, exampleCtorCalls) := by
  simp [ctor, GetNewRallyPoint, ctorInit, ctorMaxSize, exampleEnv, exampleGroup, exampleCtorCalls,
    exampleUnitType, exampleRallyPoint, ZeroVector, GiveOrderToGroup, orderCalls]

theorem example_run :
    applyOps exampleGroup exampleOps = some { exampleGroup with m_units := [⟨7⟩] } := by
  simp [applyOps, applyOp, exampleOps, AddUnit, RemoveUnit, GetCurrentSize, exampleGroup,
    exampleRallyPoint, airSupportCalls, UnitId.IsValid]

/-- C2, on the concrete world: the constructed group, two admissions, one refusal, a removal. -/
theorem capacity_invariant_witness :
    ctor exampleEnv ⟨1⟩ 0 = some (exampleGroup, exampleCtorCalls)
    ∧ 0 ≤ exampleGroup.m_maxSize
    ∧ applyOps exampleGroup exampleOps = some { exampleGroup with m_units := [⟨7⟩] }
    ∧ GetCurrentSize { exampleGroup with m_units := [⟨7⟩] } ≤ 2 :=
  ⟨example_ctor, by decide, example_run,
    (capacity_invariant exampleEnv ⟨1⟩ 0 exampleGroup exampleCtorCalls example_ctor (by decide)
      exampleOps { exampleGroup with m_units := [⟨7⟩] } example_run).1⟩

/-! ### RemoveUnit -/

theorem erase_eq_nil_iff_size (l : List UnitId) (u : UnitId) (hm : u ∈ l) :
    ((l.length : Int) - 1 = 0) ↔ l.erase u = [] := by
  have hl : (l.erase u).length = l.length - 1 := List.length_erase_of_mem hm
  have hpos : 0 < l.length := List.length_pos_of_mem hm
  constructor
  · intro h
    apply List.eq_nil_of_length_eq_zero
    omega
  · intro h
    rw [h, List.length_nil] at hl
    omega

/-- C3: removing a current member returns true and erases its first occurrence, the other
members keeping their order; when the group is empty afterwards its task is idle, it has no
attack, and the attack it had was called with `RemoveGroup`; when members remain, task and
attack are unchanged and `RemoveGroup` is not called. -/
theorem RemoveUnit_member (env : Env) (g : AAIGroup) (unitId attackerUnitId : UnitId)
    (hm : unitId ∈ g.m_units) :
    (RemoveUnit env g unitId attackerUnitId).1 = true
    ∧ (∃ l₁ l₂, unitId ∉ l₁ ∧ g.m_units = l₁ ++ unitId :: l₂
        ∧ (RemoveUnit env g unitId attackerUnitId).2.1.m_units = l₁ ++ l₂)
    ∧ ((RemoveUnit env g unitId attackerUnitId).2.1.m_units = [] →
        (RemoveUnit env g unitId attackerUnitId).2.1.task = GroupTask.GROUP_IDLE
        ∧ (RemoveUnit env g unitId attackerUnitId).2.1.attack = none
        ∧ ∀ a, g.attack = some a →
            Event.RemoveGroup a ∈ (RemoveUnit env g unitId attackerUnitId).2.2)
    ∧ ((RemoveUnit env g unitId attackerUnitId).2.1.m_units ≠ [] →
        (RemoveUnit env g unitId attackerUnitId).2.1.task = g.task
        ∧ (RemoveUnit env g unitId attackerUnitId).2.1.attack = g.attack
        ∧ ∀ a, Event.RemoveGroup a ∉ (RemoveUnit env g unitId attackerUnitId).2.2) := by
  have hu := (RemoveUnit_units env g unitId attackerUnitId).1
  have hsz := erase_eq_nil_iff_size g.m_units unitId hm
  obtain ⟨l₁, l₂, hl₁, hl, he⟩ := List.exists_erase_eq hm
  refine ⟨?_, ⟨l₁, l₂, hl₁, hl, hu.trans he⟩, ?_, ?_⟩
  · unfold RemoveUnit
    rw [if_pos hm]
  · intro hnil
    rw [hu] at hnil
    have h0 : GetCurrentSize g - 1 = 0 := hsz.mpr hnil
    unfold RemoveUnit
    rw [if_pos hm]
    cases ha : g.attack <;> simp [h0, ha]
  · intro hne
    rw [hu] at hne
    have h0 : ¬ (GetCurrentSize g - 1 = 0) := fun h => hne (hsz.mp h)
    unfold RemoveUnit
    rw [if_pos hm]
    simp only [h0, if_false, true_and]
    intro a
    simp only [List.nil_append]
    split_ifs
    · unfold airSupportCalls
      simp only []
      split_ifs <;> simp
    · simp

/-- C3, on the concrete world: the only member of a group attached to attack 5 is removed. -/
theorem RemoveUnit_member_witness :
    (⟨7⟩ : UnitId) ∈ exampleLoneGroup.m_units
    ∧ (RemoveUnit exampleEnv exampleLoneGroup ⟨7⟩ ⟨-1⟩).2.1.task = GroupTask.GROUP_IDLE :=
  ⟨by simp [exampleLoneGroup],
   ((RemoveUnit_member exampleEnv exampleLoneGroup ⟨7⟩ ⟨-1⟩ (by simp [exampleLoneGroup])).2.2.1
      (by simp [RemoveUnit, GetCurrentSize, exampleLoneGroup])).1⟩

/-- C4: removing a unit that is not a member returns false, leaves the group as it is, and
the only call made is a log entry: neither `RemoveGroup` nor `CheckTarget`, whatever attacker
is given. -/
theorem RemoveUnit_not_member (env : Env) (g : AAIGroup) (unitId attackerUnitId : UnitId)
    (hm : unitId ∉ g.m_units) :
    (RemoveUnit env g unitId attackerUnitId).1 = false
    ∧ (RemoveUnit env g unitId attackerUnitId).2.1 = g
    ∧ ∃ msg, (RemoveUnit env g unitId attackerUnitId).2.2 = [Event.Log msg] := by
  unfold RemoveUnit
  rw [if_neg hm]
  simp only []
  split_ifs
  · exact ⟨rfl, rfl, _, rfl⟩
  · exact ⟨rfl, rfl, _, rfl⟩

/-- C4, on the concrete world: unit 3 is not in the group, the attacker 4 is valid. -/
theorem RemoveUnit_not_member_witness :
    (⟨3⟩ : UnitId) ∉ exampleLoneGroup.m_units
    ∧ (⟨4⟩ : UnitId).IsValid = true
    ∧ (RemoveUnit exampleEnv exampleLoneGroup ⟨3⟩ ⟨4⟩).2.1.attack = some 5 :=
  ⟨by simp [exampleLoneGroup], by decide,
   by rw [(RemoveUnit_not_member exampleEnv exampleLoneGroup ⟨3⟩ ⟨4⟩
        (by simp [exampleLoneGroup])).2.1]; rfl⟩

/-! ### Availability for an attack -/

theorem IsEntireGroupAtRallyPoint_iff (env : Env) (g : AAIGroup) :
    IsEntireGroupAtRallyPoint env g = true ↔
      squaredDistToRallyPoint g (GetGroupPos env g) < maxSquaredDistToRallyPoint env := by
  simp only [IsEntireGroupAtRallyPoint, squaredDistToRallyPoint, decide_eq_true_eq]

theorem IsAvailableForAttack_iff (env : Env) (g : AAIGroup) :
    IsAvailableForAttack env g = true ↔
      (g.attack = none ∧ IsEntireGroupAtRallyPoint env g = true
        ∧ ((g.m_groupType.IsAssaultUnit = true ∧ SufficientAttackPower env g = true)
          ∨ (g.m_groupType.IsAntiAir = true ∧ g.m_groupType.IsAssaultUnit = false))) := by
  unfold IsAvailableForAttack
  by_cases h1 : g.attack = none ∧ IsEntireGroupAtRallyPoint env g = true
  · rw [if_pos h1]
    by_cases h2 : g.m_groupType.IsAssaultUnit = true ∧ SufficientAttackPower env g = true
    · rw [if_pos h2]
      exact ⟨fun _ => ⟨h1.1, h1.2, Or.inl h2⟩, fun _ => rfl⟩
    · rw [if_neg h2]
      by_cases h3 : g.m_groupType.IsAntiAir = true ∧ g.m_groupType.IsAssaultUnit = false
      · rw [if_pos h3]
        exact ⟨fun _ => ⟨h1.1, h1.2, Or.inr h3⟩, fun _ => rfl⟩
      · rw [if_neg h3]
        refine ⟨fun hf => absurd hf Bool.false_ne_true, fun hc => ?_⟩
        rcases hc.2.2 with hc2 | hc3
        · exact absurd hc2 h2
        · exact absurd hc3 h3
  · rw [if_neg h1]
    exact ⟨fun hf => absurd hf Bool.false_ne_true, fun hc => absurd ⟨hc.1, hc.2.1⟩ h1⟩

theorem example_spread_available :
    IsAvailableForAttack exampleEnv exampleSpreadGroup = true := by
  rw [IsAvailableForAttack_iff]
  refine ⟨rfl, ?_, Or.inl ⟨rfl, ?_⟩⟩
  · rw [IsEntireGroupAtRallyPoint_iff]
    norm_num [squaredDistToRallyPoint, GetGroupPos, exampleSpreadGroup, exampleGroup,
      exampleEnv, exampleRallyPoint, maxSquaredDistToRallyPoint]
  · norm_num [SufficientAttackPower, exampleSpreadGroup, exampleGroup, exampleEnv,
      exampleUnitType, GetTargetType, minCombatPowerForSoloAttack]

/-- C5, as stated, fails: in the concrete world the group of units 1 and 7 is available for an
attack although unit 1 is farther from the rally point than the fixed squared distance. -/
theorem IsAvailableForAttack_not_every_member :
    IsAvailableForAttack exampleEnv exampleSpreadGroup = true
    ∧ ¬ EveryMemberAtRallyPoint exampleEnv exampleSpreadGroup := by
  refine ⟨example_spread_available, fun h => ?_⟩
  have h1 := h ⟨1⟩ (by simp [exampleSpreadGroup])
  norm_num [squaredDistToRallyPoint, exampleSpreadGroup, exampleGroup,
    exampleEnv, exampleRallyPoint, maxSquaredDistToRallyPoint] at h1

/-- C5, amended: `IsAvailableForAttack` returns true only if the group has no attack, the
position of the member added last (the zero vector for a group without members) is closer to
the rally point than the fixed squared distance, and the group type is assault-capable with
sufficient attack power, or anti-air and not assault-capable. -/
theorem IsAvailableForAttack_only_if (env : Env) (g : AAIGroup)
    (h : IsAvailableForAttack env g = true) :
    g.attack = none
    ∧ (∀ u, g.m_units.getLast? = some u →
        squaredDistToRallyPoint g (env.GetUnitPos u.id) < maxSquaredDistToRallyPoint env)
    ∧ (g.m_units = [] →
        squaredDistToRallyPoint g ZeroVector < maxSquaredDistToRallyPoint env)
    ∧ ((g.m_groupType.IsAssaultUnit = true ∧ SufficientAttackPower env g = true)
      ∨ (g.m_groupType.IsAntiAir = true ∧ g.m_groupType.IsAssaultUnit = false)) := by
  obtain ⟨h1, h2, h3⟩ := (IsAvailableForAttack_iff env g).mp h
  rw [IsEntireGroupAtRallyPoint_iff] at h2
  refine ⟨h1, fun u hu => ?_, fun hnil => ?_, h3⟩
  · simpa [GetGroupPos, hu] using h2
  · simpa [GetGroupPos, hnil] using h2

/-- C5 amended, on the concrete world: the group of units 1 and 7. -/
theorem IsAvailableForAttack_only_if_witness :
    IsAvailableForAttack exampleEnv exampleSpreadGroup = true
    ∧ exampleSpreadGroup.attack = none :=
  ⟨example_spread_available,
   (IsAvailableForAttack_only_if exampleEnv exampleSpreadGroup example_spread_available).1⟩

/-- C6: `SufficientAttackPower` returns true exactly when the group has at least 3 members or
the combat power of its unit type is strictly above `minCombatPowerForSoloAttack` (5/2)
against AIR for an anti-air group type, and otherwise against SURFACE, FLOATER or SUBMERGED
when that is the target type of the group; with fewer than 3 members, not anti-air and any
other target type it returns false. -/
theorem SufficientAttackPower_iff (env : Env) (g : AAIGroup) :
    (SufficientAttackPower env g = true ↔
      (3 ≤ g.m_units.length
        ∨ (g.m_groupType.IsAntiAir = true
            ∧ env.GetCombatPower g.m_groupDefId ETargetType.AIR > 5 / 2)
        ∨ (g.m_groupType.IsAntiAir = false ∧ GetTargetType env g = ETargetType.SURFACE
            ∧ env.GetCombatPower g.m_groupDefId ETargetType.SURFACE > 5 / 2)
        ∨ (g.m_groupType.IsAntiAir = false ∧ GetTargetType env g = ETargetType.FLOATER
            ∧ env.GetCombatPower g.m_groupDefId ETargetType.FLOATER > 5 / 2)
        ∨ (g.m_groupType.IsAntiAir = false ∧ GetTargetType env g = ETargetType.SUBMERGED
            ∧ env.GetCombatPower g.m_groupDefId ETargetType.SUBMERGED > 5 / 2)))
    ∧ (g.m_units.length < 3 → g.m_groupType.IsAntiAir = false →
        GetTargetType env g ≠ ETargetType.SURFACE → GetTargetType env g ≠ ETargetType.FLOATER →
        GetTargetType env g ≠ ETargetType.SUBMERGED → SufficientAttackPower env g = false) := by
  unfold SufficientAttackPower minCombatPowerForSoloAttack
  by_cases h3 : g.m_units.length ≥ 3
  · rw [if_pos h3]
    exact ⟨⟨fun _ => Or.inl h3, fun _ => rfl⟩, fun hlt => absurd h3 (by omega)⟩
  · rw [if_neg h3]
    cases haa : g.m_groupType.IsAntiAir
    · simp only [Bool.false_eq_true, if_false]
      cases htt : GetTargetType env g <;> simp [h3]
    · simp only [if_true]
      by_cases hp : env.GetCombatPower g.m_groupDefId ETargetType.AIR > 5 / 2
      · simp [hp]
      · simp [hp, h3]

/-! ### GetDefenceRating -/

theorem applyOp_nodup (env : Env) (g g1 : AAIGroup) (op : GroupOp)
    (h : applyOp env g op = some g1) (hn : g.m_units.Nodup)
    (hnew : ∀ u d c, op = GroupOp.AddUnit u d c → u ∉ g.m_units) : g1.m_units.Nodup := by
  have same : SameMembers g g1 → g1.m_units.Nodup := fun hs => by rw [hs.1]; exact hn
  cases op with
  | AddUnit u d c =>
    simp only [applyOp, Option.some.injEq] at h
    subst h
    by_cases ha : AddUnitAdmits g d c
    · rw [(AddUnit_of_admits env g u d c ha).2]
      show (g.m_units ++ [u]).Nodup
      rw [List.nodup_append]
      refine ⟨hn, List.nodup_singleton u, ?_⟩
      intro x hx hx1
      rw [List.mem_singleton] at hx1
      rw [hx1] at hx
      exact hnew u d c rfl hx
    · rw [AddUnit_of_not_admits env g u d c ha]
      exact hn
  | RemoveUnit u a =>
    simp only [applyOp, Option.some.injEq] at h
    subst h
    rw [(RemoveUnit_units env g u a).1]
    exact hn.erase u
  | GiveOrderToGroup c i t o => cases h; exact same ⟨rfl, rfl⟩
  | Update => cases h; exact same ⟨rfl, rfl⟩
  | TargetUnitKilled => cases h; exact same (TargetUnitKilled_units env g)
  | AttackSector s i => cases h; exact same ⟨rfl, rfl⟩
  | Defend u p i => cases h; exact same (Defend_units env g u p i)
  | Retreat p => cases h; exact same ⟨rfl, rfl⟩
  | UnitIdle u => cases h; exact same (UnitIdle_units env g u)
  | BombTarget t p => cases h; exact same ⟨rfl, rfl⟩
  | DefendAirSpace p => cases h; exact same ⟨rfl, rfl⟩
  | AirRaidUnit u => cases h; exact same ⟨rfl, rfl⟩
  | UpdateRallyPoint =>
    simp only [applyOp] at h
    cases hr : UpdateRallyPoint env g with
    | none => rw [hr] at h; cases h
    | some r =>
      rw [hr] at h
      cases h
      exact same (UpdateRallyPoint_units env g r.1 r.2 hr)
  | GetNewRallyPoint =>
    simp only [applyOp] at h
    cases hr : GetNewRallyPoint env g with
    | none => rw [hr] at h; cases h
    | some r =>
      rw [hr] at h
      cases h
      exact same (GetNewRallyPoint_units env g r.1 r.2 hr)
  | SetAttack a => cases h; exact same ⟨rfl, rfl⟩

theorem applyOps_nodup (ops : List (Env × GroupOp)) :
    ∀ g0 g : AAIGroup, applyOps g0 ops = some g → g0.m_units.Nodup →
      addsOnlyNewUnits g0 ops = true → g.m_units.Nodup := by
  induction ops with
  | nil =>
    intro g0 g h hn _
    simp only [applyOps, Option.some.injEq] at h
    rw [← h]
    exact hn
  | cons p rest ih =>
    intro g0 g h hn hnew
    obtain ⟨env, op⟩ := p
    simp only [applyOps] at h
    simp only [addsOnlyNewUnits, Bool.and_eq_true] at hnew
    cases hop : applyOp env g0 op with
    | none => rw [hop] at h; cases h
    | some g1 =>
      rw [hop] at h hnew
      refine ih g1 g h (applyOp_nodup env g0 g1 op hop hn ?_) hnew.2
      intro u d c e
      subst e
      simpa using hnew.1

/-- C20, counterexample: `AddUnit` called twice with unit 7 on the newly created group of the
example admits it twice; the member list is then [7, 7]. -/
theorem AddUnit_twice_duplicates :
    ctor exampleEnv ⟨1⟩ 0 = some (exampleGroup, exampleCtorCalls)
    ∧ applyOps exampleGroup exampleOpsTwice = some { exampleGroup with m_units := [⟨7⟩, ⟨7⟩] }
    ∧ ¬ ({ exampleGroup with m_units := [⟨7⟩, ⟨7⟩] } : AAIGroup).m_units.Nodup := by
  refine ⟨example_ctor, ?_, by decide⟩
  simp [applyOps, applyOp, exampleOpsTwice, AddUnit, GetCurrentSize, exampleGroup,
    exampleRallyPoint, airSupportCalls, UnitId.IsValid]

/-- C20, amended: for a newly created group, after every sequence of calls of its operations
in which no `AddUnit` call is given a unit that is a member at the time of the call, the
member list contains no unit twice. -/
theorem members_nodup (env0 : Env) (unitDefId : UnitDefId) (continentId : Int)
    (g0 : AAIGroup) (ev : List Event)
    (hc : ctor env0 unitDefId continentId = some (g0, ev))
    (ops : List (Env × GroupOp)) (g : AAIGroup) (h : applyOps g0 ops = some g)
    (hnew : addsOnlyNewUnits g0 ops = true) : g.m_units.Nodup := by
  refine applyOps_nodup ops g0 g h ?_ hnew
  rw [ctor_units env0 unitDefId continentId g0 ev hc]
  exact List.nodup_nil

/-- C20, amended, on the concrete world: the constructed group, two admissions of different
units, one refusal, a removal. -/
theorem members_nodup_witness :
    ctor exampleEnv ⟨1⟩ 0 = some (exampleGroup, exampleCtorCalls)
    ∧ applyOps exampleGroup exampleOps = some { exampleGroup with m_units := [⟨7⟩] }
    ∧ addsOnlyNewUnits exampleGroup exampleOps = true
    ∧ ({ exampleGroup with m_units := [⟨7⟩] } : AAIGroup).m_units.Nodup := by
  have hnew : addsOnlyNewUnits exampleGroup exampleOps = true := by
    simp [addsOnlyNewUnits, applyOp, exampleOps, AddUnit, RemoveUnit, GetCurrentSize,
      exampleGroup, exampleRallyPoint, airSupportCalls, UnitId.IsValid]
  exact ⟨example_ctor, example_run, hnew,
    members_nodup exampleEnv ⟨1⟩ 0 exampleGroup exampleCtorCalls example_ctor exampleOps
      { exampleGroup with m_units := [⟨7⟩] } example_run hnew⟩

/-! ### IsAvailableForAttack as a query -/

theorem GetGroupPos_congr (env1 env2 : Env) (g1 g2 : AAIGroup) (hunits : g1.m_units = g2.m_units)
    (hpos : ∀ u ∈ g1.m_units, env1.GetUnitPos u.id = env2.GetUnitPos u.id) :
    GetGroupPos env1 g1 = GetGroupPos env2 g2 := by
  unfold GetGroupPos
  rw [← hunits]
  cases h : g1.m_units.getLast? with
  | none => rfl
  | some u => exact hpos u (List.mem_of_getLast?_eq_some h)

/-- C21: `IsAvailableForAttack` is embedded as a function of the group state and of the
answers of the collaborators, since its body and the members it calls assign nothing; its
result is the same for two group states that agree on the attack, the members, the rally
point, the type flags and the unit type, under collaborators that agree on the positions of
the members, the constant `SQUARE_SIZE` and the combat power and target type of the unit type,
whatever else differs (frame, task, importance, last command). -/
theorem IsAvailableForAttack_query (env1 env2 : Env) (g1 g2 : AAIGroup)
    (hattack : g1.attack = g2.attack) (hunits : g1.m_units = g2.m_units)
    (hrally : g1.m_rallyPoint = g2.m_rallyPoint)
    (hassault : g1.m_groupType.IsAssaultUnit = g2.m_groupType.IsAssaultUnit)
    (hanti : g1.m_groupType.IsAntiAir = g2.m_groupType.IsAntiAir)
    (hdef : g1.m_groupDefId = g2.m_groupDefId)
    (hpos : ∀ u ∈ g1.m_units, env1.GetUnitPos u.id = env2.GetUnitPos u.id)
    (hsq : env1.SQUARE_SIZE = env2.SQUARE_SIZE)
    (hpow : ∀ t, env1.GetCombatPower g1.m_groupDefId t = env2.GetCombatPower g1.m_groupDefId t)
    (htt : env1.GetTargetType g1.m_groupDefId = env2.GetTargetType g1.m_groupDefId) :
    IsAvailableForAttack env1 g1 = IsAvailableForAttack env2 g2 := by
  have hrp : IsEntireGroupAtRallyPoint env1 g1 = IsEntireGroupAtRallyPoint env2 g2 := by
    unfold IsEntireGroupAtRallyPoint maxSquaredDistToRallyPoint
    simp only []
    rw [GetGroupPos_congr env1 env2 g1 g2 hunits hpos, hrally, hsq]
  have hsp : SufficientAttackPower env1 g1 = SufficientAttackPower env2 g2 := by
    unfold SufficientAttackPower GetTargetType
    simp only []
    rw [← hunits, ← hanti, ← hdef, htt, hpow ETargetType.AIR, hpow ETargetType.SURFACE,
      hpow ETargetType.FLOATER, hpow ETargetType.SUBMERGED]
  unfold IsAvailableForAttack
  rw [hattack, hrp, hsp, hassault, hanti]

/-- C21, on the concrete world: the ready assault group in frame 100, and the same members
with another task 100 frames later. -/
theorem IsAvailableForAttack_query_witness :
    IsAvailableForAttack exampleEnv exampleAssaultReady
      = IsAvailableForAttack exampleEnvLater exampleAssaultReadyDefending :=
  IsAvailableForAttack_query exampleEnv exampleEnvLater exampleAssaultReady
    exampleAssaultReadyDefending rfl rfl rfl rfl rfl rfl (fun _ _ => rfl) rfl (fun _ => rfl) rfl

/-! ### The task of a group -/

theorem GetNewRallyPoint_task (env : Env) (g g1 : AAIGroup) (ev : List Event)
    (h : GetNewRallyPoint env g = some (g1, ev)) :
    g1.task = g.task ∧ g1.attack = g.attack := by
  simp only [GetNewRallyPoint] at h
  repeat' split at h
  all_goals first
    | (cases h; exact ⟨rfl, rfl⟩)
    | cases h

theorem ctor_task (env : Env) (unitDefId : UnitDefId) (continentId : Int) (g0 : AAIGroup)
    (ev : List Event) (hc : ctor env unitDefId continentId = some (g0, ev)) :
    g0.task = GroupTask.GROUP_IDLE ∧ g0.attack = none := by
  unfold ctor at hc
  cases hr : GetNewRallyPoint env (ctorInit env unitDefId continentId) with
  | none => rw [hr] at hc; cases hc
  | some r =>
    rw [hr] at hc
    cases hc
    exact GetNewRallyPoint_task env _ r.1 r.2 hr

/-- C22, as stated, fails for `BombTarget`: the task afterwards is not `GROUP_ATTACKING`. -/
theorem BombTarget_not_attacking :
    (BombTarget exampleEnv exampleAssaultReady 5 ⟨900, 0, 900⟩).1.task
      ≠ GroupTask.GROUP_ATTACKING := by
  simp [BombTarget]

/-- C22, amended: a newly created group has the task `GROUP_IDLE`, no members and no attack;
after `AttackSector` and after `AirRaidUnit` the task is `GROUP_ATTACKING`, after `BombTarget`
it is `GROUP_BOMBING`, after `Defend` (the enemy position known or not) `GROUP_DEFENDING`, and
after `Retreat` `GROUP_RETREATING`, whatever the group was before the call. -/
theorem task_after_call :
    (∀ (env : Env) (unitDefId : UnitDefId) (continentId : Int) (g0 : AAIGroup)
        (ev : List Event), ctor env unitDefId continentId = some (g0, ev) →
        g0.task = GroupTask.GROUP_IDLE ∧ g0.m_units = [] ∧ g0.attack = none)
    ∧ (∀ (env : Env) (g : AAIGroup) (sector : SectorId) (importance : ℚ),
        (AttackSector env g sector importance).1.task = GroupTask.GROUP_ATTACKING)
    ∧ (∀ (env : Env) (g : AAIGroup) (unit_id : Int),
        (AirRaidUnit env g unit_id).1.task = GroupTask.GROUP_ATTACKING)
    ∧ (∀ (env : Env) (g : AAIGroup) (target_id : Int) (target_pos : float3),
        (BombTarget env g target_id target_pos).1.task = GroupTask.GROUP_BOMBING)
    ∧ (∀ (env : Env) (g : AAIGroup) (unitId : UnitId) (enemyPosition : float3)
        (importance : Int),
        (Defend env g unitId enemyPosition importance).1.task = GroupTask.GROUP_DEFENDING)
    ∧ (∀ (env : Env) (g : AAIGroup) (pos : float3),
        (Retreat env g pos).1.task = GroupTask.GROUP_RETREATING) := by
  refine ⟨fun env d c g0 ev hc => ?_, fun _ _ _ _ => rfl, fun _ _ _ => rfl, fun _ _ _ _ => rfl,
    fun env g u p i => ?_, fun _ _ _ => rfl⟩
  · exact ⟨(ctor_task env d c g0 ev hc).1, ctor_units env d c g0 ev hc,
      (ctor_task env d c g0 ev hc).2⟩
  · simp only [Defend]
    split <;> rfl

/-- C22, amended, on the concrete world: the group the constructor returns. -/
theorem task_after_call_witness :
    ctor exampleEnv ⟨1⟩ 0 = some (exampleGroup, exampleCtorCalls)
    ∧ exampleGroup.task = GroupTask.GROUP_IDLE ∧ exampleGroup.m_units = []
    ∧ exampleGroup.attack = none :=
  ⟨example_ctor, task_after_call.1 exampleEnv ⟨1⟩ 0 exampleGroup exampleCtorCalls example_ctor⟩

/-! ### Idle notifications of a retreating or defending group -/

/-- C23: for a group without attack that is not an air-combat group and whose task is
`GROUP_RETREATING` or `GROUP_DEFENDING`, `UnitIdle` returns the group as it was and makes no
call when fewer than 10 frames have passed since the last command; otherwise it sets the task
to `GROUP_IDLE`, changing nothing else and making no call, when the sector of the position of
the idle unit is the target sector or the group has no target sector, and returns the group as
it was in the remaining case. -/
theorem UnitIdle_retreating_or_defending (env : Env) (g : AAIGroup) (unit : Int)
    (hatt : g.attack = none) (hair : g.m_category ≠ EUnitCategory.AIR_COMBAT)
    (htask : g.task = GroupTask.GROUP_RETREATING ∨ g.task = GroupTask.GROUP_DEFENDING) :
    (env.GetCurrentFrame - g.lastCommandFrame < 10 → UnitIdle env g unit = (g, []))
    ∧ (¬ env.GetCurrentFrame - g.lastCommandFrame < 10 →
        (env.GetSectorOfPos (env.GetUnitPos unit) = g.m_targetSector
          ∨ g.m_targetSector = none) →
        UnitIdle env g unit = ({ g with task := GroupTask.GROUP_IDLE }, []))
    ∧ (¬ env.GetCurrentFrame - g.lastCommandFrame < 10 →
        ¬ (env.GetSectorOfPos (env.GetUnitPos unit) = g.m_targetSector
          ∨ g.m_targetSector = none) →
        UnitIdle env g unit = (g, [])) := by
  have hnair : ¬ (g.m_category = EUnitCategory.AIR_COMBAT ∧ g.task ≠ GroupTask.GROUP_IDLE
      ∧ env.AIR_ONLY_MOD = false) := fun h => hair h.1
  refine ⟨fun h => ?_, fun h hs => ?_, fun h hs => ?_⟩
  · unfold UnitIdle
    rw [if_pos h]
  · unfold UnitIdle
    rw [if_neg h, if_neg hnair, hatt]
    simp only []
    rcases htask with ht | ht
    · rw [if_pos ht, if_pos hs]
    · rw [if_neg (by rw [ht]; decide), if_pos ht, if_pos hs]
  · unfold UnitIdle
    rw [if_neg h, if_neg hnair, hatt]
    simp only []
    rcases htask with ht | ht
    · rw [if_pos ht, if_neg hs]
    · rw [if_neg (by rw [ht]; decide), if_pos ht, if_neg hs]

/-- C23, on the concrete world: the retreating group, last commanded 100 frames ago, whose
idle unit 7 is in the target sector, becomes idle. -/
theorem UnitIdle_retreating_or_defending_witness :
    exampleRetreating.attack = none
    ∧ exampleRetreating.m_category ≠ EUnitCategory.AIR_COMBAT
    ∧ exampleRetreating.task = GroupTask.GROUP_RETREATING
    ∧ ¬ exampleEnv.GetCurrentFrame - exampleRetreating.lastCommandFrame < 10
    ∧ UnitIdle exampleEnv exampleRetreating 7
        = ({ exampleRetreating with task := GroupTask.GROUP_IDLE }, []) :=
  ⟨rfl, by decide, rfl, by decide,
    (UnitIdle_retreating_or_defending exampleEnv exampleRetreating 7 rfl (by decide)
      (Or.inl rfl)).2.1 (by decide) (Or.inl rfl)⟩

/-! ### The periodic tick of a group -/

/-- C25, as stated, fails for `AddUnit`: in frame 200 the new member 7 is ordered to the rally
point and the frame of the last command is still 100. -/
theorem AddUnit_keeps_lastCommandFrame :
    (AddUnit exampleEnvLater exampleGroup ⟨7⟩ ⟨1⟩ 0).1 = true
    ∧ (AddUnit exampleEnvLater exampleGroup ⟨7⟩ ⟨1⟩ 0).2.2
        = [Event.GiveOrder ((Command.mk1 CommandId.CMD_MOVE).PushPos exampleRallyPoint) 7
            "Group::AddUnit"]
    ∧ (AddUnit exampleEnvLater exampleGroup ⟨7⟩ ⟨1⟩ 0).2.1.lastCommandFrame = 100
    ∧ exampleEnvLater.GetCurrentFrame = 200 := by
  have ha : AddUnitAdmits exampleGroup ⟨1⟩ 0 := by
    refine ⟨rfl, rfl, by decide, rfl, by decide, by decide⟩
  refine ⟨(AddUnit_of_admits exampleEnvLater exampleGroup ⟨7⟩ ⟨1⟩ 0 ha).1, ?_, ?_, rfl⟩
  · simp [AddUnit, GetCurrentSize, exampleGroup, exampleRallyPoint]
  · rw [(AddUnit_of_admits exampleEnvLater exampleGroup ⟨7⟩ ⟨1⟩ 0 ha).2]
    rfl

theorem GetNewRallyPoint_eq (env : Env) (g : AAIGroup) :
    GetNewRallyPoint env g
      = (releaseRallyPoint env g).bind (fun ev1 => acquireRallyPoint env g ev1) := by
  unfold GetNewRallyPoint releaseRallyPoint acquireRallyPoint
  simp only []
  cases (if g.m_rallyPoint.x > 0 then
      (env.GetSectorOfPos g.m_rallyPoint).map (fun sector => [Event.DecRallyPoints sector])
    else some []) <;> rfl

theorem releaseRallyPoint_spec (env : Env) (g : AAIGroup) (ev1 : List Event)
    (h : releaseRallyPoint env g = some ev1) :
    (¬ g.m_rallyPoint.x > 0 ∧ ev1 = [])
    ∨ (g.m_rallyPoint.x > 0
      ∧ ∃ s, env.GetSectorOfPos g.m_rallyPoint = some s ∧ ev1 = [Event.DecRallyPoints s]) := by
  unfold releaseRallyPoint at h
  by_cases hx : g.m_rallyPoint.x > 0
  · rw [if_pos hx] at h
    cases hs : env.GetSectorOfPos g.m_rallyPoint with
    | none => rw [hs] at h; cases h
    | some s =>
      rw [hs] at h
      cases h
      exact Or.inr ⟨hx, s, rfl, rfl⟩
  · rw [if_neg hx] at h
    cases h
    exact Or.inl ⟨hx, rfl⟩

theorem acquireRallyPoint_spec (env : Env) (g g1 : AAIGroup) (ev1 ev : List Event)
    (h : acquireRallyPoint env g ev1 = some (g1, ev)) :
    ((env.DetermineRallyPoint g.m_rallyPoint g.m_moveType g.m_continentId).1 = true
      ∧ ∃ s, env.GetSectorOfPos
            (env.DetermineRallyPoint g.m_rallyPoint g.m_moveType g.m_continentId).2 = some s
        ∧ ((g.task = GroupTask.GROUP_IDLE
            ∧ g1 = { g with
                m_rallyPoint :=
                  (env.DetermineRallyPoint g.m_rallyPoint g.m_moveType g.m_continentId).2
                lastCommandFrame := env.GetCurrentFrame
                task_importance := 90 }
            ∧ ev = ev1 ++ [Event.IncRallyPoints s]
                ++ orderCalls ((Command.mk1 CommandId.CMD_MOVE).PushPos
                    (env.DetermineRallyPoint g.m_rallyPoint g.m_moveType g.m_continentId).2)
                  UnitTask.HEADING_TO_RALLYPOINT "Group::RallyPoint" g.m_units)
          ∨ (g.task ≠ GroupTask.GROUP_IDLE
            ∧ g1 = { g with
                m_rallyPoint :=
                  (env.DetermineRallyPoint g.m_rallyPoint g.m_moveType g.m_continentId).2 }
            ∧ ev = ev1 ++ [Event.IncRallyPoints s])))
    ∨ ((env.DetermineRallyPoint g.m_rallyPoint g.m_moveType g.m_continentId).1 = false
      ∧ g1 = { g with
          m_rallyPoint :=
            (env.DetermineRallyPoint g.m_rallyPoint g.m_moveType g.m_continentId).2 }
      ∧ ev = ev1 ++ [Event.Log "Failed to determine rally point for goup of unit type %s!"]) := by
  unfold acquireRallyPoint at h
  simp only [] at h
  by_cases hf : (env.DetermineRallyPoint g.m_rallyPoint g.m_moveType g.m_continentId).1 = true
  · rw [if_pos hf] at h
    cases hs : env.GetSectorOfPos
        (env.DetermineRallyPoint g.m_rallyPoint g.m_moveType g.m_continentId).2 with
    | none => rw [hs] at h; cases h
    | some s =>
      rw [hs] at h
      simp only [] at h
      by_cases ht : g.task = GroupTask.GROUP_IDLE
      · rw [if_pos ht] at h
        cases h
        exact Or.inl ⟨hf, s, rfl, Or.inl ⟨ht, rfl, rfl⟩⟩
      · rw [if_neg ht] at h
        cases h
        exact Or.inl ⟨hf, s, rfl, Or.inr ⟨ht, rfl, rfl⟩⟩
  · rw [if_neg hf] at h
    cases h
    exact Or.inr ⟨by simpa using hf, rfl, rfl⟩

theorem GetNewRallyPoint_spec (env : Env) (g g1 : AAIGroup) (ev : List Event)
    (h : GetNewRallyPoint env g = some (g1, ev)) :
    ∃ ev1, releaseRallyPoint env g = some ev1 ∧ acquireRallyPoint env g ev1 = some (g1, ev) := by
  rw [GetNewRallyPoint_eq] at h
  cases hr : releaseRallyPoint env g with
  | none => rw [hr] at h; cases h
  | some ev1 =>
    rw [hr] at h
    exact ⟨ev1, rfl, h⟩

theorem GetNewRallyPoint_order (env : Env) (g g1 : AAIGroup) (ev : List Event)
    (h : GetNewRallyPoint env g = some (g1, ev)) (hord : ∃ e ∈ ev, e.isOrder = true) :
    g1.lastCommandFrame = env.GetCurrentFrame := by
  obtain ⟨e, he, ho⟩ := hord
  obtain ⟨ev1, h1, h2⟩ := GetNewRallyPoint_spec env g g1 ev h
  have hev1 : ∀ x ∈ ev1, x.isOrder = false := by
    intro x hx
    rcases releaseRallyPoint_spec env g ev1 h1 with ⟨_, e1⟩ | ⟨_, s, _, e1⟩
    · rw [e1] at hx; exact absurd hx (List.not_mem_nil x)
    · rw [e1, List.mem_singleton] at hx; rw [hx]; rfl
  have hno : ∀ x : Event, x ∈ ev1 ∨ (∃ s, x = Event.IncRallyPoints s)
      ∨ x = Event.Log "Failed to determine rally point for goup of unit type %s!" →
      x.isOrder = false := by
    rintro x (hx | ⟨s, hx⟩ | hx)
    · exact hev1 x hx
    · rw [hx]; rfl
    · rw [hx]; rfl
  rcases acquireRallyPoint_spec env g g1 ev1 ev h2 with ⟨_, s, _, ⟨_, e1, _⟩ | ⟨_, _, e2⟩⟩
      | ⟨_, _, e2⟩
  · rw [e1]
  · rw [e2, List.mem_append, List.mem_singleton] at he
    have := hno e (he.imp id (fun hx => Or.inl ⟨s, hx⟩))
    rw [this] at ho
    cases ho
  · rw [e2, List.mem_append, List.mem_singleton] at he
    have := hno e (he.imp id Or.inr)
    rw [this] at ho
    cases ho

theorem RemoveUnit_no_order (env : Env) (g : AAIGroup) (unitId attackerUnitId : UnitId) :
    ∀ e ∈ (RemoveUnit env g unitId attackerUnitId).2.2, e.isOrder = false := by
  intro e he
  simp only [RemoveUnit, airSupportCalls] at he
  repeat' split at he
  all_goals
    simp only [List.append_nil, List.nil_append, List.mem_cons, List.mem_singleton,
      List.mem_append, List.not_mem_nil, or_false, false_or] at he
  all_goals first
    | exact absurd he id
    | (rcases he with he | he <;> (rw [he]; rfl))
    | (rw [he]; rfl)

theorem TargetUnitKilled_order (env : Env) (g : AAIGroup)
    (hord : ∃ e ∈ (TargetUnitKilled env g).2, e.isOrder = true) :
    (TargetUnitKilled env g).1.lastCommandFrame = env.GetCurrentFrame := by
  obtain ⟨e, he, _⟩ := hord
  simp only [TargetUnitKilled] at he ⊢
  by_cases h1 : env.AIR_ONLY_MOD = false
  · by_cases h2 : g.m_category = EUnitCategory.AIR_COMBAT
    · rw [if_pos h1, if_pos h2]
      rfl
    · rw [if_pos h1, if_neg h2] at he
      exact absurd he (List.not_mem_nil e)
  · rw [if_neg h1] at he
    exact absurd he (List.not_mem_nil e)

theorem Defend_frame (env : Env) (g : AAIGroup) (u : UnitId) (p : float3) (i : Int) :
    (Defend env g u p i).1.lastCommandFrame = env.GetCurrentFrame := by
  simp only [Defend]
  split <;> rfl

theorem UnitIdle_order (env : Env) (g : AAIGroup) (unit : Int)
    (hord : ∃ e ∈ (UnitIdle env g unit).2, e.isOrder = true) :
    (UnitIdle env g unit).1.lastCommandFrame = env.GetCurrentFrame
    ∨ ∃ c, UnitIdle env g unit
        = (g, [Event.GiveOrder c unit "Group::Idle_c",
               Event.SetUnitStatus unit UnitTask.UNIT_ATTACKING]) := by
  obtain ⟨e, he, ho⟩ := hord
  generalize hr : UnitIdle env g unit = r at he ⊢
  simp only [UnitIdle] at hr
  repeat' split at hr
  all_goals subst hr
  all_goals first
    | exact Or.inl rfl
    | exact Or.inr ⟨_, rfl⟩
    | (exfalso; exact absurd he (List.not_mem_nil e))
    | (exfalso; rw [List.mem_singleton] at he; rw [he] at ho; cases ho)
    | (exfalso
       simp only [List.mem_cons, List.mem_singleton, List.not_mem_nil, or_false] at he
       rcases he with he | he <;> (rw [he] at ho; cases ho))

/-- C25, amended: when a call of an operation of a group has given an order to a unit, the
frame of the last command of the group afterwards is the current frame, with two exceptions
that give the order to one unit without `GiveOrderToGroup` and leave the frame of the last
command as it was: `AddUnit`, which orders the new member to the rally point, and `UnitIdle`
of a group with an attack whose idle assault unit is outside the target sector, which orders
that unit to attack. -/
theorem order_records_frame (env : Env) (g g1 : AAIGroup) (op : GroupOp) (ev : List Event)
    (h : applyOpCalls env g op = some (g1, ev)) (hord : ∃ e ∈ ev, e.isOrder = true) :
    g1.lastCommandFrame = env.GetCurrentFrame
    ∨ ((∃ u d c, op = GroupOp.AddUnit u d c ∧ g1.m_units = g.m_units ++ [u])
        ∧ g1.lastCommandFrame = g.lastCommandFrame)
    ∨ (∃ unit c, op = GroupOp.UnitIdle unit ∧ g1 = g
        ∧ ev = [Event.GiveOrder c unit "Group::Idle_c",
                Event.SetUnitStatus unit UnitTask.UNIT_ATTACKING]) := by
  have hnil : ev = [] → False := by
    intro hnil
    obtain ⟨e, he, _⟩ := hord
    rw [hnil] at he
    exact absurd he (List.not_mem_nil e)
  cases op with
  | AddUnit u d c =>
    simp only [applyOpCalls, Option.some.injEq] at h
    obtain ⟨rfl, rfl⟩ : (AddUnit env g u d c).2.1 = g1 ∧ (AddUnit env g u d c).2.2 = ev :=
      ⟨congrArg Prod.fst h, congrArg Prod.snd h⟩
    by_cases ha : AddUnitAdmits g d c
    · have h2 := (AddUnit_of_admits env g u d c ha).2
      exact Or.inr (Or.inl ⟨⟨u, d, c, rfl, by rw [h2]⟩, by rw [h2]⟩)
    · exact absurd (by rw [AddUnit_of_not_admits env g u d c ha]) hnil
  | RemoveUnit u a =>
    simp only [applyOpCalls, Option.some.injEq] at h
    obtain ⟨rfl, rfl⟩ : (RemoveUnit env g u a).2.1 = g1 ∧ (RemoveUnit env g u a).2.2 = ev :=
      ⟨congrArg Prod.fst h, congrArg Prod.snd h⟩
    obtain ⟨e, he, ho⟩ := hord
    rw [RemoveUnit_no_order env g u a e he] at ho
    cases ho
  | GiveOrderToGroup c i t o =>
    simp only [applyOpCalls, Option.some.injEq] at h
    have h1 := congrArg Prod.fst h
    simp only at h1
    exact Or.inl (by rw [← h1]; rfl)
  | Update =>
    simp only [applyOpCalls, Option.some.injEq] at h
    exact absurd (congrArg Prod.snd h).symm hnil
  | TargetUnitKilled =>
    simp only [applyOpCalls, Option.some.injEq] at h
    obtain ⟨rfl, rfl⟩ : (TargetUnitKilled env g).1 = g1 ∧ (TargetUnitKilled env g).2 = ev :=
      ⟨congrArg Prod.fst h, congrArg Prod.snd h⟩
    exact Or.inl (TargetUnitKilled_order env g hord)
  | AttackSector s i =>
    simp only [applyOpCalls, Option.some.injEq] at h
    have h1 := congrArg Prod.fst h
    simp only at h1
    exact Or.inl (by rw [← h1]; rfl)
  | Defend u p i =>
    simp only [applyOpCalls, Option.some.injEq] at h
    have h1 := congrArg Prod.fst h
    simp only at h1
    exact Or.inl (by rw [← h1]; exact Defend_frame env g u p i)
  | Retreat p =>
    simp only [applyOpCalls, Option.some.injEq] at h
    have h1 := congrArg Prod.fst h
    simp only at h1
    exact Or.inl (by rw [← h1]; rfl)
  | UnitIdle unit =>
    simp only [applyOpCalls, Option.some.injEq] at h
    obtain ⟨rfl, rfl⟩ : (UnitIdle env g unit).1 = g1 ∧ (UnitIdle env g unit).2 = ev :=
      ⟨congrArg Prod.fst h, congrArg Prod.snd h⟩
    rcases UnitIdle_order env g unit hord with h1 | ⟨c, h1⟩
    · exact Or.inl h1
    · exact Or.inr (Or.inr ⟨unit, c, rfl, by rw [h1], by rw [h1]⟩)
  | BombTarget t p =>
    simp only [applyOpCalls, Option.some.injEq] at h
    have h1 := congrArg Prod.fst h
    simp only at h1
    exact Or.inl (by rw [← h1]; rfl)
  | DefendAirSpace p =>
    simp only [applyOpCalls, Option.some.injEq] at h
    have h1 := congrArg Prod.fst h
    simp only at h1
    exact Or.inl (by rw [← h1]; rfl)
  | AirRaidUnit u =>
    simp only [applyOpCalls, Option.some.injEq] at h
    have h1 := congrArg Prod.fst h
    simp only at h1
    exact Or.inl (by rw [← h1]; rfl)
  | UpdateRallyPoint =>
    simp only [applyOpCalls, UpdateRallyPoint] at h
    cases hs : env.GetSectorOfPos g.m_rallyPoint with
    | none => rw [hs] at h; cases h
    | some s =>
      rw [hs] at h
      simp only [] at h
      by_cases hd : env.distance_to_base s ≤ 0
      · rw [if_pos hd] at h
        exact Or.inl (GetNewRallyPoint_order env g g1 ev h hord)
      · rw [if_neg hd] at h
        simp only [Option.some.injEq, Prod.mk.injEq] at h
        exact absurd h.2.symm hnil
  | GetNewRallyPoint =>
    exact Or.inl (GetNewRallyPoint_order env g g1 ev h hord)
  | SetAttack a =>
    simp only [applyOpCalls, Option.some.injEq, Prod.mk.injEq] at h
    exact absurd h.2.symm hnil

/-- C25, amended, on the concrete world: `AttackSector` in frame 200 on the group with
member 7. -/
theorem order_records_frame_witness :
    applyOpCalls exampleEnvLater exampleAssaultReady (GroupOp.AttackSector 3 50)
      = some (AttackSector exampleEnvLater exampleAssaultReady 3 50)
    ∧ (∃ e ∈ (AttackSector exampleEnvLater exampleAssaultReady 3 50).2, e.isOrder = true)
    ∧ (AttackSector exampleEnvLater exampleAssaultReady 3 50).1.lastCommandFrame = 200 := by
  have hord : ∃ e ∈ (AttackSector exampleEnvLater exampleAssaultReady 3 50).2,
      e.isOrder = true :=
    ⟨Event.GiveOrder ((Command.mk1 CommandId.CMD_FIGHT).PushPos ⟨900, 0, 900⟩) 7
      "Group::AttackSector", List.mem_cons_self _ _, rfl⟩
  refine ⟨rfl, hord, ?_⟩
  rcases order_records_frame exampleEnvLater exampleAssaultReady
    (AttackSector exampleEnvLater exampleAssaultReady 3 50).1 (GroupOp.AttackSector 3 50)
    (AttackSector exampleEnvLater exampleAssaultReady 3 50).2 rfl hord with h | h | h
  · exact h
  · obtain ⟨⟨_, _, _, h1, _⟩, _⟩ := h
    cases h1
  · obtain ⟨_, _, h1, _⟩ := h
    cases h1

/-! ### The hint to the air force manager -/

theorem airSupportCalls_worth (env : Env) (attackerUnitId : UnitId)
    (h : attackerWorthAirSupport env attackerUnitId) :
    airSupportCalls env attackerUnitId
      = [Event.CheckTarget attackerUnitId
          (env.GetUnitCategory (env.GetUnitDefId attackerUnitId))
          (env.GetHealth (env.GetUnitDefId attackerUnitId))] := by
  obtain ⟨h1, h2, h3⟩ := h
  simp only [airSupportCalls]
  rw [if_pos ⟨h1, h2⟩]
  split_ifs <;> first | rfl | (exfalso; tauto)

theorem airSupportCalls_not_worth (env : Env) (attackerUnitId : UnitId)
    (h : ¬ attackerWorthAirSupport env attackerUnitId) :
    airSupportCalls env attackerUnitId = [] := by
  unfold attackerWorthAirSupport at h
  simp only [airSupportCalls]
  split_ifs <;> first | rfl | (exfalso; tauto)

theorem RemoveUnit_calls (env : Env) (g : AAIGroup) (unitId attackerUnitId : UnitId)
    (hm : unitId ∈ g.m_units) :
    ∃ detach : List Event, (∀ e ∈ detach, e.isCheckTarget = false)
      ∧ (RemoveUnit env g unitId attackerUnitId).2.2
        = detach ++ (if attackerUnitId.IsValid = true ∧ GetCurrentSize g - 1 > 0 then
            airSupportCalls env attackerUnitId else []) := by
  simp only [RemoveUnit, if_pos hm]
  by_cases h0 : GetCurrentSize g - 1 = 0
  · rw [if_pos h0]
    cases ha : g.attack with
    | none => exact ⟨[], fun e he => absurd he (List.not_mem_nil e), rfl⟩
    | some a =>
      refine ⟨[Event.RemoveGroup a], fun e he => ?_, rfl⟩
      rw [List.mem_singleton] at he
      rw [he]
      rfl
  · rw [if_neg h0]
    exact ⟨[], fun e he => absurd he (List.not_mem_nil e), rfl⟩

/-- C27, as stated, fails for a static defence: the group of two loses member 1 to the
attacker 5, a static defence whose combat power against every target type is 0, not above the
threshold 1, and `CheckTarget` is called. -/
theorem RemoveUnit_hint_without_threshold :
    (RemoveUnit exampleEnvStaticDefence exampleGroupOfTwo ⟨1⟩ ⟨5⟩).2.2
      = [Event.CheckTarget ⟨5⟩ EUnitCategory.STATIC_DEFENCE 1]
    ∧ ∀ t, ¬ exampleEnvStaticDefence.GetCombatPower (exampleEnvStaticDefence.GetUnitDefId ⟨5⟩) t
        > exampleEnvStaticDefence.MIN_AIR_SUPPORT_EFFICIENCY := by
  constructor
  · simp [RemoveUnit, airSupportCalls, GetCurrentSize, exampleGroupOfTwo, exampleGroup,
      exampleEnvStaticDefence, exampleEnv, UnitId.IsValid]
  · intro t
    norm_num [exampleEnvStaticDefence, exampleEnv]

/-- C27, amended: `RemoveUnit` calls `CheckTarget`, once and for the attacker, exactly when the
removed unit was a member, the attacker id is valid, members remain after the removal, the unit
type of the attacker is valid, the mod is not air-only, and the attacker is a static defence
(whatever its combat power), or a ground or hover combat unit whose combat power against
surface targets is above `MIN_AIR_SUPPORT_EFFICIENCY`, or a sea combat unit whose combat power
against floating targets is; in every other case it does not call `CheckTarget`. -/
theorem RemoveUnit_hint (env : Env) (g : AAIGroup) (unitId attackerUnitId : UnitId) :
    ((unitId ∈ g.m_units ∧ attackerUnitId.IsValid = true ∧ GetCurrentSize g - 1 > 0
        ∧ attackerWorthAirSupport env attackerUnitId) →
      (RemoveUnit env g unitId attackerUnitId).2.2.filter Event.isCheckTarget
        = [Event.CheckTarget attackerUnitId
            (env.GetUnitCategory (env.GetUnitDefId attackerUnitId))
            (env.GetHealth (env.GetUnitDefId attackerUnitId))])
    ∧ (¬ (unitId ∈ g.m_units ∧ attackerUnitId.IsValid = true ∧ GetCurrentSize g - 1 > 0
        ∧ attackerWorthAirSupport env attackerUnitId) →
      (RemoveUnit env g unitId attackerUnitId).2.2.filter Event.isCheckTarget = []) := by
  have hdet : ∀ detach : List Event, (∀ e ∈ detach, e.isCheckTarget = false) →
      detach.filter Event.isCheckTarget = [] := by
    intro detach hd
    rw [List.filter_eq_nil_iff]
    intro e he
    rw [hd e he]
    exact Bool.false_ne_true
  constructor
  · rintro ⟨hm, hv, hs, hw⟩
    obtain ⟨detach, hd, he⟩ := RemoveUnit_calls env g unitId attackerUnitId hm
    rw [he, if_pos ⟨hv, hs⟩, List.filter_append, hdet detach hd,
      airSupportCalls_worth env attackerUnitId hw]
    rfl
  · intro hn
    by_cases hm : unitId ∈ g.m_units
    · obtain ⟨detach, hd, he⟩ := RemoveUnit_calls env g unitId attackerUnitId hm
      rw [he, List.filter_append, hdet detach hd]
      by_cases hvs : attackerUnitId.IsValid = true ∧ GetCurrentSize g - 1 > 0
      · rw [if_pos hvs,
          airSupportCalls_not_worth env attackerUnitId (fun hw => hn ⟨hm, hvs.1, hvs.2, hw⟩)]
        rfl
      · rw [if_neg hvs]
        rfl
    · simp only [RemoveUnit, if_neg hm]
      split <;> rfl

/-- C27, amended, on the concrete world: the static defence 5 kills member 1 of the group of
two. -/
theorem RemoveUnit_hint_witness :
    (⟨1⟩ : UnitId) ∈ exampleGroupOfTwo.m_units
    ∧ UnitId.IsValid ⟨5⟩ = true ∧ GetCurrentSize exampleGroupOfTwo - 1 > 0
    ∧ attackerWorthAirSupport exampleEnvStaticDefence ⟨5⟩
    ∧ (RemoveUnit exampleEnvStaticDefence exampleGroupOfTwo ⟨1⟩ ⟨5⟩).2.2.filter
          Event.isCheckTarget
        = [Event.CheckTarget ⟨5⟩ EUnitCategory.STATIC_DEFENCE 1] := by
  have hm : (⟨1⟩ : UnitId) ∈ exampleGroupOfTwo.m_units := by decide
  have hv : UnitId.IsValid ⟨5⟩ = true := by decide
  have hs : GetCurrentSize exampleGroupOfTwo - 1 > 0 := by decide
  have hw : attackerWorthAirSupport exampleEnvStaticDefence ⟨5⟩ :=
    ⟨by decide, rfl, Or.inl rfl⟩
  exact ⟨hm, hv, hs, hw,
    (RemoveUnit_hint exampleEnvStaticDefence exampleGroupOfTwo ⟨1⟩ ⟨5⟩).1 ⟨hm, hv, hs, hw⟩⟩

/-! ### The rally point counters -/

theorem applyToRallyPoints_apply (cnt : SectorId → Int) (e : Event) (sector : SectorId) :
    e.applyToRallyPoints cnt sector = cnt sector + e.rallyDelta sector := by
  cases e <;> simp only [Event.applyToRallyPoints, Event.rallyDelta, add_zero]
  all_goals
    rename_i s
    by_cases h : s = sector
    · subst h
      rw [Function.update_same, if_pos rfl]
      try ring
    · rw [Function.update_noteq (Ne.symm h), if_neg h, add_zero]

theorem applyRallyEvents_apply (evs : List Event) :
    ∀ (cnt : SectorId → Int) (sector : SectorId),
      applyRallyEvents cnt evs sector = cnt sector + (evs.map (Event.rallyDelta sector)).sum := by
  induction evs with
  | nil => intro cnt sector; simp [applyRallyEvents]
  | cons e rest ih =>
    intro cnt sector
    have := ih (e.applyToRallyPoints cnt) sector
    unfold applyRallyEvents at this ⊢
    rw [List.foldl_cons, this, applyToRallyPoints_apply, List.map_cons, List.sum_cons]
    ring

theorem rallyDelta_of_not_count (sector : SectorId) (evs : List Event)
    (h : ∀ e ∈ evs, e.isRallyCount = false) : (evs.map (Event.rallyDelta sector)).sum = 0 := by
  induction evs with
  | nil => rfl
  | cons e rest ih =>
    rw [List.map_cons, List.sum_cons, ih (fun x hx => h x (List.mem_cons_of_mem e hx))]
    have he := h e (List.mem_cons_self e rest)
    cases e <;> first | rfl | cases he

theorem countP_set_int (p : AAIGroup → Bool) (g1 : AAIGroup) :
    ∀ (l : List AAIGroup) (i : Nat) (g : AAIGroup), l[i]? = some g →
      ((l.set i g1).countP p : Int)
        = (l.countP p : Int) - (if p g = true then 1 else 0) + (if p g1 = true then 1 else 0) := by
  intro l
  induction l with
  | nil => intro i g h; simp at h
  | cons x xs ih =>
    intro i g h
    cases i with
    | zero =>
      simp only [List.getElem?_cons_zero, Option.some.injEq] at h
      subst h
      rw [List.set_cons_zero, List.countP_cons, List.countP_cons]
      push_cast
      ring
    | succ n =>
      simp only [List.getElem?_cons_succ] at h
      rw [List.set_cons_succ, List.countP_cons, List.countP_cons]
      push_cast
      rw [ih n g h]
      ring

theorem countP_eraseIdx_int (p : AAIGroup → Bool) :
    ∀ (l : List AAIGroup) (i : Nat) (g : AAIGroup), l[i]? = some g →
      ((l.eraseIdx i).countP p : Int)
        = (l.countP p : Int) - (if p g = true then 1 else 0) := by
  intro l
  induction l with
  | nil => intro i g h; simp at h
  | cons x xs ih =>
    intro i g h
    cases i with
    | zero =>
      simp only [List.getElem?_cons_zero, Option.some.injEq] at h
      subst h
      rw [List.eraseIdx_cons_zero, List.countP_cons]
      push_cast
      ring
    | succ n =>
      simp only [List.getElem?_cons_succ] at h
      rw [List.eraseIdx_cons_succ, List.countP_cons, List.countP_cons]
      push_cast
      rw [ih n g h]
      ring

theorem countP_append_one_int (p : AAIGroup → Bool) (l : List AAIGroup) (g : AAIGroup) :
    ((l ++ [g]).countP p : Int) = (l.countP p : Int) + (if p g = true then 1 else 0) := by
  rw [List.countP_append, List.countP_cons, List.countP_nil]
  push_cast
  ring

theorem orderCalls_not_count (c : Command) (task : UnitTask) (owner : String)
    (l : List UnitId) : ∀ e ∈ orderCalls c task owner l, e.isRallyCount = false := by
  induction l with
  | nil => intro e he; simp [orderCalls] at he
  | cons u us ih =>
    intro e he
    simp only [orderCalls, List.mem_cons] at he
    rcases he with e1 | e1 | e1
    · rw [e1]; rfl
    · rw [e1]; rfl
    · exact ih e e1

theorem AddUnit_keeps (env : Env) (g : AAIGroup) (u : UnitId) (d : UnitDefId) (c : Int) :
    KeepsRallyPoint g (AddUnit env g u d c).2 := by
  simp only [AddUnit]
  repeat' split
  all_goals first
    | exact ⟨rfl, fun e he => absurd he (List.not_mem_nil e)⟩
    | (refine ⟨rfl, fun e he => ?_⟩
       rw [List.mem_singleton] at he
       rw [he]
       rfl)

theorem RemoveUnit_keeps (env : Env) (g : AAIGroup) (u a : UnitId) :
    KeepsRallyPoint g (RemoveUnit env g u a).2 := by
  constructor
  · simp only [RemoveUnit]
    repeat' split
    all_goals rfl
  · intro e he
    simp only [RemoveUnit, airSupportCalls] at he
    repeat' split at he
    all_goals
      simp only [List.append_nil, List.nil_append, List.mem_cons, List.mem_singleton,
        List.mem_append, List.not_mem_nil, or_false, false_or] at he
    all_goals first
      | exact absurd he id
      | (rcases he with he | he <;> (rw [he]; rfl))
      | (rw [he]; rfl)

theorem GiveOrderToGroup_keeps (env : Env) (g : AAIGroup) (c : Command) (i : ℚ) (t : UnitTask)
    (o : String) : KeepsRallyPoint g (GiveOrderToGroup env g c i t o) :=
  ⟨rfl, orderCalls_not_count c t o g.m_units⟩

theorem TargetUnitKilled_keeps (env : Env) (g : AAIGroup) :
    KeepsRallyPoint g (TargetUnitKilled env g) := by
  simp only [TargetUnitKilled]
  repeat' split
  all_goals first
    | exact ⟨rfl, fun e he => absurd he (List.not_mem_nil e)⟩
    | exact GiveOrderToGroup_keeps env g _ _ _ _

theorem Defend_keeps (env : Env) (g : AAIGroup) (u : UnitId) (p : float3) (i : Int) :
    KeepsRallyPoint g (Defend env g u p i) := by
  simp only [Defend]
  split
  all_goals exact ⟨rfl, orderCalls_not_count _ _ _ g.m_units⟩

theorem append_one_not_count (l : List Event) (x : Event) (hl : ∀ e ∈ l, e.isRallyCount = false)
    (hx : x.isRallyCount = false) : ∀ e ∈ l ++ [x], e.isRallyCount = false := by
  intro e he
  rw [List.mem_append, List.mem_singleton] at he
  rcases he with he | he
  · exact hl e he
  · rw [he]; exact hx

theorem UnitIdle_keeps (env : Env) (g : AAIGroup) (unit : Int) :
    KeepsRallyPoint g (UnitIdle env g unit) := by
  simp only [UnitIdle]
  repeat' split
  all_goals first
    | exact ⟨rfl, fun e he => absurd he (List.not_mem_nil e)⟩
    | exact ⟨rfl, orderCalls_not_count _ _ _ g.m_units⟩
    | (refine ⟨rfl, fun e he => ?_⟩
       rw [List.mem_singleton] at he
       rw [he]
       rfl)
    | (refine ⟨rfl, fun e he => ?_⟩
       simp only [List.mem_cons, List.mem_singleton, List.not_mem_nil, or_false] at he
       rcases he with he | he <;> (rw [he]; rfl))

theorem KeepsRallyPoint_delta (sectorOf : float3 → Option SectorId) (sector : SectorId)
    (g : AAIGroup) (r : AAIGroup × List Event) (h : KeepsRallyPoint g r) :
    (r.2.map (Event.rallyDelta sector)).sum
      = (if hasRallyPointIn sectorOf sector r.1 = true then 1 else 0)
        - (if hasRallyPointIn sectorOf sector g = true then 1 else 0) := by
  rw [rallyDelta_of_not_count sector r.2 h.2]
  unfold hasRallyPointIn
  rw [h.1]
  ring

theorem GetNewRallyPoint_delta (sectorOf : float3 → Option SectorId) (sector : SectorId)
    (env : Env) (g g1 : AAIGroup) (ev : List Event) (hsec : env.GetSectorOfPos = sectorOf)
    (hc : ProviderWritesValidity env) (h : GetNewRallyPoint env g = some (g1, ev)) :
    (ev.map (Event.rallyDelta sector)).sum
      = (if hasRallyPointIn sectorOf sector g1 = true then 1 else 0)
        - (if hasRallyPointIn sectorOf sector g = true then 1 else 0) := by
  obtain ⟨ev1, h1, h2⟩ := GetNewRallyPoint_spec env g g1 ev h
  have hold : (ev1.map (Event.rallyDelta sector)).sum
      = - (if hasRallyPointIn sectorOf sector g = true then 1 else 0) := by
    rcases releaseRallyPoint_spec env g ev1 h1 with ⟨hx, e1⟩ | ⟨hx, s, hs, e1⟩
    · rw [e1]
      simp [hasRallyPointIn, hx]
    · rw [e1, ← hsec]
      by_cases hss : s = sector
      · simp [hasRallyPointIn, hx, hs, hss, Event.rallyDelta]
      · simp [hasRallyPointIn, hx, hs, hss, Event.rallyDelta]
  have hcon := hc g.m_rallyPoint g.m_moveType g.m_continentId
  rcases acquireRallyPoint_spec env g g1 ev1 ev h2 with
    ⟨hf, s, hs, ⟨_, e1, e2⟩ | ⟨_, e1, e2⟩⟩ | ⟨hf, e1, e2⟩
  · rw [e2, List.map_append, List.sum_append, List.map_append, List.sum_append, hold,
      rallyDelta_of_not_count sector _ (orderCalls_not_count _ _ _ _), e1, ← hsec]
    by_cases hss : s = sector
    · simp [hasRallyPointIn, hcon.1 hf, hs, hss, Event.rallyDelta]
      ring
    · simp [hasRallyPointIn, hcon.1 hf, hs, hss, Event.rallyDelta]
  · rw [e2, List.map_append, List.sum_append, hold, e1, ← hsec]
    by_cases hss : s = sector
    · simp [hasRallyPointIn, hcon.1 hf, hs, hss, Event.rallyDelta]
      ring
    · simp [hasRallyPointIn, hcon.1 hf, hs, hss, Event.rallyDelta]
  · rw [e2, List.map_append, List.sum_append, hold, e1]
    simp [hasRallyPointIn, hcon.2 hf, Event.rallyDelta]

theorem applyOpCalls_delta (sectorOf : float3 → Option SectorId) (sector : SectorId)
    (env : Env) (g g1 : AAIGroup) (op : GroupOp) (ev : List Event)
    (hsec : env.GetSectorOfPos = sectorOf) (hc : ProviderWritesValidity env)
    (h : applyOpCalls env g op = some (g1, ev)) :
    (ev.map (Event.rallyDelta sector)).sum
      = (if hasRallyPointIn sectorOf sector g1 = true then 1 else 0)
        - (if hasRallyPointIn sectorOf sector g = true then 1 else 0) := by
  have keep : ∀ r : AAIGroup × List Event, KeepsRallyPoint g r → some r = some (g1, ev) →
      (ev.map (Event.rallyDelta sector)).sum
        = (if hasRallyPointIn sectorOf sector g1 = true then 1 else 0)
          - (if hasRallyPointIn sectorOf sector g = true then 1 else 0) := by
    intro r hk hr
    cases hr
    exact KeepsRallyPoint_delta sectorOf sector g _ hk
  cases op with
  | AddUnit u d c => exact keep _ (AddUnit_keeps env g u d c) h
  | RemoveUnit u a => exact keep _ (RemoveUnit_keeps env g u a) h
  | GiveOrderToGroup c i t o => exact keep _ (GiveOrderToGroup_keeps env g c i t o) h
  | Update => exact keep _ ⟨rfl, fun e he => absurd he (List.not_mem_nil e)⟩ h
  | TargetUnitKilled => exact keep _ (TargetUnitKilled_keeps env g) h
  | AttackSector s i => exact keep _ ⟨rfl, orderCalls_not_count _ _ _ g.m_units⟩ h
  | Defend u p i => exact keep _ (Defend_keeps env g u p i) h
  | Retreat p => exact keep _ ⟨rfl, orderCalls_not_count _ _ _ g.m_units⟩ h
  | UnitIdle u => exact keep _ (UnitIdle_keeps env g u) h
  | BombTarget t p =>
    exact keep _ ⟨rfl, append_one_not_count _ (Event.AssignGroupToEnemy t)
      (orderCalls_not_count _ _ _ g.m_units) rfl⟩ h
  | DefendAirSpace p => exact keep _ ⟨rfl, orderCalls_not_count _ _ _ g.m_units⟩ h
  | AirRaidUnit u =>
    exact keep _ ⟨rfl, append_one_not_count _ (Event.AssignGroupToEnemy u)
      (orderCalls_not_count _ _ _ g.m_units) rfl⟩ h
  | UpdateRallyPoint =>
    simp only [applyOpCalls, UpdateRallyPoint] at h
    cases hs : env.GetSectorOfPos g.m_rallyPoint with
    | none => rw [hs] at h; cases h
    | some s =>
      rw [hs] at h
      simp only [] at h
      by_cases hd : env.distance_to_base s ≤ 0
      · rw [if_pos hd] at h
        exact GetNewRallyPoint_delta sectorOf sector env g g1 ev hsec hc h
      · rw [if_neg hd] at h
        exact keep _ ⟨rfl, fun e he => absurd he (List.not_mem_nil e)⟩ h
  | GetNewRallyPoint => exact GetNewRallyPoint_delta sectorOf sector env g g1 ev hsec hc h
  | SetAttack a => exact keep _ ⟨rfl, fun e he => absurd he (List.not_mem_nil e)⟩ h

theorem ctor_delta (sectorOf : float3 → Option SectorId) (sector : SectorId)
    (env : Env) (unitDefId : UnitDefId) (continentId : Int) (g0 : AAIGroup) (ev : List Event)
    (hsec : env.GetSectorOfPos = sectorOf) (hc : ProviderWritesValidity env)
    (h : ctor env unitDefId continentId = some (g0, ev)) :
    (ev.map (Event.rallyDelta sector)).sum
      = (if hasRallyPointIn sectorOf sector g0 = true then 1 else 0) := by
  unfold ctor at h
  cases hr : GetNewRallyPoint env (ctorInit env unitDefId continentId) with
  | none => rw [hr] at h; cases h
  | some r =>
    rw [hr] at h
    cases h
    have hd := GetNewRallyPoint_delta sectorOf sector env _ r.1 r.2 hsec hc hr
    have h0 : hasRallyPointIn sectorOf sector (ctorInit env unitDefId continentId) = false := by
      simp [hasRallyPointIn, ctorInit, ZeroVector]
    rw [h0] at hd
    rw [List.map_append, List.sum_append, hd]
    simp [Event.rallyDelta]

theorem dtor_delta (sectorOf : float3 → Option SectorId) (sector : SectorId)
    (env : Env) (g : AAIGroup) (ev : List Event) (hsec : env.GetSectorOfPos = sectorOf)
    (h : dtor env g = some ev) :
    (ev.map (Event.rallyDelta sector)).sum
      = - (if hasRallyPointIn sectorOf sector g = true then 1 else 0) := by
  unfold dtor at h
  simp only [] at h
  have hev1 : ∀ e ∈ (match g.attack with
      | some a => [Event.RemoveGroup a]
      | none => ([] : List Event)), e.isRallyCount = false := by
    intro e he
    cases ha : g.attack with
    | none => rw [ha] at he; exact absurd he (List.not_mem_nil e)
    | some a =>
      rw [ha] at he
      simp only [List.mem_singleton] at he
      rw [he]
      rfl
  by_cases hx : g.m_rallyPoint.x > 0
  · rw [if_pos hx] at h
    cases hs : env.GetSectorOfPos g.m_rallyPoint with
    | none => rw [hs] at h; cases h
    | some s =>
      rw [hs] at h
      simp only [Option.map, Option.some.injEq] at h
      rw [← h, List.map_append, List.sum_append, rallyDelta_of_not_count sector _ hev1, ← hsec]
      by_cases hss : s = sector
      · simp [hasRallyPointIn, hx, hs, hss, Event.rallyDelta]
      · simp [hasRallyPointIn, hx, hs, hss, Event.rallyDelta]
  · rw [if_neg hx] at h
    simp only [Option.some.injEq] at h
    rw [← h, rallyDelta_of_not_count sector _ hev1]
    simp [hasRallyPointIn, hx]

theorem stepSystem_balanced (sectorOf : float3 → Option SectorId) (env : Env)
    (s s1 : GroupSystem) (op : SystemOp) (hsec : env.GetSectorOfPos = sectorOf)
    (hc : ProviderWritesValidity env) (hb : RallyPointsBalanced sectorOf s)
    (h : stepSystem env s op = some s1) : RallyPointsBalanced sectorOf s1 := by
  intro sector
  cases op with
  | create d c =>
    simp only [stepSystem] at h
    cases hr : ctor env d c with
    | none => rw [hr] at h; cases h
    | some r =>
      rw [hr] at h
      cases h
      simp only []
      rw [applyRallyEvents_apply, hb sector, countP_append_one_int,
        ctor_delta sectorOf sector env d c r.1 r.2 hsec hc hr]
  | call i op =>
    simp only [stepSystem] at h
    cases hg : s.groups[i]? with
    | none => rw [hg] at h; cases h
    | some g =>
      rw [hg] at h
      simp only [] at h
      cases hr : applyOpCalls env g op with
      | none => rw [hr] at h; cases h
      | some r =>
        rw [hr] at h
        cases h
        simp only []
        rw [applyRallyEvents_apply, hb sector, countP_set_int _ r.1 s.groups i g hg,
          applyOpCalls_delta sectorOf sector env g r.1 op r.2 hsec hc hr]
        ring
  | destroy i =>
    simp only [stepSystem] at h
    cases hg : s.groups[i]? with
    | none => rw [hg] at h; cases h
    | some g =>
      rw [hg] at h
      simp only [] at h
      cases hr : dtor env g with
      | none => rw [hr] at h; cases h
      | some ev =>
        rw [hr] at h
        cases h
        simp only []
        rw [applyRallyEvents_apply, hb sector, countP_eraseIdx_int _ s.groups i g hg,
          dtor_delta sectorOf sector env g ev hsec hr]
        ring

theorem runSystem_balanced (sectorOf : float3 → Option SectorId)
    (run : List (Env × SystemOp)) :
    ∀ s s1 : GroupSystem,
      (∀ p ∈ run, p.1.GetSectorOfPos = sectorOf ∧ ProviderWritesValidity p.1) →
      RallyPointsBalanced sectorOf s → runSystem s run = some s1 →
      RallyPointsBalanced sectorOf s1 := by
  induction run with
  | nil =>
    intro s s1 _ hb h
    simp only [runSystem, Option.some.injEq] at h
    rw [← h]
    exact hb
  | cons p rest ih =>
    intro s s1 henv hb h
    obtain ⟨env, op⟩ := p
    simp only [runSystem] at h
    cases hs : stepSystem env s op with
    | none => rw [hs] at h; cases h
    | some s2 =>
      rw [hs] at h
      obtain ⟨hsec, hc⟩ := henv (env, op) (List.mem_cons_self _ _)
      exact ih s2 s1 (fun q hq => henv q (List.mem_cons_of_mem _ hq))
        (stepSystem_balanced sectorOf env s s2 op hsec hc hb hs) h

theorem filter_not_count (evs : List Event) (h : ∀ e ∈ evs, e.isRallyCount = false) :
    evs.filter Event.isRallyCount = [] := by
  rw [List.filter_eq_nil_iff]
  intro e he
  rw [h e he]
  exact Bool.false_ne_true

theorem GetNewRallyPoint_returns (env : Env) (g : AAIGroup)
    (hsec : ∀ p, env.GetSectorOfPos p ≠ none) : (GetNewRallyPoint env g).isSome = true := by
  rw [GetNewRallyPoint_eq]
  have hrel : ∃ ev1, releaseRallyPoint env g = some ev1 := by
    unfold releaseRallyPoint
    by_cases hx : g.m_rallyPoint.x > 0
    · rw [if_pos hx]
      cases hs : env.GetSectorOfPos g.m_rallyPoint with
      | none => exact absurd hs (hsec _)
      | some s => exact ⟨_, rfl⟩
    · rw [if_neg hx]
      exact ⟨_, rfl⟩
  obtain ⟨ev1, h1⟩ := hrel
  rw [h1]
  show (acquireRallyPoint env g ev1).isSome = true
  unfold acquireRallyPoint
  simp only []
  by_cases hf : (env.DetermineRallyPoint g.m_rallyPoint g.m_moveType g.m_continentId).1 = true
  · rw [if_pos hf]
    cases hs : env.GetSectorOfPos
        (env.DetermineRallyPoint g.m_rallyPoint g.m_moveType g.m_continentId).2 with
    | none => exact absurd hs (hsec _)
    | some s =>
      simp only []
      split <;> rfl
  · rw [if_neg hf]
    rfl

theorem example_keep_rally_point :
    applyOpCalls exampleEnvRallyPointKept exampleGroup GroupOp.GetNewRallyPoint
      = some (exampleGroup,
          [Event.DecRallyPoints 0,
           Event.Log "Failed to determine rally point for goup of unit type %s!"]) := by
  simp [applyOpCalls, GetNewRallyPoint, exampleEnvRallyPointKept, exampleEnv, exampleGroup,
    exampleRallyPoint]

theorem example_dtor_with_rally_point :
    dtor exampleEnv exampleGroup = some [Event.DecRallyPoints 0] := by
  simp [dtor, exampleGroup, exampleEnv, exampleRallyPoint]

theorem example_failed_run :
    runSystem GroupSystem.empty exampleFailedRun
      = some ⟨[exampleGroup],
          applyRallyEvents (applyRallyEvents (fun _ => 0) exampleCtorCalls)
            [Event.DecRallyPoints 0,
             Event.Log "Failed to determine rally point for goup of unit type %s!"]⟩ := by
  simp only [runSystem, exampleFailedRun, stepSystem, example_ctor, GroupSystem.empty,
    List.nil_append, List.getElem?_cons_zero, example_keep_rally_point, List.set_cons_zero]

theorem example_failed_run_destroyed :
    runSystem GroupSystem.empty exampleFailedRunDestroyed
      = some ⟨[],
          applyRallyEvents (applyRallyEvents (applyRallyEvents (fun _ => 0) exampleCtorCalls)
            [Event.DecRallyPoints 0,
             Event.Log "Failed to determine rally point for goup of unit type %s!"])
            [Event.DecRallyPoints 0]⟩ := by
  simp only [runSystem, exampleFailedRunDestroyed, exampleFailedRun, stepSystem, example_ctor,
    GroupSystem.empty, List.nil_append, List.cons_append, List.getElem?_cons_zero,
    example_keep_rally_point, List.set_cons_zero, example_dtor_with_rally_point,
    List.eraseIdx_cons_zero]

/-- C26, as stated, fails when `DetermineRallyPoint` fails and leaves its reference argument
as it was: the group created with a rally point in sector 0 keeps that valid rally point after
the failed `GetNewRallyPoint`, while the count of sector 0 has gone from 1 to 0; `AddUnit` then
still orders the new member to the rally point; and after the destruction of the group the
count of sector 0 is -1 with no live group. -/
theorem rally_points_unbalanced :
    (∃ s, runSystem GroupSystem.empty exampleFailedRun = some s
      ∧ s.groups = [exampleGroup] ∧ s.rally_points 0 = 0
      ∧ hasRallyPointIn exampleEnv.GetSectorOfPos 0 exampleGroup = true
      ∧ (AddUnit exampleEnv exampleGroup ⟨7⟩ ⟨1⟩ 0).2.2
          = [Event.GiveOrder ((Command.mk1 CommandId.CMD_MOVE).PushPos exampleRallyPoint) 7
              "Group::AddUnit"])
    ∧ ∃ s, runSystem GroupSystem.empty exampleFailedRunDestroyed = some s
      ∧ s.groups = [] ∧ s.rally_points 0 = -1 := by
  refine ⟨⟨_, example_failed_run, rfl, ?_, ?_, ?_⟩, _, example_failed_run_destroyed, rfl, ?_⟩
  · simp [applyRallyEvents_apply, exampleCtorCalls, Event.rallyDelta]
  · simp [hasRallyPointIn, exampleGroup, exampleEnv, exampleRallyPoint]
  · simp [AddUnit, GetCurrentSize, exampleGroup, exampleRallyPoint]
  · simp [applyRallyEvents_apply, exampleCtorCalls, Event.rallyDelta]

/-- C26, amended: for a provider of rally points that writes a valid position when it finds one
and leaves none when it fails, and a map that does not change, after every sequence of
constructions of groups, calls of their operations (among them `GetNewRallyPoint`) and
destructions, the count `rally_points` of every sector is the number of live groups whose valid
rally point lies in it. A successful `GetNewRallyPoint` takes the old rally point, if there was
one, from the count of its sector once and adds the new one to the count of its sector once; a
failed one takes the old one from the count, adds nothing, logs the failure and, the provider
having left no valid position, leaves the group without a valid rally point, so that `AddUnit`
gives no order afterwards. `GetNewRallyPoint` returns when the map has a sector for every
position. -/
theorem rally_points_balanced (sectorOf : float3 → Option SectorId)
    (run : List (Env × SystemOp)) (s : GroupSystem)
    (henv : ∀ p ∈ run, p.1.GetSectorOfPos = sectorOf ∧ ProviderWritesValidity p.1)
    (h : runSystem GroupSystem.empty run = some s) :
    RallyPointsBalanced sectorOf s
    ∧ (∀ (env : Env) (g g1 : AAIGroup) (ev : List Event), ProviderWritesValidity env →
        GetNewRallyPoint env g = some (g1, ev) →
        (env.DetermineRallyPoint g.m_rallyPoint g.m_moveType g.m_continentId).1 = true →
        g1.m_rallyPoint.x > 0
        ∧ ∃ s1, env.GetSectorOfPos g1.m_rallyPoint = some s1
          ∧ (g.m_rallyPoint.x > 0 → ∃ s0, env.GetSectorOfPos g.m_rallyPoint = some s0
              ∧ ev.filter Event.isRallyCount
                = [Event.DecRallyPoints s0, Event.IncRallyPoints s1])
          ∧ (¬ g.m_rallyPoint.x > 0 →
              ev.filter Event.isRallyCount = [Event.IncRallyPoints s1]))
    ∧ (∀ (env : Env) (g g1 : AAIGroup) (ev : List Event), ProviderWritesValidity env →
        GetNewRallyPoint env g = some (g1, ev) →
        (env.DetermineRallyPoint g.m_rallyPoint g.m_moveType g.m_continentId).1 = false →
        ¬ g1.m_rallyPoint.x > 0
        ∧ (g.m_rallyPoint.x > 0 → ∃ s0, env.GetSectorOfPos g.m_rallyPoint = some s0
            ∧ ev.filter Event.isRallyCount = [Event.DecRallyPoints s0])
        ∧ (¬ g.m_rallyPoint.x > 0 → ev.filter Event.isRallyCount = [])
        ∧ Event.Log "Failed to determine rally point for goup of unit type %s!" ∈ ev
        ∧ ∀ (env2 : Env) (u : UnitId) (d : UnitDefId) (c : Int),
            (AddUnit env2 g1 u d c).2.2 = [])
    ∧ (∀ (env : Env) (g : AAIGroup), (∀ p, env.GetSectorOfPos p ≠ none) →
        (GetNewRallyPoint env g).isSome = true) := by
  refine ⟨runSystem_balanced sectorOf run GroupSystem.empty s henv (fun _ => rfl) h,
    fun env g g1 ev hc hg hf => ?_, fun env g g1 ev hc hg hf => ?_, GetNewRallyPoint_returns⟩
  · obtain ⟨ev1, h1, h2⟩ := GetNewRallyPoint_spec env g g1 ev hg
    have hcon := hc g.m_rallyPoint g.m_moveType g.m_continentId
    have hrp : g1.m_rallyPoint
          = (env.DetermineRallyPoint g.m_rallyPoint g.m_moveType g.m_continentId).2
        ∧ ∃ s1, env.GetSectorOfPos
              (env.DetermineRallyPoint g.m_rallyPoint g.m_moveType g.m_continentId).2 = some s1
          ∧ ev.filter Event.isRallyCount = ev1.filter Event.isRallyCount
              ++ [Event.IncRallyPoints s1] := by
      rcases acquireRallyPoint_spec env g g1 ev1 ev h2 with
        ⟨_, s1, hs, ⟨_, e1, e2⟩ | ⟨_, e1, e2⟩⟩ | ⟨hf2, _, _⟩
      · refine ⟨by rw [e1], s1, hs, ?_⟩
        rw [e2, List.filter_append, List.filter_append,
          filter_not_count _ (orderCalls_not_count _ _ _ _), List.append_nil]
        rfl
      · refine ⟨by rw [e1], s1, hs, ?_⟩
        rw [e2, List.filter_append]
        rfl
      · rw [hf] at hf2
        cases hf2
    obtain ⟨e1, s1, hs, hfil⟩ := hrp
    rw [e1]
    refine ⟨hcon.1 hf, s1, hs, fun hx => ?_, fun hx => ?_⟩
    · rcases releaseRallyPoint_spec env g ev1 h1 with ⟨hx2, _⟩ | ⟨_, s0, hs0, e0⟩
      · exact absurd hx hx2
      · refine ⟨s0, hs0, ?_⟩
        rw [hfil, e0]
        rfl
    · rcases releaseRallyPoint_spec env g ev1 h1 with ⟨_, e0⟩ | ⟨hx2, _⟩
      · rw [hfil, e0]
        rfl
      · exact absurd hx2 hx
  · obtain ⟨ev1, h1, h2⟩ := GetNewRallyPoint_spec env g g1 ev hg
    have hcon := hc g.m_rallyPoint g.m_moveType g.m_continentId
    have hrp : g1 = { g with
          m_rallyPoint :=
            (env.DetermineRallyPoint g.m_rallyPoint g.m_moveType g.m_continentId).2 }
        ∧ ev = ev1
          ++ [Event.Log "Failed to determine rally point for goup of unit type %s!"] := by
      rcases acquireRallyPoint_spec env g g1 ev1 ev h2 with ⟨hf2, _⟩ | ⟨_, e1, e2⟩
      · rw [hf] at hf2
        cases hf2
      · exact ⟨e1, e2⟩
    obtain ⟨e1, e2⟩ := hrp
    have hx1 : ¬ g1.m_rallyPoint.x > 0 := by
      rw [e1]
      exact hcon.2 hf
    refine ⟨hx1, fun hx => ?_, fun hx => ?_, ?_, fun env2 u d c => ?_⟩
    · rcases releaseRallyPoint_spec env g ev1 h1 with ⟨hx2, _⟩ | ⟨_, s0, hs0, e0⟩
      · exact absurd hx hx2
      · refine ⟨s0, hs0, ?_⟩
        rw [e2, e0]
        rfl
    · rcases releaseRallyPoint_spec env g ev1 h1 with ⟨_, e0⟩ | ⟨hx2, _⟩
      · rw [e2, e0]
        rfl
      · exact absurd hx2 hx
    · rw [e2]
      exact List.mem_append_right _ (List.mem_singleton_self _)
    · by_cases ha : AddUnitAdmits g1 d c
      · unfold AddUnitAdmits at ha
        unfold AddUnit
        simp only []
        rw [if_pos ha, if_neg hx1]
      · rw [AddUnit_of_not_admits env2 g1 u d c ha]

theorem example_provider_contract : ProviderWritesValidity exampleEnv := by
  intro p m c
  constructor
  · intro _
    norm_num [exampleEnv, exampleRallyPoint]
  · intro hf
    simp [exampleEnv] at hf

theorem example_no_rally_point_contract : ProviderWritesValidity exampleEnvNoRallyPoint := by
  intro p m c
  constructor
  · intro hf
    simp [exampleEnvNoRallyPoint] at hf
  · intro _
    norm_num [exampleEnvNoRallyPoint, ZeroVector]

theorem example_lose_rally_point :
    applyOpCalls exampleEnvNoRallyPoint exampleGroup GroupOp.GetNewRallyPoint
      = some (exampleGroupNoRallyPoint,
          [Event.DecRallyPoints 0,
           Event.Log "Failed to determine rally point for goup of unit type %s!"]) := by
  simp [applyOpCalls, GetNewRallyPoint, exampleEnvNoRallyPoint, exampleEnv, exampleGroup,
    exampleGroupNoRallyPoint, exampleRallyPoint]

theorem example_dtor : dtor exampleEnv exampleGroupNoRallyPoint = some [] := by
  simp [dtor, exampleGroupNoRallyPoint, exampleGroup, ZeroVector]

theorem example_system_run :
    runSystem GroupSystem.empty exampleSystemRun
      = some ⟨[exampleGroup],
          applyRallyEvents (applyRallyEvents (applyRallyEvents (applyRallyEvents (fun _ => 0)
            exampleCtorCalls) exampleCtorCalls)
            [Event.DecRallyPoints 0,
             Event.Log "Failed to determine rally point for goup of unit type %s!"]) []⟩ := by
  simp only [runSystem, exampleSystemRun, stepSystem, example_ctor, GroupSystem.empty,
    List.nil_append, List.cons_append, List.getElem?_cons_zero, example_lose_rally_point,
    List.set_cons_zero, example_dtor, List.eraseIdx_cons_zero]

/-- C26, amended, on the concrete world: two groups are created with a rally point in sector 0, the
first fails to get a new one and is destroyed; one live group is left and the count of sector
0 is 1. -/
theorem rally_points_balanced_witness :
    (∀ p ∈ exampleSystemRun,
      p.1.GetSectorOfPos = exampleEnv.GetSectorOfPos ∧ ProviderWritesValidity p.1)
    ∧ ∃ s, runSystem GroupSystem.empty exampleSystemRun = some s
      ∧ s.groups = [exampleGroup] ∧ s.rally_points 0 = 1 := by
  have henv : ∀ p ∈ exampleSystemRun,
      p.1.GetSectorOfPos = exampleEnv.GetSectorOfPos ∧ ProviderWritesValidity p.1 := by
    intro p hp
    simp only [exampleSystemRun, List.mem_cons, List.mem_singleton, List.not_mem_nil,
      or_false] at hp
    rcases hp with hp | hp | hp | hp <;> rw [hp]
    · exact ⟨rfl, example_provider_contract⟩
    · exact ⟨rfl, example_provider_contract⟩
    · exact ⟨rfl, example_no_rally_point_contract⟩
    · exact ⟨rfl, example_provider_contract⟩
  refine ⟨henv, _, example_system_run, rfl, ?_⟩
  rw [(rally_points_balanced exampleEnv.GetSectorOfPos exampleSystemRun _ henv
    example_system_run).1 0]
  simp [hasRallyPointIn, exampleGroup, exampleRallyPoint, exampleEnv]

end GroupTheorems

section ManagerTheorems

open AAIAttackManager

/-! ### Gathering the available groups -/

theorem getD_set_list (v : List (List GroupId)) (i j : Nat) (x : List GroupId)
    (h : i < v.length) : (v.set i x).getD j [] = if j = i then x else v.getD j [] := by
  simp only [List.getD_eq_getElem?_getD, List.getElem?_set]
  by_cases hij : i = j
  · subst hij
    rw [if_pos rfl, if_pos h, if_pos rfl]
    rfl
  · have hji : ¬ j = i := fun e => hij e.symm
    rw [if_neg hij, if_neg hji]

theorem pushOnContinent_spec (v : List (List GroupId)) (continentId : Int) (group : GroupId)
    (h0 : 0 ≤ continentId) (h1 : continentId.toNat < v.length) :
    ∃ v1, pushOnContinent v continentId group = some v1 ∧ v1.length = v.length
      ∧ ∀ c : Nat, v1.getD c []
          = v.getD c [] ++ [group].filter (fun _ => decide (continentId = (c : Int))) := by
  refine ⟨_, by unfold pushOnContinent; rw [if_pos ⟨h0, h1⟩], by rw [List.length_set], ?_⟩
  intro c
  rw [getD_set_list v _ c _ h1]
  by_cases hc : continentId = (c : Int)
  · have hc1 : c = continentId.toNat := by omega
    rw [if_pos hc1]
    simp [hc]
  · have hc1 : ¬ c = continentId.toNat := by omega
    rw [if_neg hc1]
    simp [hc]

theorem gatherGroup_spec (menv : ManagerEnv) (w : World) (acc : AvailableGroups)
    (g : GroupId)
    (hA : acc.availableAssaultGroupsOnContinent.length = menv.GetNumberOfContinents)
    (hB : acc.availableAAGroupsOnContinent.length = menv.GetNumberOfContinents)
    (hr : AAIGroup.IsAvailableForAttack menv.env (w.groups g) = true →
      isContinentBound w g = true → continentInRange menv w g) :
    ∃ res, gatherGroup menv w acc g = some res ∧ Gathered menv w acc [g] res := by
  unfold gatherGroup
  simp only []
  cases hav : AAIGroup.IsAvailableForAttack menv.env (w.groups g)
  · refine ⟨acc, by simp, ?_⟩
    constructor <;> simp [isAvailableAssault, isAvailableAntiAir, hav]
  · cases has : (w.groups g).m_groupType.IsAssaultUnit
    · cases haa : (w.groups g).m_groupType.IsAntiAir
      · refine ⟨acc, by simp, ?_⟩
        constructor <;> simp [isAvailableAssault, isAvailableAntiAir, hav, has, haa]
      · cases hb : (w.groups g).m_moveType.CannotMoveToOtherContinents
        · refine ⟨_, by simp; rfl, ?_⟩
          constructor <;>
            simp [isAvailableAssault, isAvailableAntiAir, isContinentBound, isBoundTo,
              hav, has, haa, hb]
        · obtain ⟨h0, h1⟩ := hr hav hb
          rw [← hB] at h1
          obtain ⟨v1, hv1, hlen, hget⟩ :=
            pushOnContinent_spec acc.availableAAGroupsOnContinent _ g h0 h1
          simp only [List.getD_eq_getElem?_getD] at hget
          refine ⟨_, by simp [hv1]; rfl, ?_⟩
          constructor <;>
            simp [isAvailableAssault, isAvailableAntiAir, isContinentBound, isBoundTo,
              hav, has, haa, hb, hlen, hget, List.filter_cons]
    · cases hb : (w.groups g).m_moveType.CannotMoveToOtherContinents
      · refine ⟨_, by simp; rfl, ?_⟩
        constructor <;>
          simp [isAvailableAssault, isAvailableAntiAir, isContinentBound, isBoundTo,
            hav, has, hb]
      · obtain ⟨h0, h1⟩ := hr hav hb
        rw [← hA] at h1
        obtain ⟨v1, hv1, hlen, hget⟩ :=
          pushOnContinent_spec acc.availableAssaultGroupsOnContinent _ g h0 h1
        simp only [List.getD_eq_getElem?_getD] at hget
        refine ⟨_, by simp [hv1]; rfl, ?_⟩
        constructor <;>
          simp [isAvailableAssault, isAvailableAntiAir, isContinentBound, isBoundTo,
            hav, has, hb, hlen, hget, List.filter_cons]

theorem Gathered_append {menv : ManagerEnv} {w : World} {acc acc1 acc2 : AvailableGroups}
    {l1 l2 : List GroupId} (h1 : Gathered menv w acc l1 acc1)
    (h2 : Gathered menv w acc1 l2 acc2) : Gathered menv w acc (l1 ++ l2) acc2 where
  lenAssault := h2.lenAssault.trans h1.lenAssault
  lenAA := h2.lenAA.trans h1.lenAA
  assaultGlobal := by
    rw [h2.assaultGlobal, h1.assaultGlobal, List.filter_append, List.append_assoc]
  aaGlobal := by rw [h2.aaGlobal, h1.aaGlobal, List.filter_append, List.append_assoc]
  assaultOnContinent := fun c => by
    rw [h2.assaultOnContinent c, h1.assaultOnContinent c, List.filter_append,
      List.append_assoc]
  aaOnContinent := fun c => by
    rw [h2.aaOnContinent c, h1.aaOnContinent c, List.filter_append, List.append_assoc]
  count := by
    rw [h2.count, h1.count, List.filter_append, List.length_append]
    push_cast
    ring

theorem Gathered_nil (menv : ManagerEnv) (w : World) (acc : AvailableGroups) :
    Gathered menv w acc [] acc := by
  constructor <;> simp

theorem gatherGroups_spec (menv : ManagerEnv) (w : World) (l : List GroupId) :
    ∀ acc : AvailableGroups,
      acc.availableAssaultGroupsOnContinent.length = menv.GetNumberOfContinents →
      acc.availableAAGroupsOnContinent.length = menv.GetNumberOfContinents →
      (∀ g ∈ l, AAIGroup.IsAvailableForAttack menv.env (w.groups g) = true →
        isContinentBound w g = true → continentInRange menv w g) →
      ∃ res, gatherGroups menv w acc l = some res ∧ Gathered menv w acc l res := by
  induction l with
  | nil => intro acc _ _ _; exact ⟨acc, rfl, Gathered_nil menv w acc⟩
  | cons g rest ih =>
    intro acc hA hB hr
    obtain ⟨acc1, hg, hG1⟩ := gatherGroup_spec menv w acc g hA hB
      (hr g (List.mem_cons_self g rest))
    obtain ⟨res, hres, hG2⟩ := ih acc1 (hG1.lenAssault.trans hA) (hG1.lenAA.trans hB)
      (fun g' hg' => hr g' (List.mem_cons_of_mem g hg'))
    refine ⟨res, ?_, ?_⟩
    · simp only [gatherGroups, hg]
      exact hres
    · exact Gathered_append hG1 hG2

/-- What `DetermineCombatUnitGroupsAvailableForattack` returns when the continent ids of the
available continent-bound groups are indices of the vectors. -/
theorem DetermineCombatUnitGroupsAvailableForattack_spec (menv : ManagerEnv) (w : World)
    (hr : ∀ g ∈ visitedGroups menv, AAIGroup.IsAvailableForAttack menv.env (w.groups g) = true →
      isContinentBound w g = true → continentInRange menv w g) :
    ∃ avail, DetermineCombatUnitGroupsAvailableForattack menv w = some avail
      ∧ avail.availableAssaultGroupsGlobal
          = (visitedGroups menv).filter
              (fun g => isAvailableAssault menv w g && !isContinentBound w g)
      ∧ avail.availableAAGroupsGlobal
          = (visitedGroups menv).filter
              (fun g => isAvailableAntiAir menv w g && !isContinentBound w g)
      ∧ (∀ c : Nat, avail.availableAssaultGroupsOnContinent.getD c []
          = (visitedGroups menv).filter
              (fun g => isAvailableAssault menv w g && isBoundTo w c g))
      ∧ (∀ c : Nat, avail.availableAAGroupsOnContinent.getD c []
          = (visitedGroups menv).filter
              (fun g => isAvailableAntiAir menv w g && isBoundTo w c g))
      ∧ avail.numberOfAssaultUnitGroups
          = (((visitedGroups menv).filter (fun g => isAvailableAssault menv w g)).length : Int) := by
  unfold DetermineCombatUnitGroupsAvailableForattack
  obtain ⟨res, hres, hG⟩ := gatherGroups_spec menv w (visitedGroups menv)
    { availableAssaultGroupsGlobal := []
      availableAAGroupsGlobal := []
      availableAssaultGroupsOnContinent := List.replicate menv.GetNumberOfContinents []
      availableAAGroupsOnContinent := List.replicate menv.GetNumberOfContinents []
      numberOfAssaultUnitGroups := 0 }
    (List.length_replicate _ _) (List.length_replicate _ _) hr
  have hrep : ∀ c : Nat,
      (List.replicate menv.GetNumberOfContinents ([] : List GroupId)).getD c [] = [] := by
    intro c
    rw [List.getD_eq_getElem?_getD, List.getElem?_replicate]
    split_ifs <;> rfl
  refine ⟨res, hres, ?_, ?_, ?_, ?_, ?_⟩
  · rw [hG.assaultGlobal]; rfl
  · rw [hG.aaGlobal]; rfl
  · intro c; rw [hG.assaultOnContinent c, hrep c]; rfl
  · intro c; rw [hG.aaOnContinent c, hrep c]; rfl
  · rw [hG.count]; simp

/-! ### Offering groups to an attack -/

theorem Offered_nil (menv : ManagerEnv) (a : AttackId) (w : World) : Offered menv a [] w w where
  slots := rfl
  next := rfl
  calls := by simp
  attacks := fun _ _ => rfl
  lastOrder := rfl
  mono := fun _ h => h
  joined := fun _ h => Or.inl h
  groups := fun _ => Or.inl rfl
  accepted := fun g hg => absurd hg (List.not_mem_nil g)

theorem Offered_one (menv : ManagerEnv) (a : AttackId) (g : GroupId) (w : World) :
    Offered menv a [g] w
      (if (AAIAttack.AddGroup menv w a g).1 = true
        then (AAIAttack.AddGroup menv w a g).2.setGroupAttack g (some a)
        else (AAIAttack.AddGroup menv w a g).2) := by
  unfold AAIAttack.AddGroup
  simp only []
  by_cases hacc : menv.AddGroupAccepts w a g = true
  · rw [if_pos hacc]
    simp only [if_true]
    have hmem : g ∈ (if g ∈ (w.attacks a).m_groups then w.attacks a
        else { w.attacks a with m_groups := (w.attacks a).m_groups ++ [g] }).m_groups := by
      split_ifs with h
      · exact h
      · exact List.mem_append_right _ (List.mem_singleton_self g)
    refine ⟨rfl, rfl, rfl, fun b hb => ?_, ?_, fun g' hg' => ?_, fun g' hg' => ?_,
      fun g' => ?_, fun g' hg' _ => ?_⟩
    · simp [World.setGroupAttack, World.record, hb]
    · simp only [World.setGroupAttack, World.record, if_true]
      split_ifs <;> rfl
    · simp only [World.setGroupAttack, World.record, if_true]
      split_ifs
      · exact hg'
      · exact List.mem_append_left _ hg'
    · simp only [World.setGroupAttack, World.record, if_true] at hg' ⊢
      by_cases hgg : g' = g
      · right
        rw [if_pos hgg]
      · left
        split_ifs at hg' with h
        · exact hg'
        · rcases List.mem_append.mp hg' with h1 | h1
          · exact h1
          · exact absurd (List.mem_singleton.mp h1) hgg
    · by_cases hgg : g' = g
      · subst hgg
        refine Or.inr ⟨List.mem_singleton_self _, ?_, by simp [World.setGroupAttack, World.record]⟩
        simpa only [World.setGroupAttack, World.record, if_true] using hmem
      · exact Or.inl (by simp [World.setGroupAttack, World.record, hgg])
    · rw [List.mem_singleton] at hg'
      subst hg'
      simp [World.setGroupAttack, World.record]
  · rw [if_neg hacc]
    have hf : (false = true) = False := by simp
    simp only [hf, if_false]
    refine ⟨rfl, rfl, rfl, fun _ _ => rfl, rfl, fun _ h => h, fun _ h => Or.inl h,
      fun _ => Or.inl rfl, fun g' hg' hall => ?_⟩
    rw [List.mem_singleton] at hg'
    subst hg'
    exact absurd (hall w) hacc

theorem Offered_append {menv : ManagerEnv} {a : AttackId} {l1 l2 : List GroupId}
    {w w1 w2 : World} (h1 : Offered menv a l1 w w1) (h2 : Offered menv a l2 w1 w2) :
    Offered menv a (l1 ++ l2) w w2 where
  slots := h2.slots.trans h1.slots
  next := h2.next.trans h1.next
  calls := by rw [h2.calls, h1.calls, List.map_append, List.append_assoc]
  attacks := fun b hb => (h2.attacks b hb).trans (h1.attacks b hb)
  lastOrder := h2.lastOrder.trans h1.lastOrder
  mono := fun g hg => h2.mono g (h1.mono g hg)
  joined := fun g hg => by
    rcases h2.joined g hg with m | e
    · rcases h1.joined g m with m1 | e1
      · exact Or.inl m1
      · right
        rcases h2.groups g with e2 | ⟨_, _, e2⟩
        · rw [e2]; exact e1
        · rw [e2]
    · exact Or.inr e
  groups := fun g => by
    rcases h2.groups g with e2 | ⟨m2, j2, e2⟩
    · rcases h1.groups g with e1 | ⟨m1, j1, e1⟩
      · exact Or.inl (e2.trans e1)
      · exact Or.inr ⟨List.mem_append_left _ m1, h2.mono g j1, e2.trans e1⟩
    · refine Or.inr ⟨List.mem_append_right _ m2, j2, ?_⟩
      rcases h1.groups g with e1 | ⟨_, _, e1⟩
      · rw [e2, e1]
      · rw [e2, e1]
  accepted := fun g hg hall => by
    rcases h2.groups g with e2 | ⟨_, _, e2⟩
    · rcases List.mem_append.mp hg with m1 | m2
      · rw [e2]; exact h1.accepted g m1 hall
      · exact h2.accepted g m2 hall
    · rw [e2]

theorem AddGroupsToAttack_spec (menv : ManagerEnv) (a : AttackId) (l : List GroupId) :
    ∀ w : World, Offered menv a l w (AddGroupsToAttack menv w a l) := by
  induction l with
  | nil => intro w; exact Offered_nil menv a w
  | cons g rest ih =>
    intro w
    have h1 := Offered_one menv a g w
    have h2 := ih (if (AAIAttack.AddGroup menv w a g).1 = true
        then (AAIAttack.AddGroup menv w a g).2.setGroupAttack g (some a)
        else (AAIAttack.AddGroup menv w a g).2)
    have := Offered_append h1 h2
    simpa [AddGroupsToAttack] using this

/-! ### Launching an attack -/

theorem orderAttack_spec (menv : ManagerEnv) (w : World) (avail : AvailableGroups)
    (availableAttackId : Int) (s : SectorId)
    (hid : 0 ≤ availableAttackId ∧ availableAttackId.toNat < w.m_activeAttacks.length)
    (hc : 0 ≤ menv.GetContinentID s
      ∧ (menv.GetContinentID s).toNat < menv.GetNumberOfContinents) :
    ∃ res, orderAttack menv w avail availableAttackId s = some res
      ∧ res.m_activeAttacks = w.m_activeAttacks.set availableAttackId.toNat (some w.nextAttack)
      ∧ res.nextAttack = w.nextAttack + 1
      ∧ res.calls = w.calls ++ [ManagerEvent.NewAttack w.nextAttack]
          ++ (avail.availableAssaultGroupsOnContinent.getD (menv.GetContinentID s).toNat []
                ++ avail.availableAssaultGroupsGlobal).map (ManagerEvent.AddGroup w.nextAttack)
          ++ [ManagerEvent.AttackSector w.nextAttack s]
      ∧ (∀ g, res.groups g = w.groups g
          ∨ (g ∈ avail.availableAssaultGroupsOnContinent.getD (menv.GetContinentID s).toNat []
                ++ avail.availableAssaultGroupsGlobal
              ∧ g ∈ (res.attacks w.nextAttack).m_groups
              ∧ res.groups g = { w.groups g with attack := some w.nextAttack }))
      ∧ (∀ g ∈ avail.availableAssaultGroupsOnContinent.getD (menv.GetContinentID s).toNat []
                ++ avail.availableAssaultGroupsGlobal,
          (∀ w1, menv.AddGroupAccepts w1 w.nextAttack g = true) →
            (res.groups g).attack = some w.nextAttack)
      ∧ (∀ b, b ≠ w.nextAttack → res.attacks b = w.attacks b)
      ∧ (∀ g ∈ (res.attacks w.nextAttack).m_groups, (res.groups g).attack = some w.nextAttack) := by
  have hO := Offered_append
    (AddGroupsToAttack_spec menv w.nextAttack
      (avail.availableAssaultGroupsOnContinent.getD (menv.GetContinentID s).toNat [])
      { (AAIAttack.new w).2 with
        m_activeAttacks := (AAIAttack.new w).2.m_activeAttacks.set availableAttackId.toNat
          (some w.nextAttack) })
    (AddGroupsToAttack_spec menv w.nextAttack avail.availableAssaultGroupsGlobal _)
  have hm : ∀ w4 : World,
      ((AAIAttack.AttackSector menv w4 w.nextAttack s).attacks w.nextAttack).m_groups
        = (w4.attacks w.nextAttack).m_groups := by
    intro w4
    simp [AAIAttack.AttackSector, World.record]
  refine ⟨AAIAttack.AttackSector menv (AddGroupsToAttack menv (AddGroupsToAttack menv
      { (AAIAttack.new w).2 with
        m_activeAttacks := (AAIAttack.new w).2.m_activeAttacks.set availableAttackId.toNat
          (some w.nextAttack) } w.nextAttack
      (avail.availableAssaultGroupsOnContinent.getD (menv.GetContinentID s).toNat []))
      w.nextAttack avail.availableAssaultGroupsGlobal) w.nextAttack s,
    ?_, ?_, ?_, ?_, ?_, ?_, ?_, ?_⟩
  · unfold orderAttack
    simp only []
    have hid1 : 0 ≤ availableAttackId
        ∧ availableAttackId.toNat < (AAIAttack.new w).2.m_activeAttacks.length
        ∧ 0 ≤ menv.GetContinentID s
        ∧ (menv.GetContinentID s).toNat < menv.GetNumberOfContinents :=
      ⟨hid.1, hid.2, hc.1, hc.2⟩
    rw [if_pos hid1]
    split_ifs <;> rfl
  · show (AddGroupsToAttack _ _ _ _).m_activeAttacks = _
    rw [hO.slots]
    rfl
  · show (AddGroupsToAttack _ _ _ _).nextAttack = _
    rw [hO.next]
    rfl
  · show (AddGroupsToAttack _ _ _ _).calls ++ [_] = _
    rw [hO.calls]
    rfl
  · intro g
    rw [hm]
    exact hO.groups g
  · intro g hg hall
    exact hO.accepted g hg hall
  · intro b hb
    show (if b = w.nextAttack then _ else (AddGroupsToAttack _ _ _ _).attacks b) = _
    rw [if_neg hb, hO.attacks b hb]
    show (if b = w.nextAttack then _ else w.attacks b) = _
    rw [if_neg hb]
  · intro g hg
    rw [hm] at hg
    rcases hO.joined g hg with h | h
    · have hnil : ((AAIAttack.new w).2.attacks w.nextAttack).m_groups = [] := by
        simp [AAIAttack.new, World.record]
      have h' : g ∈ ((AAIAttack.new w).2.attacks w.nextAttack).m_groups := h
      rw [hnil] at h'
      exact absurd h' (List.not_mem_nil g)
    · exact h

theorem offeredGroups_of_spec (menv : ManagerEnv) (w : World) (avail : AvailableGroups) (c : Nat)
    (hr : ∀ g ∈ visitedGroups menv, AAIGroup.IsAvailableForAttack menv.env (w.groups g) = true →
      isContinentBound w g = true → continentInRange menv w g)
    (hav : DetermineCombatUnitGroupsAvailableForattack menv w = some avail) :
    avail.availableAssaultGroupsOnContinent.getD c [] ++ avail.availableAssaultGroupsGlobal
      = offeredGroups menv w c := by
  obtain ⟨avail1, h1, hG, _, hC, _, _⟩ :=
    DetermineCombatUnitGroupsAvailableForattack_spec menv w hr
  rw [hav] at h1
  cases h1
  rw [hG, hC c]
  rfl

theorem mem_offeredGroups (menv : ManagerEnv) (w : World) (c : Nat) (g : GroupId)
    (hg : g ∈ offeredGroups menv w c) :
    g ∈ visitedGroups menv ∧ isAvailableAssault menv w g = true
      ∧ (isContinentBound w g = false
        ∨ (isContinentBound w g = true ∧ (w.groups g).m_continentId = (c : Int))) := by
  unfold offeredGroups at hg
  rcases List.mem_append.mp hg with h | h
  · rw [List.mem_filter] at h
    obtain ⟨hv, hp⟩ := h
    simp only [isBoundTo, Bool.and_eq_true, decide_eq_true_eq] at hp
    exact ⟨hv, hp.1, Or.inr hp.2⟩
  · rw [List.mem_filter] at h
    obtain ⟨hv, hp⟩ := h
    simp only [Bool.and_eq_true, Bool.not_eq_true'] at hp
    exact ⟨hv, hp.1, Or.inl hp.2⟩

/-- C7: when the gathering finds assault groups and the region selector returns a target
sector, `TryToLaunchAttack` stores a new attack in the given slot, offers to it the available
continent-bound assault groups of the continent of the target and then the available global
assault groups, each in the order of the gathering, sets the member `attack` of exactly the
groups the attack has accepted (all of them offered groups, so no continent-bound group of
another continent), changes nothing else in any group, and ends with the attack order toward
the target sector. -/
theorem TryToLaunchAttack_launches (menv : ManagerEnv) (w : World) (availableAttackId : Int)
    (s : SectorId) (avail : AvailableGroups)
    (hr : ∀ g ∈ visitedGroups menv, AAIGroup.IsAvailableForAttack menv.env (w.groups g) = true →
      isContinentBound w g = true → continentInRange menv w g)
    (hav : DetermineCombatUnitGroupsAvailableForattack menv w = some avail)
    (hne : avail.numberOfAssaultUnitGroups ≠ 0)
    (hsel : menv.DetermineSectorToAttack w (sectorQuery menv w avail).1
      (sectorQuery menv w avail).2.1 (sectorQuery menv w avail).2.2 = some s)
    (hid : 0 ≤ availableAttackId ∧ availableAttackId.toNat < w.m_activeAttacks.length)
    (hc : 0 ≤ menv.GetContinentID s
      ∧ (menv.GetContinentID s).toNat < menv.GetNumberOfContinents)
    (hfresh : ∀ g, (w.groups g).attack ≠ some w.nextAttack) :
    ∃ res, TryToLaunchAttack menv w availableAttackId = some res
      ∧ res.m_activeAttacks = w.m_activeAttacks.set availableAttackId.toNat (some w.nextAttack)
      ∧ res.calls = w.calls
          ++ [ManagerEvent.DetermineSectorToAttack (sectorQuery menv w avail).1
                (sectorQuery menv w avail).2.1 (sectorQuery menv w avail).2.2,
              ManagerEvent.NewAttack w.nextAttack]
          ++ (offeredGroups menv w (menv.GetContinentID s).toNat).map
                (ManagerEvent.AddGroup w.nextAttack)
          ++ [ManagerEvent.AttackSector w.nextAttack s]
      ∧ (∀ g, (res.groups g).attack = some w.nextAttack ↔
          g ∈ (res.attacks w.nextAttack).m_groups)
      ∧ (∀ g ∈ offeredGroups menv w (menv.GetContinentID s).toNat,
          (∀ w1, menv.AddGroupAccepts w1 w.nextAttack g = true) →
            (res.groups g).attack = some w.nextAttack)
      ∧ (∀ g, (res.groups g).attack = some w.nextAttack →
          g ∈ offeredGroups menv w (menv.GetContinentID s).toNat)
      ∧ (∀ g, isContinentBound w g = true →
          (w.groups g).m_continentId ≠ menv.GetContinentID s →
          (res.groups g).attack ≠ some w.nextAttack)
      ∧ (∀ g, (res.groups g).attack ≠ some w.nextAttack → res.groups g = w.groups g) := by
  obtain ⟨res, hres, hslots, _, hcalls, hgroups, hacc, _, hjoin⟩ :=
    orderAttack_spec menv
      (w.record (ManagerEvent.DetermineSectorToAttack (sectorQuery menv w avail).1
        (sectorQuery menv w avail).2.1 (sectorQuery menv w avail).2.2))
      avail availableAttackId s hid hc
  rw [offeredGroups_of_spec menv w avail _ hr hav] at hcalls hgroups hacc
  have honly : ∀ g, (res.groups g).attack = some w.nextAttack →
      g ∈ offeredGroups menv w (menv.GetContinentID s).toNat
        ∧ g ∈ (res.attacks w.nextAttack).m_groups := by
    intro g hg
    rcases hgroups g with e | ⟨hm, hj, _⟩
    · rw [e] at hg
      exact absurd hg (hfresh g)
    · exact ⟨hm, hj⟩
  refine ⟨res, ?_, hslots, ?_, fun g => ⟨fun h => (honly g h).2, fun h => hjoin g h⟩, hacc,
    fun g h => (honly g h).1, ?_, ?_⟩
  · unfold TryToLaunchAttack
    rw [hav]
    simp only []
    rw [if_neg hne, hsel]
    exact hres
  · rw [hcalls]
    simp [World.record]
  · intro g hb hcont hatt
    obtain ⟨_, _, hcase⟩ := mem_offeredGroups menv w _ g (honly g hatt).1
    rcases hcase with h | ⟨_, h⟩
    · rw [hb] at h
      exact absurd h (by decide)
    · apply hcont
      rw [h]
      omega
  · intro g hg
    rcases hgroups g with e | ⟨_, _, e⟩
    · exact e
    · rw [e] at hg
      exact absurd rfl hg

/-! ### The concrete world of the attack manager -/

theorem example_assault_ready :
    AAIGroup.IsAvailableForAttack exampleEnv exampleAssaultReady = true := by
  rw [IsAvailableForAttack_iff]
  refine ⟨rfl, ?_, Or.inl ⟨rfl, ?_⟩⟩
  · rw [IsEntireGroupAtRallyPoint_iff]
    norm_num [squaredDistToRallyPoint, AAIGroup.GetGroupPos, exampleAssaultReady, exampleGroup,
      exampleEnv, exampleRallyPoint, maxSquaredDistToRallyPoint]
  · norm_num [AAIGroup.SufficientAttackPower, exampleAssaultReady, exampleGroup, exampleEnv,
      exampleUnitType, AAIGroup.GetTargetType, minCombatPowerForSoloAttack]

theorem example_antiair_ready :
    AAIGroup.IsAvailableForAttack exampleEnv exampleAntiAirReady = true := by
  rw [IsAvailableForAttack_iff]
  refine ⟨rfl, ?_, Or.inr ⟨rfl, rfl⟩⟩
  rw [IsEntireGroupAtRallyPoint_iff]
  norm_num [squaredDistToRallyPoint, AAIGroup.GetGroupPos, exampleAntiAirReady, exampleGroup,
    exampleEnv, exampleRallyPoint, maxSquaredDistToRallyPoint]

theorem example_visited : visitedGroups exampleManagerEnv = [0, 1] := by
  simp [visitedGroups, exampleManagerEnv]

theorem example_in_range (w : World)
    (hw : ∀ g, (w.groups g).m_continentId = 0) :
    ∀ g ∈ visitedGroups exampleManagerEnv,
      AAIGroup.IsAvailableForAttack exampleManagerEnv.env (w.groups g) = true →
      isContinentBound w g = true → continentInRange exampleManagerEnv w g := by
  intro g _ _ _
  unfold continentInRange
  rw [hw g]
  exact ⟨le_refl 0, by simp [exampleManagerEnv]⟩

theorem example_gather :
    DetermineCombatUnitGroupsAvailableForattack exampleManagerEnv exampleWorld
      = some exampleAvail := by
  have h0 : AAIGroup.IsAvailableForAttack exampleManagerEnv.env (exampleWorld.groups 0) = true :=
    example_assault_ready
  have h1 : AAIGroup.IsAvailableForAttack exampleManagerEnv.env (exampleWorld.groups 1) = true :=
    example_antiair_ready
  unfold DetermineCombatUnitGroupsAvailableForattack
  rw [example_visited]
  simp only [gatherGroups, gatherGroup, h0, h1]
  simp [exampleWorld, exampleAssaultReady, exampleAntiAirReady, exampleGroup, exampleUnitType,
    exampleAntiAirType, exampleManagerEnv, pushOnContinent, exampleAvail]

theorem example_gather_antiair_only :
    DetermineCombatUnitGroupsAvailableForattack exampleManagerEnv exampleWorldAntiAirOnly
      = some exampleAvailAntiAirOnly := by
  have h0 : ∀ g, AAIGroup.IsAvailableForAttack exampleManagerEnv.env
      (exampleWorldAntiAirOnly.groups g) = true := fun _ => example_antiair_ready
  unfold DetermineCombatUnitGroupsAvailableForattack
  rw [example_visited]
  simp only [gatherGroups, gatherGroup, h0]
  simp [exampleWorldAntiAirOnly, exampleAntiAirReady, exampleGroup,
    exampleAntiAirType, exampleManagerEnv, pushOnContinent, exampleAvailAntiAirOnly]

/-- C7, on the concrete world: the launch into slot 0 stores the new attack 0 there. -/
theorem TryToLaunchAttack_launches_witness :
    DetermineCombatUnitGroupsAvailableForattack exampleManagerEnv exampleWorld = some exampleAvail
    ∧ exampleAvail.numberOfAssaultUnitGroups ≠ 0
    ∧ ∃ res, TryToLaunchAttack exampleManagerEnv exampleWorld 0 = some res
        ∧ res.m_activeAttacks = [some 0, none] := by
  obtain ⟨res, h1, h2, _⟩ := TryToLaunchAttack_launches exampleManagerEnv exampleWorld 0 3
    exampleAvail (example_in_range exampleWorld (fun g => by
      simp only [exampleWorld]; split_ifs <;> rfl))
    example_gather (by decide) rfl ⟨le_refl 0, by decide⟩ ⟨le_refl 0, by decide⟩
    (fun g => by simp only [exampleWorld]; split_ifs <;> exact fun h => nomatch h)
  exact ⟨example_gather, by decide, res, h1, h2⟩

/-- C9: when no visited group is both available and assault-capable, the gathering returns 0
and `TryToLaunchAttack` returns the state it was given: slots, groups, attacks and the record
of calls are unchanged, so no attack is created, the region selector is not asked and no order
is issued, whatever anti-air groups are available. -/
theorem TryToLaunchAttack_no_assault_group (menv : ManagerEnv) (w : World)
    (availableAttackId : Int)
    (hr : ∀ g ∈ visitedGroups menv, AAIGroup.IsAvailableForAttack menv.env (w.groups g) = true →
      isContinentBound w g = true → continentInRange menv w g)
    (hno : ∀ g ∈ visitedGroups menv, isAvailableAssault menv w g = false) :
    (∃ avail, DetermineCombatUnitGroupsAvailableForattack menv w = some avail
      ∧ avail.numberOfAssaultUnitGroups = 0)
    ∧ TryToLaunchAttack menv w availableAttackId = some w := by
  obtain ⟨avail, hav, _, _, _, _, hcount⟩ :=
    DetermineCombatUnitGroupsAvailableForattack_spec menv w hr
  have hnil : (visitedGroups menv).filter (fun g => isAvailableAssault menv w g) = [] := by
    rw [List.filter_eq_nil_iff]
    intro g hg
    rw [hno g hg]
    exact Bool.false_ne_true
  rw [hnil] at hcount
  have h0 : avail.numberOfAssaultUnitGroups = 0 := by rw [hcount]; rfl
  refine ⟨⟨avail, hav, h0⟩, ?_⟩
  unfold TryToLaunchAttack
  rw [hav]
  simp only []
  rw [if_pos h0]

/-- C9, on the concrete world with anti-air groups only: two anti-air groups are available,
the launch changes nothing. -/
theorem TryToLaunchAttack_no_assault_group_witness :
    isAvailableAntiAir exampleManagerEnv exampleWorldAntiAirOnly 0 = true
    ∧ (TryToLaunchAttack exampleManagerEnv exampleWorldAntiAirOnly 0).map World.calls
        = some [] := by
  have h := TryToLaunchAttack_no_assault_group exampleManagerEnv exampleWorldAntiAirOnly 0
    (example_in_range exampleWorldAntiAirOnly (fun _ => rfl))
    (fun g _ => by
      simp [isAvailableAssault, exampleWorldAntiAirOnly, exampleAntiAirReady,
        exampleAntiAirType])
  refine ⟨?_, ?_⟩
  · have h0 : AAIGroup.IsAvailableForAttack exampleManagerEnv.env
        (exampleWorldAntiAirOnly.groups 0) = true := example_antiair_ready
    simp [isAvailableAntiAir, h0]
    simp [exampleWorldAntiAirOnly, exampleAntiAirReady, exampleAntiAirType]
  · rw [h.2]
    rfl

/-! ### Selecting anti-air groups -/

theorem selectLoop (n : Int) (l : List GroupId) :
    ∀ (acc : List GroupId) (k : Int),
      l.foldl (fun (acc : List GroupId × Int) (group : GroupId) =>
          if acc.2 ≥ n then acc else (acc.1 ++ [group], acc.2 + 1)) (acc, k)
        = (acc ++ l.take (n - k).toNat, k + ((l.take (n - k).toNat).length : Int)) := by
  induction l with
  | nil => intro acc k; simp
  | cons x xs ih =>
    intro acc k
    rw [List.foldl_cons]
    by_cases hk : k ≥ n
    · rw [if_pos hk, ih]
      have h0 : (n - k).toNat = 0 := by omega
      rw [h0]
      simp
    · rw [if_neg hk, ih]
      have h1 : (n - k).toNat = (n - (k + 1)).toNat + 1 := by omega
      rw [h1, List.take_succ_cons, List.length_cons]
      refine Prod.ext ?_ ?_
      · simp
      · simp only
        push_cast
        ring

/-- The list `SelectNumberOfGroups` builds in its own copy of `selectedGroupList`: the given
list followed by the first `maxNumberOfGroups` groups of `groupList1 ++ groupList2`. -/
theorem SelectNumberOfGroups_local (selected : List GroupId) (n : Int)
    (l1 l2 : List GroupId) :
    SelectNumberOfGroups selected n l1 l2 = selected ++ (l1 ++ l2).take n.toNat := by
  unfold SelectNumberOfGroups
  simp only []
  rw [selectLoop n l1 selected 0, selectLoop n l2]
  simp only [sub_zero, zero_add, List.append_assoc, List.append_cancel_left_eq]
  rw [List.take_append_eq_append_take]
  congr 2
  rw [List.length_take]
  omega

theorem example_launch :
    ∃ res, TryToLaunchAttack exampleManagerEnv exampleWorld 0 = some res
      ∧ res.calls = [ManagerEvent.DetermineSectorToAttack
            (sectorQuery exampleManagerEnv exampleWorld exampleAvail).1
            (sectorQuery exampleManagerEnv exampleWorld exampleAvail).2.1
            (sectorQuery exampleManagerEnv exampleWorld exampleAvail).2.2,
          ManagerEvent.NewAttack 0, ManagerEvent.AddGroup 0 0, ManagerEvent.AttackSector 0 3]
      ∧ res.groups 1 = exampleAntiAirReady := by
  obtain ⟨res, hres, _, _, hcalls, hgroups, _, _, _⟩ :=
    orderAttack_spec exampleManagerEnv
      (exampleWorld.record (ManagerEvent.DetermineSectorToAttack
        (sectorQuery exampleManagerEnv exampleWorld exampleAvail).1
        (sectorQuery exampleManagerEnv exampleWorld exampleAvail).2.1
        (sectorQuery exampleManagerEnv exampleWorld exampleAvail).2.2))
      exampleAvail 0 3 ⟨le_refl 0, by decide⟩ ⟨le_refl 0, by decide⟩
  refine ⟨res, ?_, ?_, ?_⟩
  · unfold TryToLaunchAttack
    rw [example_gather]
    simp only []
    rw [if_neg (by decide)]
    exact hres
  · rw [hcalls]
    rfl
  · rcases hgroups 1 with e | ⟨hm, _, _⟩
    · rw [e]; rfl
    · exact absurd hm (by decide)

/-- C8, the failing input: in the concrete world air units have been spotted (1 > 0.2) and
the anti-air group 1 is available on the continent of the target; `SelectNumberOfGroups`
builds the list `[1]` in its own copy, but the launch offers group 0 only and the anti-air
group stays without an attack. -/
theorem launch_attaches_no_anti_air_group :
    exampleManagerEnv.maxSpottedAirCombatUnits > 2 / 10
    ∧ DetermineCombatUnitGroupsAvailableForattack exampleManagerEnv exampleWorld
        = some exampleAvail
    ∧ exampleAvail.availableAAGroupsOnContinent.getD 0 [] = [1]
    ∧ SelectNumberOfGroups [] 1 (exampleAvail.availableAAGroupsOnContinent.getD 0 [])
        exampleAvail.availableAAGroupsGlobal = [1]
    ∧ ∃ res, TryToLaunchAttack exampleManagerEnv exampleWorld 0 = some res
        ∧ (∀ g, ManagerEvent.AddGroup 0 g ∈ res.calls → g = 0)
        ∧ (res.groups 1).attack = none := by
  refine ⟨by norm_num [exampleManagerEnv], example_gather, rfl, ?_, ?_⟩
  · rw [SelectNumberOfGroups_local]
    rfl
  · obtain ⟨res, hres, hcalls, hg⟩ := example_launch
    refine ⟨res, hres, fun g hmem => ?_, by rw [hg]; rfl⟩
    rw [hcalls] at hmem
    simp at hmem
    exact hmem

/-! ### The rate limit of `Update` -/

theorem AAIAttackManager.Kept.refl (a : AttackId) (i : Nat) (w : World)
    (h : w.m_activeAttacks[i]? = some (some a)) : Kept a i w w where
  slot := h
  len := rfl
  att := rfl
  next := rfl
  continent := fun _ => rfl
  moveType := fun _ => rfl
  calls := ⟨[], by simp, fun e he => absurd he (List.not_mem_nil e)⟩

theorem AAIAttackManager.Kept.record {a : AttackId} {i : Nat} {w0 w : World} (hk : Kept a i w0 w)
    (e : ManagerEvent) (he : ManagerEvent.concerns a e = false) : Kept a i w0 (w.record e) where
  slot := hk.slot
  len := hk.len
  att := hk.att
  next := hk.next
  continent := hk.continent
  moveType := hk.moveType
  calls := by
    obtain ⟨evs, h1, h2⟩ := hk.calls
    refine ⟨evs ++ [e], ?_, ?_⟩
    · show w.calls ++ [e] = _
      rw [h1, List.append_assoc]
    · intro e' he'
      rcases List.mem_append.mp he' with h | h
      · exact h2 e' h
      · rw [List.mem_singleton] at h
        rw [h]
        exact he

theorem AAIAttackManager.Kept.stopAttack {a : AttackId} {i : Nat} {w0 w : World} (hk : Kept a i w0 w)
    (b : AttackId) (hb : b ≠ a) : Kept a i w0 (AAIAttack.StopAttack w b) := by
  have hr := hk.record (ManagerEvent.StopAttack b)
    (by simp [ManagerEvent.concerns, hb])
  refine ⟨hr.slot, hr.len, ?_, hr.next, fun g => ?_, fun g => ?_, hr.calls⟩
  · show (if a = b then _ else (w.record (ManagerEvent.StopAttack b)).attacks a) = _
    rw [if_neg (fun h => hb h.symm)]
    exact hr.att
  · rw [← hk.continent g]
    simp only [AAIAttack.StopAttack]
    split_ifs <;> rfl
  · rw [← hk.moveType g]
    simp only [AAIAttack.StopAttack]
    split_ifs <;> rfl

theorem clearSlot_length (b : AttackId) (l : List (Option AttackId)) :
    (clearSlot b l).length = l.length := by
  induction l with
  | nil => rfl
  | cons x xs ih =>
    unfold clearSlot
    split_ifs
    · rfl
    · rw [List.length_cons, List.length_cons, ih]

theorem clearSlot_other (a b : AttackId) (hb : b ≠ a) (l : List (Option AttackId)) :
    ∀ i : Nat, l[i]? = some (some a) → (clearSlot b l)[i]? = some (some a) := by
  induction l with
  | nil => intro i h; exact h
  | cons x xs ih =>
    intro i h
    unfold clearSlot
    cases i with
    | zero =>
      simp only [List.getElem?_cons_zero, Option.some.injEq] at h
      subst h
      have hne : ¬ (some a = some b) := fun e => hb (Option.some.inj e).symm
      rw [if_neg hne]
      exact List.getElem?_cons_zero
    | succ n =>
      simp only [List.getElem?_cons_succ] at h
      split_ifs
      · simp only [List.getElem?_cons_succ]
        exact h
      · simp only [List.getElem?_cons_succ]
        exact ih n h

theorem AAIAttackManager.Kept.abortAttack {a : AttackId} {i : Nat} {w0 w : World} (hk : Kept a i w0 w)
    (b : AttackId) (hb : b ≠ a) : Kept a i w0 (AbortAttack w b) := by
  have h1 := hk.stopAttack b hb
  have h2 : Kept a i w0 { AAIAttack.StopAttack w b with
      m_activeAttacks := clearSlot b (AAIAttack.StopAttack w b).m_activeAttacks } :=
    ⟨clearSlot_other a b hb _ i h1.slot, (clearSlot_length b _).trans h1.len, h1.att, h1.next,
      h1.continent, h1.moveType, h1.calls⟩
  exact h2.record (ManagerEvent.DeleteAttack b) (by simp [ManagerEvent.concerns, hb])

theorem AAIAttackManager.Kept.attackSector {a : AttackId} {i : Nat} {w0 w : World} (hk : Kept a i w0 w)
    (menv : ManagerEnv) (b : AttackId) (s : SectorId) (hb : b ≠ a) :
    Kept a i w0 (AAIAttack.AttackSector menv w b s) := by
  have hr := hk.record (ManagerEvent.AttackSector b s) (by simp [ManagerEvent.concerns, hb])
  refine ⟨hr.slot, hr.len, ?_, hr.next, hr.continent, hr.moveType, hr.calls⟩
  show (if a = b then _ else (w.record (ManagerEvent.AttackSector b s)).attacks a) = _
  rw [if_neg (fun h => hb h.symm)]
  exact hr.att

theorem AAIAttackManager.Kept.abortAttackIfFailed {a : AttackId} {i : Nat} {w0 w : World} (hk : Kept a i w0 w)
    (menv : ManagerEnv)
    (hgate : menv.env.GetCurrentFrame - (w0.attacks a).m_lastAttackOrderInFrame < 30)
    (b : AttackId) :
    Kept a i w0 (AbortAttackIfFailed menv w b).2
      ∧ (b = a → (AbortAttackIfFailed menv w b).1 = false) := by
  unfold AbortAttackIfFailed
  by_cases hg : menv.env.GetCurrentFrame - (w.attacks b).m_lastAttackOrderInFrame < 30
  · rw [if_pos hg]
    exact ⟨hk, fun _ => rfl⟩
  · rw [if_neg hg]
    have hb : b ≠ a := by
      intro e
      subst e
      rw [hk.att] at hg
      exact hg hgate
    have hr := hk.record (ManagerEvent.CheckIfFailed b) (by simp [ManagerEvent.concerns, hb])
    simp only []
    split_ifs
    · exact ⟨hr.abortAttack b hb, fun e => absurd e hb⟩
    · exact ⟨hr, fun e => absurd e hb⟩

theorem AAIAttackManager.Kept.attackNextSectorOrAbort {a : AttackId} {i : Nat} {w0 w : World}
    (hk : Kept a i w0 w) (menv : ManagerEnv)
    (hgate : menv.env.GetCurrentFrame - (w0.attacks a).m_lastAttackOrderInFrame < 30)
    (b : AttackId) : Kept a i w0 (AttackNextSectorOrAbort menv w b) := by
  unfold AttackNextSectorOrAbort
  by_cases hg : menv.env.GetCurrentFrame - (w.attacks b).m_lastAttackOrderInFrame < 60
  · rw [if_pos hg]
    exact hk
  · rw [if_neg hg]
    have hb : b ≠ a := by
      intro e
      subst e
      rw [hk.att] at hg
      omega
    have hr := hk.record (ManagerEvent.DetermineSectorToContinueAttack b)
      (by simp [ManagerEvent.concerns, hb])
    simp only []
    split
    · exact hr.attackSector menv b _ hb
    · exact hr.abortAttack b hb

theorem AAIAttackManager.Kept.updateSlot {a : AttackId} {i : Nat} {w0 : World} {st : World × Int}
    (hk : Kept a i w0 st.1) (menv : ManagerEnv)
    (hgate : menv.env.GetCurrentFrame - (w0.attacks a).m_lastAttackOrderInFrame < 30)
    (hav : st.2 ≠ (i : Int))
    (hin : st.2 = -1 ∨ (0 ≤ st.2 ∧ st.2.toNat < w0.m_activeAttacks.length))
    (j : Nat) (hj : j < w0.m_activeAttacks.length) :
    Kept a i w0 (updateSlot menv st j).1 ∧ (updateSlot menv st j).2 ≠ (i : Int)
      ∧ ((updateSlot menv st j).2 = -1
        ∨ (0 ≤ (updateSlot menv st j).2
          ∧ (updateSlot menv st j).2.toNat < w0.m_activeAttacks.length)) := by
  have hjin : (0 : Int) ≤ (j : Int) ∧ (j : Int).toNat < w0.m_activeAttacks.length :=
    ⟨Int.natCast_nonneg j, by simpa using hj⟩
  have hslot : j = i → st.1.m_activeAttacks.getD j none = some a := by
    intro e
    rw [List.getD_eq_getElem?_getD, e, hk.slot]
    rfl
  unfold AAIAttackManager.updateSlot
  cases hs : st.1.m_activeAttacks.getD j none with
  | none =>
    simp only []
    refine ⟨hk, fun e => ?_, Or.inr hjin⟩
    have e1 : (j : Int) = (i : Int) := e
    have := hslot (by exact_mod_cast e1)
    rw [hs] at this
    cases this
  | some b =>
    simp only []
    obtain ⟨h1, h2⟩ := hk.abortAttackIfFailed menv hgate b
    by_cases hr : (AbortAttackIfFailed menv st.1 b).1 = true
    · rw [if_pos hr]
      refine ⟨h1, fun e => ?_, Or.inr hjin⟩
      have e1 : (j : Int) = (i : Int) := e
      have hb := hslot (by exact_mod_cast e1)
      rw [hs] at hb
      have hba : b = a := Option.some.inj hb
      rw [h2 hba] at hr
      exact Bool.false_ne_true hr
    · rw [if_neg hr]
      have h3 := h1.record (ManagerEvent.HasTargetBeenCleared b) rfl
      split_ifs
      · exact ⟨h3.attackNextSectorOrAbort menv hgate b, hav, hin⟩
      · exact ⟨h3, hav, hin⟩

theorem AAIAttackManager.Kept.foldSlots {a : AttackId} {i : Nat} {w0 : World} (menv : ManagerEnv)
    (hgate : menv.env.GetCurrentFrame - (w0.attacks a).m_lastAttackOrderInFrame < 30)
    (l : List Nat) (hl : ∀ j ∈ l, j < w0.m_activeAttacks.length) :
    ∀ st : World × Int, Kept a i w0 st.1 → st.2 ≠ (i : Int) →
      (st.2 = -1 ∨ (0 ≤ st.2 ∧ st.2.toNat < w0.m_activeAttacks.length)) →
      Kept a i w0 (l.foldl (AAIAttackManager.updateSlot menv) st).1
        ∧ (l.foldl (AAIAttackManager.updateSlot menv) st).2 ≠ (i : Int)
        ∧ ((l.foldl (AAIAttackManager.updateSlot menv) st).2 = -1
          ∨ (0 ≤ (l.foldl (AAIAttackManager.updateSlot menv) st).2
            ∧ (l.foldl (AAIAttackManager.updateSlot menv) st).2.toNat
                < w0.m_activeAttacks.length)) := by
  induction l with
  | nil => intro st hk hav hin; exact ⟨hk, hav, hin⟩
  | cons j rest ih =>
    intro st hk hav hin
    obtain ⟨h1, h2, h3⟩ := hk.updateSlot menv hgate hav hin j (hl j (List.mem_cons_self j rest))
    rw [List.foldl_cons]
    exact ih (fun j' hj' => hl j' (List.mem_cons_of_mem j hj')) _ h1 h2 h3

theorem AAIAttackManager.Kept.launch {a : AttackId} {i : Nat} {w0 w : World}
    (hk : Kept a i w0 w) (menv : ManagerEnv) (availableAttackId : Int)
    (hwf1 : ∀ g ∈ visitedGroups menv, isContinentBound w0 g = true → continentInRange menv w0 g)
    (hwf2 : ∀ s, 0 ≤ menv.GetContinentID s
      ∧ (menv.GetContinentID s).toNat < menv.GetNumberOfContinents)
    (hfresh : a ≠ w0.nextAttack)
    (hav : availableAttackId ≠ (i : Int))
    (hin : 0 ≤ availableAttackId ∧ availableAttackId.toNat < w0.m_activeAttacks.length) :
    ∃ res evs, TryToLaunchAttack menv w availableAttackId = some res
      ∧ res.m_activeAttacks[i]? = some (some a)
      ∧ res.attacks a = w0.attacks a
      ∧ res.calls = w0.calls ++ evs ∧ ∀ e ∈ evs, ManagerEvent.concerns a e = false := by
  have hr : ∀ g ∈ visitedGroups menv,
      AAIGroup.IsAvailableForAttack menv.env (w.groups g) = true →
      isContinentBound w g = true → continentInRange menv w g := by
    intro g hg _ hb
    have hb0 : isContinentBound w0 g = true := by
      unfold isContinentBound at hb ⊢
      rw [← hk.moveType g]
      exact hb
    have := hwf1 g hg hb0
    unfold continentInRange at this ⊢
    rw [hk.continent g]
    exact this
  obtain ⟨avail, havail, _⟩ := DetermineCombatUnitGroupsAvailableForattack_spec menv w hr
  obtain ⟨evs, hcalls, hevs⟩ := hk.calls
  unfold TryToLaunchAttack
  rw [havail]
  simp only []
  by_cases h0 : avail.numberOfAssaultUnitGroups = 0
  · rw [if_pos h0]
    exact ⟨w, evs, rfl, hk.slot, hk.att, hcalls, hevs⟩
  · rw [if_neg h0]
    have hk1 := hk.record (ManagerEvent.DetermineSectorToAttack (sectorQuery menv w avail).1
      (sectorQuery menv w avail).2.1 (sectorQuery menv w avail).2.2) rfl
    obtain ⟨evs1, hcalls1, hevs1⟩ := hk1.calls
    cases hsel : menv.DetermineSectorToAttack w (sectorQuery menv w avail).1
        (sectorQuery menv w avail).2.1 (sectorQuery menv w avail).2.2 with
    | none => exact ⟨_, evs1, rfl, hk1.slot, hk1.att, hcalls1, hevs1⟩
    | some s =>
      have hlen : availableAttackId.toNat < (w.record (ManagerEvent.DetermineSectorToAttack
          (sectorQuery menv w avail).1 (sectorQuery menv w avail).2.1
          (sectorQuery menv w avail).2.2)).m_activeAttacks.length := by
        rw [hk1.len]
        exact hin.2
      obtain ⟨res, hres, hslots, _, hrc, _, _, hatt, _⟩ :=
        orderAttack_spec menv _ avail availableAttackId s ⟨hin.1, hlen⟩ (hwf2 s)
      have hn : (w.record (ManagerEvent.DetermineSectorToAttack (sectorQuery menv w avail).1
          (sectorQuery menv w avail).2.1 (sectorQuery menv w avail).2.2)).nextAttack
            = w0.nextAttack := hk1.next
      rw [hn] at hslots hrc hatt
      refine ⟨res, evs1 ++ ([ManagerEvent.NewAttack w0.nextAttack]
        ++ (avail.availableAssaultGroupsOnContinent.getD (menv.GetContinentID s).toNat []
              ++ avail.availableAssaultGroupsGlobal).map (ManagerEvent.AddGroup w0.nextAttack)
        ++ [ManagerEvent.AttackSector w0.nextAttack s]), hres, ?_, ?_, ?_, ?_⟩
      · rw [hslots, List.getElem?_set_ne]
        · exact hk1.slot
        · omega
      · rw [hatt a hfresh]
        exact hk1.att
      · rw [hrc, hcalls1]
        simp only [List.append_assoc]
      · intro e he
        rcases List.mem_append.mp he with h | h
        · exact hevs1 e h
        · rcases List.mem_append.mp h with h | h
          · rcases List.mem_append.mp h with h | h
            · rw [List.mem_singleton] at h
              rw [h]
              rfl
            · rw [List.mem_map] at h
              obtain ⟨g, _, hg⟩ := h
              rw [← hg]
              rfl
          · rw [List.mem_singleton] at h
            rw [h]
            simp only [ManagerEvent.concerns, decide_eq_false_iff_not]
            exact fun e => hfresh e.symm

/-- C10: for an attack in a slot whose last attack order is fewer than 30 frames old, `Update`
returns, and between its start and its end it makes no call of `CheckIfFailed`,
`DetermineSectorToContinueAttack`, `AttackSector`, `StopAttack` or `delete` for that attack;
the attack is still in its slot and the frame of its last order is unchanged. -/
theorem Update_rate_limit (menv : ManagerEnv) (w : World) (i : Nat) (a : AttackId)
    (hwf1 : ∀ g ∈ visitedGroups menv, isContinentBound w g = true → continentInRange menv w g)
    (hwf2 : ∀ s, 0 ≤ menv.GetContinentID s
      ∧ (menv.GetContinentID s).toNat < menv.GetNumberOfContinents)
    (hslot : w.m_activeAttacks[i]? = some (some a))
    (hfresh : a ≠ w.nextAttack)
    (hgate : menv.env.GetCurrentFrame - (w.attacks a).m_lastAttackOrderInFrame < 30) :
    ∃ res evs, AAIAttackManager.Update menv w = some res
      ∧ res.calls = w.calls ++ evs
      ∧ res.m_activeAttacks[i]? = some (some a)
      ∧ ManagerEvent.CheckIfFailed a ∉ evs
      ∧ ManagerEvent.DetermineSectorToContinueAttack a ∉ evs
      ∧ (∀ s, ManagerEvent.AttackSector a s ∉ evs)
      ∧ ManagerEvent.StopAttack a ∉ evs
      ∧ ManagerEvent.DeleteAttack a ∉ evs
      ∧ (res.attacks a).m_lastAttackOrderInFrame = (w.attacks a).m_lastAttackOrderInFrame := by
  have hfold := @AAIAttackManager.Kept.foldSlots a i w menv hgate
    (List.range w.m_activeAttacks.length) (fun j hj => List.mem_range.mp hj)
    (w, -1) (Kept.refl a i w hslot) (by simp only []; omega) (Or.inl rfl)
  obtain ⟨hk, hne, hin⟩ := hfold
  have key : ∃ res evs, AAIAttackManager.Update menv w = some res
      ∧ res.m_activeAttacks[i]? = some (some a)
      ∧ res.attacks a = w.attacks a
      ∧ res.calls = w.calls ++ evs ∧ ∀ e ∈ evs, ManagerEvent.concerns a e = false := by
    unfold AAIAttackManager.Update
    simp only []
    by_cases hge : (updateSlots menv w).2 ≥ 0
    · rw [if_pos hge]
      rcases hin with h | h
      · exfalso
        have h' : (updateSlots menv w).2 = -1 := h
        omega
      · exact hk.launch menv _ hwf1 hwf2 hfresh hne h
    · rw [if_neg hge]
      obtain ⟨evs, h1, h2⟩ := hk.calls
      exact ⟨_, evs, rfl, hk.slot, hk.att, h1, h2⟩
  obtain ⟨res, evs, hres, hs, hatt, hcalls, hevs⟩ := key
  refine ⟨res, evs, hres, hcalls, hs, ?_, ?_, ?_, ?_, ?_, by rw [hatt]⟩
  · intro h; simpa [ManagerEvent.concerns] using hevs _ h
  · intro h; simpa [ManagerEvent.concerns] using hevs _ h
  · intro s h; simpa [ManagerEvent.concerns] using hevs _ h
  · intro h; simpa [ManagerEvent.concerns] using hevs _ h
  · intro h; simpa [ManagerEvent.concerns] using hevs _ h

/-- C10, on the concrete world: attack 0 in slot 0 was ordered 10 frames ago and is still in
slot 0 after `Update`. -/
theorem Update_rate_limit_witness :
    exampleWorldActive.m_activeAttacks[0]? = some (some 0)
    ∧ exampleManagerEnv.env.GetCurrentFrame
        - (exampleWorldActive.attacks 0).m_lastAttackOrderInFrame < 30
    ∧ ∃ res, AAIAttackManager.Update exampleManagerEnv exampleWorldActive = some res
        ∧ res.m_activeAttacks[0]? = some (some 0) := by
  have hgate : exampleManagerEnv.env.GetCurrentFrame
      - (exampleWorldActive.attacks 0).m_lastAttackOrderInFrame < 30 := by
    simp [exampleManagerEnv, exampleEnv, exampleWorldActive]
  obtain ⟨res, _, h1, _, h2, _⟩ := Update_rate_limit exampleManagerEnv exampleWorldActive 0 0
    (fun g _ _ => by
      unfold continentInRange
      have : (exampleWorldActive.groups g).m_continentId = 0 := by
        simp only [exampleWorldActive]; split_ifs <;> rfl
      rw [this]
      exact ⟨le_refl 0, by simp [exampleManagerEnv]⟩)
    (fun _ => ⟨le_refl 0, by simp [exampleManagerEnv]⟩)
    rfl (by simp [exampleWorldActive]) hgate
  exact ⟨rfl, hgate, res, h1, h2⟩

/-! ### The two gates -/

theorem AbortAttack_calls (w : World) (a : AttackId) :
    (AbortAttack w a).calls
      = w.calls ++ [ManagerEvent.StopAttack a, ManagerEvent.DeleteAttack a] := by
  simp [AbortAttack, AAIAttack.StopAttack, World.record]

theorem AttackSector_calls (menv : ManagerEnv) (w : World) (a : AttackId) (s : SectorId) :
    (AAIAttack.AttackSector menv w a s).calls = w.calls ++ [ManagerEvent.AttackSector a s] := by
  simp [AAIAttack.AttackSector, World.record]

theorem append_ne_self {α : Type} (l : List α) (x : α) (r : List α) : l ++ x :: r ≠ l := by
  intro h
  have := congrArg List.length h
  simp at this

theorem AbortAttackIfFailedBlocked_iff (menv : ManagerEnv) (w : World) (a : AttackId) :
    AbortAttackIfFailedBlocked menv w a ↔
      menv.env.GetCurrentFrame - (w.attacks a).m_lastAttackOrderInFrame < 30 := by
  unfold AbortAttackIfFailedBlocked AbortAttackIfFailed
  by_cases hg : menv.env.GetCurrentFrame - (w.attacks a).m_lastAttackOrderInFrame < 30
  · rw [if_pos hg]
    exact ⟨fun _ => hg, fun _ => ⟨rfl, rfl⟩⟩
  · rw [if_neg hg]
    refine ⟨fun h => ?_, fun h => absurd h hg⟩
    exfalso
    simp only [] at h
    split_ifs at h
    · exact h.1
    · exact append_ne_self w.calls _ [] h.2

theorem AttackNextSectorOrAbortBlocked_iff (menv : ManagerEnv) (w : World) (a : AttackId) :
    AttackNextSectorOrAbortBlocked menv w a ↔
      menv.env.GetCurrentFrame - (w.attacks a).m_lastAttackOrderInFrame < 60 := by
  unfold AttackNextSectorOrAbortBlocked AttackNextSectorOrAbort
  by_cases hg : menv.env.GetCurrentFrame - (w.attacks a).m_lastAttackOrderInFrame < 60
  · rw [if_pos hg]
    exact ⟨fun _ => hg, fun _ => rfl⟩
  · rw [if_neg hg]
    refine ⟨fun h => ?_, fun h => absurd h hg⟩
    exfalso
    simp only [] at h
    split at h
    · rw [AttackSector_calls] at h
      simp only [World.record, List.append_assoc] at h
      exact append_ne_self w.calls _ _ h
    · rw [AbortAttack_calls] at h
      simp only [World.record, List.append_assoc] at h
      exact append_ne_self w.calls _ _ h

/-- C11, as stated, fails: 40 frames after the last attack order of attack 0,
`AbortAttackIfFailed` is not blocked by its gate while `AttackNextSectorOrAbort` is. -/
theorem gates_differ :
    ¬ AbortAttackIfFailedBlocked exampleManagerEnv exampleWorldOlder 0
    ∧ AttackNextSectorOrAbortBlocked exampleManagerEnv exampleWorldOlder 0 := by
  rw [AbortAttackIfFailedBlocked_iff, AttackNextSectorOrAbortBlocked_iff]
  simp [exampleManagerEnv, exampleEnv, exampleWorldOlder]

/-- C11, amended: `AbortAttackIfFailed` is blocked by its gate exactly when fewer than 30
frames have passed since the last attack order of the attack, `AttackNextSectorOrAbort`
exactly when fewer than 60 have; so whenever `AbortAttackIfFailed` is blocked,
`AttackNextSectorOrAbort` is blocked too. -/
theorem gates_thirty_and_sixty (menv : ManagerEnv) (w : World) (a : AttackId) :
    (AbortAttackIfFailedBlocked menv w a ↔
      menv.env.GetCurrentFrame - (w.attacks a).m_lastAttackOrderInFrame < 30)
    ∧ (AttackNextSectorOrAbortBlocked menv w a ↔
      menv.env.GetCurrentFrame - (w.attacks a).m_lastAttackOrderInFrame < 60)
    ∧ (AbortAttackIfFailedBlocked menv w a → AttackNextSectorOrAbortBlocked menv w a) := by
  refine ⟨AbortAttackIfFailedBlocked_iff menv w a, AttackNextSectorOrAbortBlocked_iff menv w a,
    fun h => ?_⟩
  rw [AbortAttackIfFailedBlocked_iff] at h
  rw [AttackNextSectorOrAbortBlocked_iff]
  omega

/-! ### Continuing or aborting an attack -/

theorem clearSlot_unique (a : AttackId) (l : List (Option AttackId)) :
    ∀ i : Nat, l[i]? = some (some a) → (∀ j : Nat, l[j]? = some (some a) → j = i) →
      clearSlot a l = l.set i none := by
  induction l with
  | nil => intro i h; simp at h
  | cons x xs ih =>
    intro i h hu
    unfold clearSlot
    cases i with
    | zero =>
      simp only [List.getElem?_cons_zero, Option.some.injEq] at h
      rw [if_pos h]
      rfl
    | succ n =>
      have hx : ¬ x = some a := by
        intro hx
        have := hu 0 (by rw [List.getElem?_cons_zero, hx])
        omega
      rw [if_neg hx]
      simp only [List.getElem?_cons_succ] at h
      rw [List.set_cons_succ, ih n h]
      intro j hj
      have := hu (j + 1) (by rw [List.getElem?_cons_succ]; exact hj)
      omega

/-- C12: once the gate of `AttackNextSectorOrAbort` has passed, the attack is asked for the
next sector. Without a next sector the attack is stopped (its groups are detached) and
deleted, and the slot that held it is empty while every other slot is as before; with a next
sector the slots are unchanged, the attack order toward that sector is issued on the attack
and the frame of the order recorded. -/
theorem AttackNextSectorOrAbort_spec (menv : ManagerEnv) (w : World) (a : AttackId) (i : Nat)
    (hgate : ¬ menv.env.GetCurrentFrame - (w.attacks a).m_lastAttackOrderInFrame < 60)
    (hslot : w.m_activeAttacks[i]? = some (some a))
    (huniq : ∀ j : Nat, w.m_activeAttacks[j]? = some (some a) → j = i) :
    (menv.DetermineSectorToContinueAttack w a = none →
      (AttackNextSectorOrAbort menv w a).m_activeAttacks = w.m_activeAttacks.set i none
      ∧ (AttackNextSectorOrAbort menv w a).calls = w.calls
          ++ [ManagerEvent.DetermineSectorToContinueAttack a, ManagerEvent.StopAttack a,
              ManagerEvent.DeleteAttack a]
      ∧ (∀ g ∈ (w.attacks a).m_groups, ((AttackNextSectorOrAbort menv w a).groups g).attack = none)
      ∧ (∀ g, g ∉ (w.attacks a).m_groups → (AttackNextSectorOrAbort menv w a).groups g = w.groups g))
    ∧ (∀ dest, menv.DetermineSectorToContinueAttack w a = some dest →
      (AttackNextSectorOrAbort menv w a).m_activeAttacks = w.m_activeAttacks
      ∧ (AttackNextSectorOrAbort menv w a).calls = w.calls
          ++ [ManagerEvent.DetermineSectorToContinueAttack a, ManagerEvent.AttackSector a dest]
      ∧ ((AttackNextSectorOrAbort menv w a).attacks a).m_lastAttackOrderInFrame
          = menv.env.GetCurrentFrame
      ∧ (AttackNextSectorOrAbort menv w a).groups = w.groups) := by
  unfold AttackNextSectorOrAbort
  rw [if_neg hgate]
  simp only []
  constructor
  · intro hnone
    rw [hnone]
    simp only []
    refine ⟨?_, ?_, ?_, ?_⟩
    · show clearSlot a w.m_activeAttacks = _
      exact clearSlot_unique a _ i hslot huniq
    · rw [AbortAttack_calls]
      simp [World.record]
    · intro g hg
      simp [AbortAttack, AAIAttack.StopAttack, World.record, hg]
    · intro g hg
      simp [AbortAttack, AAIAttack.StopAttack, World.record, hg]
  · intro dest hdest
    rw [hdest]
    simp only []
    refine ⟨rfl, ?_, ?_, rfl⟩
    · rw [AttackSector_calls]
      simp [World.record]
    · simp [AAIAttack.AttackSector, World.record]

/-- C12, on the concrete world: attack 0 in slot 0 was ordered 100 frames ago and has no next
sector; afterwards both slots are empty. -/
theorem AttackNextSectorOrAbort_spec_witness :
    ¬ exampleManagerEnv.env.GetCurrentFrame
        - (exampleWorldOld.attacks 0).m_lastAttackOrderInFrame < 60
    ∧ exampleWorldOld.m_activeAttacks[0]? = some (some 0)
    ∧ (AttackNextSectorOrAbort exampleManagerEnv exampleWorldOld 0).m_activeAttacks
        = [none, none] := by
  have hgate : ¬ exampleManagerEnv.env.GetCurrentFrame
      - (exampleWorldOld.attacks 0).m_lastAttackOrderInFrame < 60 := by
    simp [exampleManagerEnv, exampleEnv, exampleWorldOld]
  have h := (AttackNextSectorOrAbort_spec exampleManagerEnv exampleWorldOld 0 0 hgate rfl
    (by
      intro j hj
      match j, hj with
      | 0, _ => rfl
      | 1, hj => simp [exampleWorldOld, exampleWorldActive] at hj
      | (n + 2), hj => simp [exampleWorldOld, exampleWorldActive] at hj)).1 rfl
  exact ⟨hgate, rfl, by rw [h.1]; rfl⟩

/-! ### The launch attempt of `Update` -/

theorem example_full_pass :
    (updateSlots exampleManagerEnvCleared exampleWorldFull).2 = -1
    ∧ (updateSlots exampleManagerEnvCleared exampleWorldFull).1.m_activeAttacks = [none, some 1]
    ∧ (updateSlots exampleManagerEnvCleared exampleWorldFull).1.calls
        = [ManagerEvent.CheckIfFailed 0, ManagerEvent.HasTargetBeenCleared 0,
           ManagerEvent.DetermineSectorToContinueAttack 0, ManagerEvent.StopAttack 0,
           ManagerEvent.DeleteAttack 0, ManagerEvent.HasTargetBeenCleared 1]
    ∧ (updateSlots exampleManagerEnvCleared exampleWorldFull).1.groups 0 = exampleAssaultReady := by
  simp [updateSlots, AAIAttackManager.updateSlot, AbortAttackIfFailed, AttackNextSectorOrAbort,
    AbortAttack, AAIAttack.StopAttack, World.record, clearSlot, exampleManagerEnvCleared,
    exampleManagerEnv, exampleEnv, exampleWorldFull, List.range_succ, exampleAssaultReady,
    exampleGroup]

/-- C13, the failing input: both slots are occupied; attack 0 is not failed, its target is
cleared and it has no next sector, so `AttackNextSectorOrAbort` aborts it and slot 0 is empty
at the end of the pass over the slots. `availableAttackId` is still -1, `Update` makes no
launch attempt (the region selector is not asked), although the assault group 0 is available
for an attack in the state `Update` returns. -/
theorem Update_misses_slot_freed_by_continuation_abort :
    (updateSlots exampleManagerEnvCleared exampleWorldFull).1.m_activeAttacks[0]? = some none
    ∧ (updateSlots exampleManagerEnvCleared exampleWorldFull).2 = -1
    ∧ ∃ res, AAIAttackManager.Update exampleManagerEnvCleared exampleWorldFull = some res
        ∧ res.m_activeAttacks = [none, some 1]
        ∧ res.calls = [ManagerEvent.CheckIfFailed 0, ManagerEvent.HasTargetBeenCleared 0,
            ManagerEvent.DetermineSectorToContinueAttack 0, ManagerEvent.StopAttack 0,
            ManagerEvent.DeleteAttack 0, ManagerEvent.HasTargetBeenCleared 1]
        ∧ isAvailableAssault exampleManagerEnvCleared res 0 = true := by
  obtain ⟨h1, h2, h3, h4⟩ := example_full_pass
  refine ⟨by rw [h2]; rfl, h1, (updateSlots exampleManagerEnvCleared exampleWorldFull).1,
    ?_, h2, h3, ?_⟩
  · unfold AAIAttackManager.Update
    simp only []
    rw [if_neg (by rw [h1]; decide)]
  · unfold isAvailableAssault
    rw [h4]
    have h0 : AAIGroup.IsAvailableForAttack exampleManagerEnvCleared.env exampleAssaultReady
        = true := example_assault_ready
    rw [h0]
    rfl

/-! ### The outcomes of a launch attempt -/

theorem TryToLaunchAttack_outcome (menv : ManagerEnv) (w : World) (availableAttackId : Int)
    (hr : ∀ g ∈ visitedGroups menv, AAIGroup.IsAvailableForAttack menv.env (w.groups g) = true →
      isContinentBound w g = true → continentInRange menv w g)
    (hid : 0 ≤ availableAttackId ∧ availableAttackId.toNat < w.m_activeAttacks.length)
    (hc : ∀ s, 0 ≤ menv.GetContinentID s
      ∧ (menv.GetContinentID s).toNat < menv.GetNumberOfContinents) :
    ∃ res avail, TryToLaunchAttack menv w availableAttackId = some res
      ∧ DetermineCombatUnitGroupsAvailableForattack menv w = some avail
      ∧ LaunchOutcome menv w availableAttackId avail res := by
  obtain ⟨avail, hav, _⟩ := DetermineCombatUnitGroupsAvailableForattack_spec menv w hr
  unfold TryToLaunchAttack
  rw [hav]
  simp only []
  by_cases h0 : avail.numberOfAssaultUnitGroups = 0
  · rw [if_pos h0]
    exact ⟨w, avail, rfl, rfl, LaunchOutcome.noGroups h0 rfl⟩
  · rw [if_neg h0]
    cases hsel : menv.DetermineSectorToAttack w (sectorQuery menv w avail).1
        (sectorQuery menv w avail).2.1 (sectorQuery menv w avail).2.2 with
    | none => exact ⟨_, avail, rfl, rfl, LaunchOutcome.noTarget h0 hsel rfl⟩
    | some s =>
      obtain ⟨res, hres, hslots, hnext, hcalls, hgroups, hacc, hatt, hjoin⟩ :=
        orderAttack_spec menv
          (w.record (ManagerEvent.DetermineSectorToAttack (sectorQuery menv w avail).1
            (sectorQuery menv w avail).2.1 (sectorQuery menv w avail).2.2))
          avail availableAttackId s hid (hc s)
      rw [offeredGroups_of_spec menv w avail _ hr hav] at hcalls hgroups hacc
      refine ⟨res, avail, hres, rfl, LaunchOutcome.launched h0 s hsel
        ⟨hslots, hnext, ?_, hgroups, hacc, hatt, hjoin⟩⟩
      rw [hcalls]
      simp [World.record]

/-! ### The pass of `Update` over the slots -/

theorem SlotStep_refl (k : Nat) (w : World) : SlotStep k w w :=
  ⟨Or.inl rfl, rfl, fun _ => rfl, fun _ => rfl, [], by simp,
    fun e he => absurd he (List.not_mem_nil e)⟩

theorem SlotStep_trans {k : Nat} {w w1 w2 : World} (h1 : SlotStep k w w1)
    (h2 : SlotStep k w1 w2) : SlotStep k w w2 where
  slots := by
    rcases h2.slots with e2 | e2 <;> rcases h1.slots with e1 | e1
    · exact Or.inl (e2.trans e1)
    · exact Or.inr (e2.trans e1)
    · right; rw [e2, e1]
    · right; rw [e2, e1, List.set_set]
  next := h2.next.trans h1.next
  continent := fun g => (h2.continent g).trans (h1.continent g)
  moveType := fun g => (h2.moveType g).trans (h1.moveType g)
  calls := by
    obtain ⟨evs1, hc1, he1⟩ := h1.calls
    obtain ⟨evs2, hc2, he2⟩ := h2.calls
    refine ⟨evs1 ++ evs2, by rw [hc2, hc1, List.append_assoc], fun e he => ?_⟩
    rcases List.mem_append.mp he with h | h
    · exact he1 e h
    · exact he2 e h

theorem SlotStep_record (k : Nat) (w : World) (e : ManagerEvent)
    (he : ManagerEvent.isLaunchCall e = false) : SlotStep k w (w.record e) :=
  ⟨Or.inl rfl, rfl, fun _ => rfl, fun _ => rfl, [e], rfl, fun e' he' => by
    rw [List.mem_singleton] at he'
    rw [he']
    exact he⟩

theorem SlotStep_attackSector (menv : ManagerEnv) (k : Nat) (w : World) (a : AttackId)
    (s : SectorId) : SlotStep k w (AAIAttack.AttackSector menv w a s) :=
  ⟨Or.inl rfl, rfl, fun _ => rfl, fun _ => rfl, [ManagerEvent.AttackSector a s],
    AttackSector_calls menv w a s, fun e' he' => by
    rw [List.mem_singleton] at he'
    rw [he']
    rfl⟩

theorem SlotStep_abortAttack (k : Nat) (w : World) (a : AttackId)
    (hslot : w.m_activeAttacks[k]? = some (some a)) (hd : SlotsDistinct w) :
    SlotStep k w (AbortAttack w a)
      ∧ (AbortAttack w a).m_activeAttacks = w.m_activeAttacks.set k none := by
  have hs : (AbortAttack w a).m_activeAttacks = w.m_activeAttacks.set k none := by
    show clearSlot a w.m_activeAttacks = _
    exact clearSlot_unique a _ k hslot (fun j hj => hd j k a hj hslot)
  refine ⟨⟨Or.inr hs, rfl, fun g => ?_, fun g => ?_,
    [ManagerEvent.StopAttack a, ManagerEvent.DeleteAttack a], AbortAttack_calls w a,
    fun e' he' => ?_⟩, hs⟩
  · simp only [AbortAttack, AAIAttack.StopAttack, World.record]
    split_ifs <;> rfl
  · simp only [AbortAttack, AAIAttack.StopAttack, World.record]
    split_ifs <;> rfl
  · simp only [List.mem_cons, List.mem_singleton, List.not_mem_nil, or_false] at he'
    rcases he' with h | h <;> rw [h] <;> rfl

theorem SlotStep_abortAttackIfFailed (menv : ManagerEnv) (k : Nat) (w : World) (a : AttackId)
    (hslot : w.m_activeAttacks[k]? = some (some a)) (hd : SlotsDistinct w) :
    SlotStep k w (AbortAttackIfFailed menv w a).2
      ∧ ((AbortAttackIfFailed menv w a).1 = true →
          (AbortAttackIfFailed menv w a).2.m_activeAttacks = w.m_activeAttacks.set k none)
      ∧ ((AbortAttackIfFailed menv w a).1 = false →
          (AbortAttackIfFailed menv w a).2.m_activeAttacks = w.m_activeAttacks)
      ∧ (menv.CheckIfFailed w a = false → (AbortAttackIfFailed menv w a).1 = false) := by
  unfold AbortAttackIfFailed
  by_cases hg : menv.env.GetCurrentFrame - (w.attacks a).m_lastAttackOrderInFrame < 30
  · rw [if_pos hg]
    exact ⟨SlotStep_refl k w, fun h => absurd h Bool.false_ne_true, fun _ => rfl, fun _ => rfl⟩
  · rw [if_neg hg]
    simp only []
    have h1 := SlotStep_record k w (ManagerEvent.CheckIfFailed a) rfl
    by_cases hf : menv.CheckIfFailed w a = true
    · rw [if_pos hf]
      obtain ⟨h2, h3⟩ := SlotStep_abortAttack k (w.record (ManagerEvent.CheckIfFailed a)) a
        hslot hd
      exact ⟨SlotStep_trans h1 h2, fun _ => h3, fun h => absurd h (by simp),
        fun h => by rw [hf] at h; exact absurd h (by simp)⟩
    · rw [if_neg hf]
      exact ⟨h1, fun h => absurd h Bool.false_ne_true, fun _ => rfl, fun _ => rfl⟩

theorem SlotStep_attackNextSectorOrAbort (menv : ManagerEnv) (k : Nat) (w : World)
    (a : AttackId) (hslot : w.m_activeAttacks[k]? = some (some a)) (hd : SlotsDistinct w) :
    SlotStep k w (AttackNextSectorOrAbort menv w a) := by
  unfold AttackNextSectorOrAbort
  by_cases hg : menv.env.GetCurrentFrame - (w.attacks a).m_lastAttackOrderInFrame < 60
  · rw [if_pos hg]
    exact SlotStep_refl k w
  · rw [if_neg hg]
    simp only []
    have h1 := SlotStep_record k w (ManagerEvent.DetermineSectorToContinueAttack a) rfl
    split
    · exact SlotStep_trans h1 (SlotStep_attackSector menv k _ a _)
    · exact SlotStep_trans h1
        (SlotStep_abortAttack k (w.record (ManagerEvent.DetermineSectorToContinueAttack a)) a
          hslot hd).1

theorem set_none_some (l : List (Option AttackId)) (k i : Nat) (a : AttackId)
    (h : (l.set k none)[i]? = some (some a)) : l[i]? = some (some a) := by
  rw [List.getElem?_set] at h
  by_cases hki : k = i
  · rw [if_pos hki] at h
    split_ifs at h
    · exact absurd (Option.some.inj h) (by simp)
  · rw [if_neg hki] at h
    exact h

theorem set_none_none (l : List (Option AttackId)) (k i : Nat)
    (h : l[i]? = some none) : (l.set k none)[i]? = some none := by
  rw [List.getElem?_set]
  by_cases hki : k = i
  · rw [if_pos hki]
    have hlt : i < l.length := by
      by_contra hge
      rw [List.getElem?_eq_none (by omega)] at h
      exact absurd h (by simp)
    rw [if_pos (by omega)]
  · rw [if_neg hki]
    exact h

theorem set_none_self (l : List (Option AttackId)) (k : Nat) (hk : k < l.length) :
    (l.set k none)[k]? = some none := by
  rw [List.getElem?_set, if_pos rfl, if_pos hk]

theorem updateSlot_step (menv : ManagerEnv) (st : World × Int) (k : Nat)
    (hd : SlotsDistinct st.1) (hk : k < st.1.m_activeAttacks.length) :
    SlotStep k st.1 (AAIAttackManager.updateSlot menv st k).1
      ∧ ((AAIAttackManager.updateSlot menv st k).2 = st.2
        ∨ ((AAIAttackManager.updateSlot menv st k).2 = (k : Int)
          ∧ (AAIAttackManager.updateSlot menv st k).1.m_activeAttacks[k]? = some none))
      ∧ (st.1.m_activeAttacks[k]? ≠ some none → (∀ w1 a, menv.CheckIfFailed w1 a = false) →
          (AAIAttackManager.updateSlot menv st k).2 = st.2) := by
  have hget : st.1.m_activeAttacks[k]? = some (st.1.m_activeAttacks.getD k none) := by
    rw [List.getD_eq_getElem?_getD, List.getElem?_eq_getElem hk]
    rfl
  unfold AAIAttackManager.updateSlot
  cases hs : st.1.m_activeAttacks.getD k none with
  | none =>
    rw [hs] at hget
    simp only []
    exact ⟨SlotStep_refl k st.1, Or.inr ⟨by trivial, hget⟩, fun h _ => absurd hget h⟩
  | some b =>
    rw [hs] at hget
    simp only []
    obtain ⟨h1, h2, h3, h4⟩ := SlotStep_abortAttackIfFailed menv k st.1 b hget hd
    by_cases hr : (AbortAttackIfFailed menv st.1 b).1 = true
    · rw [if_pos hr]
      refine ⟨h1, Or.inr ⟨rfl, ?_⟩, fun _ hall => ?_⟩
      · show (AbortAttackIfFailed menv st.1 b).2.m_activeAttacks[k]? = some none
        rw [h2 hr]
        exact set_none_self _ k hk
      · rw [h4 (hall st.1 b)] at hr
        exact absurd hr Bool.false_ne_true
    · rw [if_neg hr]
      have hr' : (AbortAttackIfFailed menv st.1 b).1 = false := by
        cases hv : (AbortAttackIfFailed menv st.1 b).1
        · rfl
        · exact absurd hv hr
      have hsame := h3 hr'
      have h5 := SlotStep_trans h1
        (SlotStep_record k (AbortAttackIfFailed menv st.1 b).2
          (ManagerEvent.HasTargetBeenCleared b) rfl)
      split_ifs
      · refine ⟨SlotStep_trans h5 (SlotStep_attackNextSectorOrAbort menv k _ b ?_ ?_),
          Or.inl rfl, fun _ _ => rfl⟩
        · show (AbortAttackIfFailed menv st.1 b).2.m_activeAttacks[k]? = some (some b)
          rw [hsame]
          exact hget
        · intro i j a hi hj
          have hi' : (AbortAttackIfFailed menv st.1 b).2.m_activeAttacks[i]? = some (some a) := hi
          have hj' : (AbortAttackIfFailed menv st.1 b).2.m_activeAttacks[j]? = some (some a) := hj
          rw [hsame] at hi' hj'
          exact hd i j a hi' hj'
      · exact ⟨h5, Or.inl rfl, fun _ _ => rfl⟩

theorem Pass_init (menv : ManagerEnv) (w : World) (hd : SlotsDistinct w)
    (ha : SlotsAllocated w) : Pass menv w 0 (w, -1) where
  len := rfl
  next := rfl
  distinct := hd
  alloc := ha
  tail := fun _ _ => rfl
  avail := Or.inl rfl
  continent := fun _ => rfl
  moveType := fun _ => rfl
  calls := ⟨[], by simp, fun e he => absurd he (List.not_mem_nil e)⟩
  quiet := fun _ _ => rfl

theorem Pass_step (menv : ManagerEnv) (w0 : World) (k : Nat) (st : World × Int)
    (hp : Pass menv w0 k st) (hk : k < w0.m_activeAttacks.length) :
    Pass menv w0 (k + 1) (AAIAttackManager.updateSlot menv st k) := by
  have hk' : k < st.1.m_activeAttacks.length := by rw [hp.len]; exact hk
  obtain ⟨hs, hav, hq⟩ := updateSlot_step menv st k hp.distinct hk'
  have hsome : ∀ (i : Nat) (a : AttackId),
      (AAIAttackManager.updateSlot menv st k).1.m_activeAttacks[i]?
      = some (some a) → st.1.m_activeAttacks[i]? = some (some a) := by
    intro i a h
    rcases hs.slots with e | e
    · rw [e] at h; exact h
    · rw [e] at h; exact set_none_some _ k i a h
  have hnone : ∀ i : Nat, st.1.m_activeAttacks[i]? = some none →
      (AAIAttackManager.updateSlot menv st k).1.m_activeAttacks[i]? = some none := by
    intro i h
    rcases hs.slots with e | e
    · rw [e]; exact h
    · rw [e]; exact set_none_none _ k i h
  refine ⟨?_, hs.next.trans hp.next, ?_, ?_, ?_, ?_, fun g => (hs.continent g).trans
    (hp.continent g), fun g => (hs.moveType g).trans (hp.moveType g), ?_, ?_⟩
  · rcases hs.slots with e | e
    · rw [e]; exact hp.len
    · rw [e, List.length_set]; exact hp.len
  · intro i j a hi hj
    exact hp.distinct i j a (hsome i a hi) (hsome j a hj)
  · intro i a hi
    have := hp.alloc i a (hsome i a hi)
    rw [hs.next]
    exact this
  · intro j hj
    rw [← hp.tail j (by omega)]
    rcases hs.slots with e | e
    · rw [e]
    · rw [e, List.getElem?_set_ne (by omega)]
  · rcases hav with e | ⟨e, hn⟩
    · rw [e]
      rcases hp.avail with h | ⟨h1, h2, h3⟩
      · exact Or.inl h
      · exact Or.inr ⟨h1, h2, hnone _ h3⟩
    · right
      rw [e]
      refine ⟨Int.natCast_nonneg k, by simpa using hk, ?_⟩
      simpa using hn
  · obtain ⟨evs1, hc1, he1⟩ := hp.calls
    obtain ⟨evs2, hc2, he2⟩ := hs.calls
    refine ⟨evs1 ++ evs2, by rw [hc2, hc1, List.append_assoc], fun e he => ?_⟩
    rcases List.mem_append.mp he with h | h
    · exact he1 e h
    · exact he2 e h
  · intro hocc hnf
    rw [hq (by rw [hp.tail k (le_refl k)]; exact hocc k) hnf]
    exact hp.quiet hocc hnf

theorem Pass_range (menv : ManagerEnv) (w0 : World) (hd : SlotsDistinct w0)
    (ha : SlotsAllocated w0) :
    ∀ n : Nat, n ≤ w0.m_activeAttacks.length →
      Pass menv w0 n ((List.range n).foldl (AAIAttackManager.updateSlot menv) (w0, -1)) := by
  intro n
  induction n with
  | zero => intro _; exact Pass_init menv w0 hd ha
  | succ k ih =>
    intro hk
    rw [List.range_succ, List.foldl_append]
    exact Pass_step menv w0 k _ (ih (by omega)) (by omega)

theorem filter_launch_nil (evs : List ManagerEvent)
    (h : ∀ e ∈ evs, ManagerEvent.isLaunchCall e = false) :
    evs.filter ManagerEvent.isNewAttack = [] ∧ evs.filter ManagerEvent.isSectorQuery = [] := by
  constructor
  · rw [List.filter_eq_nil_iff]
    intro e he hn
    have := h e he
    cases e <;> simp [ManagerEvent.isNewAttack, ManagerEvent.isLaunchCall] at hn this
  · rw [List.filter_eq_nil_iff]
    intro e he hn
    have := h e he
    cases e <;> simp [ManagerEvent.isSectorQuery, ManagerEvent.isLaunchCall] at hn this

theorem filter_addGroup_nil (a : AttackId) (l : List GroupId) :
    (l.map (ManagerEvent.AddGroup a)).filter ManagerEvent.isNewAttack = []
    ∧ (l.map (ManagerEvent.AddGroup a)).filter ManagerEvent.isSectorQuery = [] := by
  constructor
  · rw [List.filter_eq_nil_iff]
    intro e he
    rw [List.mem_map] at he
    obtain ⟨g, _, hg⟩ := he
    rw [← hg]
    simp [ManagerEvent.isNewAttack]
  · rw [List.filter_eq_nil_iff]
    intro e he
    rw [List.mem_map] at he
    obtain ⟨g, _, hg⟩ := he
    rw [← hg]
    simp [ManagerEvent.isSectorQuery]

theorem updateSlots_pass (menv : ManagerEnv) (w : World) (hd : SlotsDistinct w)
    (ha : SlotsAllocated w) :
    Pass menv w w.m_activeAttacks.length (updateSlots menv w) :=
  Pass_range menv w hd ha w.m_activeAttacks.length (le_refl _)

/-- What `Update` does to the slots, for a state whose slots hold distinct allocated
attacks. -/
theorem Update_outcome (menv : ManagerEnv) (w : World)
    (hwf1 : ∀ g ∈ visitedGroups menv, isContinentBound w g = true → continentInRange menv w g)
    (hwf2 : ∀ s, 0 ≤ menv.GetContinentID s
      ∧ (menv.GetContinentID s).toNat < menv.GetNumberOfContinents)
    (hd : SlotsDistinct w) (ha : SlotsAllocated w) :
    ∃ res evs, AAIAttackManager.Update menv w = some res
      ∧ res.calls = (updateSlots menv w).1.calls ++ evs
      ∧ (evs.filter ManagerEvent.isNewAttack).length ≤ 1
      ∧ (evs.filter ManagerEvent.isSectorQuery).length ≤ 1
      ∧ ((updateSlots menv w).2 = -1 → res = (updateSlots menv w).1 ∧ evs = [])
      ∧ (res.m_activeAttacks = (updateSlots menv w).1.m_activeAttacks
            ∧ res.nextAttack = w.nextAttack
          ∨ (0 ≤ (updateSlots menv w).2
            ∧ (updateSlots menv w).1.m_activeAttacks[(updateSlots menv w).2.toNat]? = some none
            ∧ res.m_activeAttacks = (updateSlots menv w).1.m_activeAttacks.set
                (updateSlots menv w).2.toNat (some w.nextAttack)
            ∧ res.nextAttack = w.nextAttack + 1)) := by
  have hp := updateSlots_pass menv w hd ha
  unfold AAIAttackManager.Update
  simp only []
  by_cases hge : (updateSlots menv w).2 ≥ 0
  · rw [if_pos hge]
    rcases hp.avail with h | ⟨h1, h2, h3⟩
    · exfalso; omega
    · have hr : ∀ g ∈ visitedGroups menv,
          AAIGroup.IsAvailableForAttack menv.env ((updateSlots menv w).1.groups g) = true →
          isContinentBound (updateSlots menv w).1 g = true →
          continentInRange menv (updateSlots menv w).1 g := by
        intro g hg _ hb
        have hb0 : isContinentBound w g = true := by
          unfold isContinentBound at hb ⊢
          rw [← hp.moveType g]
          exact hb
        have := hwf1 g hg hb0
        unfold continentInRange at this ⊢
        rw [hp.continent g]
        exact this
      obtain ⟨res, avail, hres, _, hout⟩ := TryToLaunchAttack_outcome menv
        (updateSlots menv w).1 (updateSlots menv w).2 hr ⟨h1, by rw [hp.len]; exact h2⟩ hwf2
      have hneg : ¬ (updateSlots menv w).2 = -1 := by omega
      cases hout with
      | noGroups h0 he =>
        exact ⟨res, [], hres, by rw [he]; simp, by simp, by simp, fun h => absurd h hneg,
          Or.inl ⟨by rw [he], by rw [he]; exact hp.next⟩⟩
      | noTarget h0 hsel he =>
        refine ⟨res, [ManagerEvent.DetermineSectorToAttack
            (sectorQuery menv (updateSlots menv w).1 avail).1
            (sectorQuery menv (updateSlots menv w).1 avail).2.1
            (sectorQuery menv (updateSlots menv w).1 avail).2.2], hres, by rw [he]; rfl,
          by simp [ManagerEvent.isNewAttack], by simp [ManagerEvent.isSectorQuery],
          fun h => absurd h hneg, Or.inl ⟨by rw [he]; rfl, by rw [he]; exact hp.next⟩⟩
      | launched h0 s hsel hl =>
        refine ⟨res, [ManagerEvent.DetermineSectorToAttack
              (sectorQuery menv (updateSlots menv w).1 avail).1
              (sectorQuery menv (updateSlots menv w).1 avail).2.1
              (sectorQuery menv (updateSlots menv w).1 avail).2.2,
            ManagerEvent.NewAttack (updateSlots menv w).1.nextAttack]
          ++ (offeredGroups menv (updateSlots menv w).1 (menv.GetContinentID s).toNat).map
                (ManagerEvent.AddGroup (updateSlots menv w).1.nextAttack)
          ++ [ManagerEvent.AttackSector (updateSlots menv w).1.nextAttack s], hres, ?_, ?_, ?_,
          fun h => absurd h hneg, Or.inr ⟨h1, h3, ?_, ?_⟩⟩
        · rw [hl.calls]
          simp only [List.append_assoc]
        · rw [List.filter_append, List.filter_append, (filter_addGroup_nil _ _).1]
          simp [ManagerEvent.isNewAttack]
        · rw [List.filter_append, List.filter_append, (filter_addGroup_nil _ _).2]
          simp [ManagerEvent.isSectorQuery]
        · rw [hl.slots, hp.next]
        · rw [hl.next, hp.next]
  · rw [if_neg hge]
    exact ⟨_, [], rfl, by simp, by simp, by simp, fun _ => ⟨rfl, rfl⟩, Or.inl ⟨rfl, hp.next⟩⟩

theorem updateSlot_available (menv : ManagerEnv) (st : World × Int) (k : Nat) :
    st.1.m_activeAttacks.getD k none = none
    ∨ (∃ a : AttackId, st.1.m_activeAttacks.getD k none = some a
        ∧ (AbortAttackIfFailed menv st.1 a).1 = true)
    ∨ (AAIAttackManager.updateSlot menv st k).2 = st.2 := by
  unfold AAIAttackManager.updateSlot
  cases hs : st.1.m_activeAttacks.getD k none with
  | none => exact Or.inl rfl
  | some a =>
    simp only []
    by_cases hab : (AbortAttackIfFailed menv st.1 a).1 = true
    · exact Or.inr (Or.inl ⟨a, rfl, hab⟩)
    · rw [if_neg hab]
      right
      right
      split <;> rfl

theorem updateSlots_freed (menv : ManagerEnv) (w : World) (hd : SlotsDistinct w)
    (ha : SlotsAllocated w) :
    ∀ n : Nat, n ≤ w.m_activeAttacks.length →
      ((List.range n).foldl (AAIAttackManager.updateSlot menv) (w, -1)).2 = -1
      ∨ ∃ k : Nat, k < n
        ∧ (w.m_activeAttacks[k]? = some none
          ∨ ∃ a : AttackId, w.m_activeAttacks[k]? = some (some a)
            ∧ (AbortAttackIfFailed menv
                ((List.range k).foldl (AAIAttackManager.updateSlot menv) (w, -1)).1 a).1
              = true) := by
  intro n
  induction n with
  | zero => intro _; exact Or.inl rfl
  | succ k ih =>
    intro hk
    have hp := Pass_range menv w hd ha k (by omega)
    have hklen : k < ((List.range k).foldl (AAIAttackManager.updateSlot menv)
        (w, -1)).1.m_activeAttacks.length := by
      rw [hp.len]
      omega
    have hget : w.m_activeAttacks[k]?
        = some (((List.range k).foldl (AAIAttackManager.updateSlot menv)
            (w, -1)).1.m_activeAttacks.getD k none) := by
      rw [← hp.tail k (le_refl k), List.getD_eq_getElem?_getD, List.getElem?_eq_getElem hklen]
      rfl
    rw [List.range_succ, List.foldl_append]
    simp only [List.foldl_cons, List.foldl_nil]
    rcases ih (by omega) with h0 | ⟨j, hj, hfree⟩
    · rcases updateSlot_available menv
          ((List.range k).foldl (AAIAttackManager.updateSlot menv) (w, -1)) k with
        h | ⟨a, h1, h2⟩ | h
      · rw [h] at hget
        exact Or.inr ⟨k, Nat.lt_succ_self k, Or.inl hget⟩
      · rw [h1] at hget
        exact Or.inr ⟨k, Nat.lt_succ_self k, Or.inr ⟨a, hget, h2⟩⟩
      · exact Or.inl (h.trans h0)
    · exact Or.inr ⟨j, Nat.lt_succ_of_lt hj, hfree⟩

/-- C14: the constructor makes `MAX_ATTACKS` slots and `Update` keeps their number, so the
occupied slots are never more; the slots keep holding distinct allocated attacks. In one
`Update` at most one attack is created and the region selector is asked at most once; neither
happens when every slot was occupied and no attack reported failure. A slot changed by the
launch was empty after the pass over the slots and holds the new attack; a slot occupied after
the pass holds the same attack when `Update` returns. No launch is attempted (no attack is
created, the region selector is not asked and `Update` returns the state after the pass) when
`availableAttackId` is still -1 after the pass, which is the case whenever no slot was empty
before the pass and `AbortAttackIfFailed` returned false for the attack of every slot, in the
state the pass had reached at that slot, be it because the attack was under the 30 frame gate
or because it had not failed. -/
theorem Update_slots (menv : ManagerEnv) (w : World)
    (hwf1 : ∀ g ∈ visitedGroups menv, isContinentBound w g = true → continentInRange menv w g)
    (hwf2 : ∀ s, 0 ≤ menv.GetContinentID s
      ∧ (menv.GetContinentID s).toNat < menv.GetNumberOfContinents)
    (hd : SlotsDistinct w) (ha : SlotsAllocated w) :
    (AAIAttackManager.ctor menv).length = menv.MAX_ATTACKS
    ∧ ∃ res evs, AAIAttackManager.Update menv w = some res
      ∧ res.calls = w.calls ++ evs
      ∧ res.m_activeAttacks.length = w.m_activeAttacks.length
      ∧ (res.m_activeAttacks.filter Option.isSome).length ≤ w.m_activeAttacks.length
      ∧ SlotsDistinct res ∧ SlotsAllocated res
      ∧ (evs.filter ManagerEvent.isNewAttack).length ≤ 1
      ∧ (evs.filter ManagerEvent.isSectorQuery).length ≤ 1
      ∧ ((∀ j : Nat, w.m_activeAttacks[j]? ≠ some none) →
          (∀ w1 a, menv.CheckIfFailed w1 a = false) →
          evs.filter ManagerEvent.isNewAttack = [] ∧ evs.filter ManagerEvent.isSectorQuery = []
            ∧ res = (updateSlots menv w).1)
      ∧ (∀ i : Nat, res.m_activeAttacks[i]? ≠ (updateSlots menv w).1.m_activeAttacks[i]? →
          (updateSlots menv w).1.m_activeAttacks[i]? = some none
            ∧ res.m_activeAttacks[i]? = some (some w.nextAttack))
      ∧ (∀ (i : Nat) (a : AttackId),
          (updateSlots menv w).1.m_activeAttacks[i]? = some (some a) →
            res.m_activeAttacks[i]? = some (some a))
      ∧ ((updateSlots menv w).2 = -1 →
          evs.filter ManagerEvent.isNewAttack = [] ∧ evs.filter ManagerEvent.isSectorQuery = []
            ∧ res = (updateSlots menv w).1)
      ∧ ((∀ k : Nat, k < w.m_activeAttacks.length →
            w.m_activeAttacks[k]? ≠ some none
            ∧ ∀ a : AttackId, w.m_activeAttacks[k]? = some (some a) →
                (AbortAttackIfFailed menv
                  ((List.range k).foldl (AAIAttackManager.updateSlot menv) (w, -1)).1 a).1
                = false) →
          (updateSlots menv w).2 = -1
          ∧ evs.filter ManagerEvent.isNewAttack = [] ∧ evs.filter ManagerEvent.isSectorQuery = []
            ∧ res = (updateSlots menv w).1) := by
  refine ⟨List.length_replicate _ _, ?_⟩
  have hp := updateSlots_pass menv w hd ha
  obtain ⟨evs1, hc1, he1⟩ := hp.calls
  obtain ⟨hn1, hq1⟩ := filter_launch_nil evs1 he1
  obtain ⟨res, evs2, hres, hc2, hn2, hq2, hquiet, hcase⟩ := Update_outcome menv w hwf1 hwf2 hd ha
  have hlen : res.m_activeAttacks.length = w.m_activeAttacks.length := by
    rcases hcase with ⟨e, _⟩ | ⟨_, _, e, _⟩
    · rw [e]; exact hp.len
    · rw [e, List.length_set]; exact hp.len
  have hchange : ∀ i : Nat,
      res.m_activeAttacks[i]? ≠ (updateSlots menv w).1.m_activeAttacks[i]? →
        (updateSlots menv w).1.m_activeAttacks[i]? = some none
          ∧ res.m_activeAttacks[i]? = some (some w.nextAttack) := by
    intro i hne
    rcases hcase with ⟨e, _⟩ | ⟨_, hnone, e, _⟩
    · rw [e] at hne; exact absurd rfl hne
    · rw [e] at hne ⊢
      by_cases hi : (updateSlots menv w).2.toNat = i
      · subst hi
        refine ⟨hnone, ?_⟩
        rw [List.getElem?_set, if_pos rfl]
        split_ifs with hlt
        · rfl
        · rw [List.getElem?_eq_none (by omega)] at hnone
          exact absurd hnone (by simp)
      · rw [List.getElem?_set_ne hi] at hne
        exact absurd rfl hne
  have hkeep : ∀ (i : Nat) (a : AttackId),
      (updateSlots menv w).1.m_activeAttacks[i]? = some (some a) →
        res.m_activeAttacks[i]? = some (some a) := by
    intro i a hi
    by_contra hne
    have h := (hchange i (by rw [hi]; exact hne)).1
    rw [hi] at h
    exact absurd (Option.some.inj h) (by simp)
  have hback : ∀ (i : Nat) (a : AttackId), res.m_activeAttacks[i]? = some (some a) →
      (updateSlots menv w).1.m_activeAttacks[i]? = some (some a) ∨ a = w.nextAttack := by
    intro i a hi
    by_cases hsame : res.m_activeAttacks[i]? = (updateSlots menv w).1.m_activeAttacks[i]?
    · left; rw [← hsame]; exact hi
    · right
      have h := (hchange i hsame).2
      rw [hi] at h
      exact Option.some.inj (Option.some.inj h)
  have hnext : res.nextAttack = w.nextAttack
      ∨ (res.nextAttack = w.nextAttack + 1) := by
    rcases hcase with ⟨_, e⟩ | ⟨_, _, _, e⟩
    · exact Or.inl e
    · exact Or.inr e
  have hallocP : ∀ (i : Nat) (a : AttackId),
      (updateSlots menv w).1.m_activeAttacks[i]? = some (some a) → a < w.nextAttack := by
    intro i a hi
    have := hp.alloc i a hi
    rw [hp.next] at this
    exact this
  have hirr : ∀ a : AttackId, a < w.nextAttack → a = w.nextAttack → False := by
    intro a h e
    rw [e] at h
    exact Nat.lt_irrefl _ h
  have hlt : ∀ a : AttackId, a < w.nextAttack → a < res.nextAttack := by
    intro a h
    rcases hnext with e | e
    · rw [e]; exact h
    · rw [e]; exact Nat.lt_succ_of_lt h
  have hnone : (updateSlots menv w).2 = -1 →
      (evs1 ++ evs2).filter ManagerEvent.isNewAttack = []
        ∧ (evs1 ++ evs2).filter ManagerEvent.isSectorQuery = []
        ∧ res = (updateSlots menv w).1 := by
    intro h
    obtain ⟨e1, e2⟩ := hquiet h
    rw [e2, List.append_nil]
    exact ⟨hn1, hq1, e1⟩
  have hfreed : (∀ k : Nat, k < w.m_activeAttacks.length →
        w.m_activeAttacks[k]? ≠ some none
        ∧ ∀ a : AttackId, w.m_activeAttacks[k]? = some (some a) →
            (AbortAttackIfFailed menv
              ((List.range k).foldl (AAIAttackManager.updateSlot menv) (w, -1)).1 a).1
            = false) → (updateSlots menv w).2 = -1 := by
    intro hall
    rcases updateSlots_freed menv w hd ha w.m_activeAttacks.length (le_refl _) with
      h | ⟨k, hk, hfree⟩
    · exact h
    · exfalso
      rcases hfree with h | ⟨a, h1, h2⟩
      · exact (hall k hk).1 h
      · rw [(hall k hk).2 a h1] at h2
        cases h2
  refine ⟨res, evs1 ++ evs2, hres, by rw [hc2, hc1, List.append_assoc], hlen, ?_, ?_, ?_, ?_, ?_,
    ?_, hchange, hkeep, hnone, fun hall => ⟨hfreed hall, hnone (hfreed hall)⟩⟩
  · rw [← hlen]
    exact List.length_filter_le _ _
  · intro i j a hi hj
    rcases hback i a hi with h1 | h1 <;> rcases hback j a hj with h2 | h2
    · exact hp.distinct i j a h1 h2
    · exact absurd h2 (fun e => hirr a (hallocP i a h1) e)
    · exact absurd h1 (fun e => hirr a (hallocP j a h2) e)
    · by_contra hij
      have hi' : res.m_activeAttacks[i]? ≠ (updateSlots menv w).1.m_activeAttacks[i]? := by
        intro e
        rw [e] at hi
        exact hirr a (hallocP i a hi) h1
      have hj' : res.m_activeAttacks[j]? ≠ (updateSlots menv w).1.m_activeAttacks[j]? := by
        intro e
        rw [e] at hj
        exact hirr a (hallocP j a hj) h2
      rcases hcase with ⟨e, _⟩ | ⟨_, _, e, _⟩
      · rw [e] at hi'; exact hi' rfl
      · rw [e] at hi' hj'
        by_cases h1 : (updateSlots menv w).2.toNat = i
        · by_cases h2 : (updateSlots menv w).2.toNat = j
          · exact hij (h1.symm.trans h2)
          · rw [List.getElem?_set_ne h2] at hj'
            exact hj' rfl
        · rw [List.getElem?_set_ne h1] at hi'
          exact hi' rfl
  · intro i a hi
    rcases hback i a hi with h1 | h1
    · exact hlt a (hallocP i a h1)
    · by_cases hsame : res.m_activeAttacks[i]? = (updateSlots menv w).1.m_activeAttacks[i]?
      · rw [hsame] at hi
        exact hlt a (hallocP i a hi)
      · rcases hcase with ⟨e, _⟩ | ⟨_, _, _, e⟩
        · rw [e] at hsame; exact absurd rfl hsame
        · rw [e, h1]
          exact Nat.lt_succ_self _
  · rw [List.filter_append, hn1, List.nil_append]
    exact hn2
  · rw [List.filter_append, hq1, List.nil_append]
    exact hq2
  · intro hocc hnf
    obtain ⟨e1, e2⟩ := hquiet (hp.quiet hocc hnf)
    rw [e2, List.append_nil]
    exact ⟨hn1, hq1, e1⟩

/-- C14, on the concrete world: both slots are occupied, attack 0 has not failed and attack 1
is under the 30 frame gate; `Update` attempts no launch and there are still two slots. -/
theorem Update_slots_witness :
    SlotsDistinct exampleWorldFull ∧ SlotsAllocated exampleWorldFull
    ∧ (∀ k : Nat, k < exampleWorldFull.m_activeAttacks.length →
        exampleWorldFull.m_activeAttacks[k]? ≠ some none
        ∧ ∀ a : AttackId, exampleWorldFull.m_activeAttacks[k]? = some (some a) →
            (AbortAttackIfFailed exampleManagerEnv
              ((List.range k).foldl (AAIAttackManager.updateSlot exampleManagerEnv)
                (exampleWorldFull, -1)).1 a).1 = false)
    ∧ ∃ res, AAIAttackManager.Update exampleManagerEnv exampleWorldFull = some res
        ∧ res.m_activeAttacks.length = 2
        ∧ (updateSlots exampleManagerEnv exampleWorldFull).2 = -1
        ∧ res = (updateSlots exampleManagerEnv exampleWorldFull).1 := by
  have hslots : ∀ (i : Nat) (a : AttackId),
      exampleWorldFull.m_activeAttacks[i]? = some (some a) → i = a ∧ a < 2 := by
    intro i a h
    match i, h with
    | 0, h =>
      have : a = 0 := by simpa [exampleWorldFull] using h.symm
      exact ⟨this.symm, by rw [this]; exact Nat.zero_lt_two⟩
    | 1, h =>
      have : a = 1 := by simpa [exampleWorldFull] using h.symm
      exact ⟨this.symm, by rw [this]; exact Nat.one_lt_two⟩
    | (n + 2), h => simp [exampleWorldFull] at h
  have hd : SlotsDistinct exampleWorldFull := fun i j a hi hj =>
    (hslots i a hi).1.trans (hslots j a hj).1.symm
  have ha : SlotsAllocated exampleWorldFull := fun i a hi => (hslots i a hi).2
  have hall : ∀ k : Nat, k < exampleWorldFull.m_activeAttacks.length →
      exampleWorldFull.m_activeAttacks[k]? ≠ some none
      ∧ ∀ a : AttackId, exampleWorldFull.m_activeAttacks[k]? = some (some a) →
          (AbortAttackIfFailed exampleManagerEnv
            ((List.range k).foldl (AAIAttackManager.updateSlot exampleManagerEnv)
              (exampleWorldFull, -1)).1 a).1 = false := by
    intro k hk
    match k, hk with
    | 0, _ =>
      refine ⟨by simp [exampleWorldFull], fun a h => ?_⟩
      have : a = 0 := ((hslots 0 a h).1).symm
      subst this
      simp [AbortAttackIfFailed, exampleManagerEnv, exampleEnv, exampleWorldFull]
    | 1, _ =>
      refine ⟨by simp [exampleWorldFull], fun a h => ?_⟩
      have : a = 1 := ((hslots 1 a h).1).symm
      subst this
      simp [AbortAttackIfFailed, AAIAttackManager.updateSlot, World.record, exampleManagerEnv,
        exampleEnv, exampleWorldFull, List.range_succ]
    | (n + 2), hk => simp [exampleWorldFull] at hk
  obtain ⟨_, res, _, h1, _, h2, _, _, _, _, _, _, _, _, _, h3⟩ :=
    Update_slots exampleManagerEnv exampleWorldFull
    (fun g _ _ => by
      unfold continentInRange
      have : (exampleWorldFull.groups g).m_continentId = 0 := by
        simp only [exampleWorldFull]; split_ifs <;> rfl
      rw [this]
      exact ⟨le_refl 0, by simp [exampleManagerEnv]⟩)
    (fun _ => ⟨le_refl 0, by simp [exampleManagerEnv]⟩) hd ha
  exact ⟨hd, ha, hall, res, h1, h2, (h3 hall).1, (h3 hall).2.2.2⟩

/-! ### The combat power of a list of groups -/

theorem TargetTypeValues.add_assoc' (a b c : TargetTypeValues) :
    (a.add b).add c = a.add (b.add c) := by
  simp [TargetTypeValues.add, add_assoc]

theorem TargetTypeValues.add_left_comm' (a b c : TargetTypeValues) :
    a.add (b.add c) = b.add (a.add c) := by
  simp [TargetTypeValues.add, add_left_comm]

theorem TargetTypeValues.add_zero' (a : TargetTypeValues) :
    a.add TargetTypeValues.zero = a := by
  simp [TargetTypeValues.add, TargetTypeValues.zero]

theorem addCombatPowerOfGroup_eq (env : Env) (g : AAIGroup)
    (acc : TargetTypeValues × TargetTypeValues) :
    addCombatPowerOfGroup env g acc
      = (acc.1.add (powerContribution env g), acc.2.add (countContribution env g)) := by
  unfold addCombatPowerOfGroup
  simp only [AAIGroup.GetTargetType, AAIGroup.GetCombatPowerVsTargetType]
  cases hc : g.m_category <;> cases ht : env.GetTargetType g.m_groupDefId <;>
    simp [TargetTypeValues.add, powerContribution, countContribution,
      TargetTypeValues.AddValueForTargetType, hc, ht]

theorem DetermineCombatPowerOfGroups_eq (env : Env) (groups : List AAIGroup) :
    ∀ (p c : TargetTypeValues),
      DetermineCombatPowerOfGroups env groups p c
        = (p.add (TargetTypeValues.sum (groups.map (powerContribution env))),
           c.add (TargetTypeValues.sum (groups.map (countContribution env)))) := by
  induction groups with
  | nil =>
    intro p c
    simp [DetermineCombatPowerOfGroups, TargetTypeValues.sum, TargetTypeValues.add_zero']
  | cons g rest ih =>
    intro p c
    have h := ih (p.add (powerContribution env g)) (c.add (countContribution env g))
    unfold DetermineCombatPowerOfGroups at h ⊢
    rw [List.foldl_cons, addCombatPowerOfGroup_eq, h]
    simp [TargetTypeValues.sum, TargetTypeValues.add_assoc']

theorem TargetTypeValues.sum_perm (l₁ l₂ : List TargetTypeValues) (h : l₁.Perm l₂) :
    TargetTypeValues.sum l₁ = TargetTypeValues.sum l₂ := by
  induction h with
  | nil => rfl
  | cons x _ ih =>
    unfold TargetTypeValues.sum at ih ⊢
    rw [List.foldr_cons, List.foldr_cons, ih]
  | swap x y l =>
    unfold TargetTypeValues.sum
    rw [List.foldr_cons, List.foldr_cons, List.foldr_cons, List.foldr_cons,
      TargetTypeValues.add_left_comm']
  | trans _ _ ih1 ih2 => exact ih1.trans ih2

/-- C15: for every list of groups and every accumulator, `DetermineCombatPowerOfGroups` adds
for each group member count times power against STATIC to the static entry, against SURFACE
to the surface entry for ground and hover combat, against FLOATER to the floater entry for
hover, sea and submarine combat, against SUBMERGED to the submerged entry for sea and
submarine combat, and nothing else; the air entry is unchanged; the count at the target type
of each group grows by 1. -/
theorem DetermineCombatPowerOfGroups_adds (env : Env) (groups : List AAIGroup)
    (p c : TargetTypeValues) :
    DetermineCombatPowerOfGroups env groups p c
      = (p.add (TargetTypeValues.sum (groups.map (powerContribution env))),
         c.add (TargetTypeValues.sum (groups.map (countContribution env))))
    ∧ (DetermineCombatPowerOfGroups env groups p c).1.airIndex = p.airIndex
    ∧ (∀ g, DetermineCombatPowerOfGroups env (groups ++ [g]) p c
        = ((DetermineCombatPowerOfGroups env groups p c).1.add (powerContribution env g),
           (DetermineCombatPowerOfGroups env groups p c).2.add (countContribution env g))) := by
  refine ⟨DetermineCombatPowerOfGroups_eq env groups p c, ?_, fun g => ?_⟩
  · rw [DetermineCombatPowerOfGroups_eq]
    show p.airIndex + (TargetTypeValues.sum (groups.map (powerContribution env))).airIndex = _
    have : ∀ l : List AAIGroup,
        (TargetTypeValues.sum (l.map (powerContribution env))).airIndex = 0 := by
      intro l
      induction l with
      | nil => rfl
      | cons x xs ih =>
        show (powerContribution env x).airIndex
          + (TargetTypeValues.sum (xs.map (powerContribution env))).airIndex = 0
        rw [ih]
        simp [powerContribution]
    rw [this, add_zero]
  · unfold DetermineCombatPowerOfGroups
    rw [List.foldl_append, List.foldl_cons, List.foldl_nil, addCombatPowerOfGroup_eq]

/-- C16: `DetermineCombatPowerOfGroups` returns the same combat power and the same group
counts for a list of groups and for every permutation of it. -/
theorem DetermineCombatPowerOfGroups_perm (env : Env) (groups₁ groups₂ : List AAIGroup)
    (p c : TargetTypeValues) (h : groups₁.Perm groups₂) :
    DetermineCombatPowerOfGroups env groups₁ p c
      = DetermineCombatPowerOfGroups env groups₂ p c := by
  rw [DetermineCombatPowerOfGroups_eq, DetermineCombatPowerOfGroups_eq,
    TargetTypeValues.sum_perm _ _ (h.map (powerContribution env)),
    TargetTypeValues.sum_perm _ _ (h.map (countContribution env))]

/-- C16, on the concrete world: two groups in either order. -/
theorem DetermineCombatPowerOfGroups_perm_witness :
    [exampleAssaultReady, exampleSpreadGroup].Perm [exampleSpreadGroup, exampleAssaultReady]
    ∧ DetermineCombatPowerOfGroups exampleEnv [exampleAssaultReady, exampleSpreadGroup]
          TargetTypeValues.zero TargetTypeValues.zero
        = DetermineCombatPowerOfGroups exampleEnv [exampleSpreadGroup, exampleAssaultReady]
          TargetTypeValues.zero TargetTypeValues.zero :=
  ⟨List.Perm.swap _ _ _,
   DetermineCombatPowerOfGroups_perm exampleEnv _ _ _ _ (List.Perm.swap _ _ _)⟩

/-! ### One attack per group -/

theorem attached_not_available (env : Env) (g : AAIGroup) (h : g.attack ≠ none) :
    AAIGroup.IsAvailableForAttack env g = false := by
  cases hv : AAIGroup.IsAvailableForAttack env g
  · rfl
  · exact absurd ((IsAvailableForAttack_iff env g).mp hv).1 h

theorem attached_not_admitted (env : Env) (g : AAIGroup) (h : g.attack ≠ none) (u : UnitId)
    (d : UnitDefId) (c : Int) : (AAIGroup.AddUnit env g u d c).1 = false := by
  rw [AddUnit_of_not_admits env g u d c (fun ha => h ha.2.2.2.1)]

theorem offered_was_unattached (menv : ManagerEnv) (w : World) (c : Nat) (g : GroupId)
    (hg : g ∈ offeredGroups menv w c) : (w.groups g).attack = none := by
  obtain ⟨_, hav, _⟩ := mem_offeredGroups menv w c g hg
  unfold isAvailableAssault at hav
  rw [Bool.and_eq_true] at hav
  exact ((IsAvailableForAttack_iff menv.env (w.groups g)).mp hav.1).1

theorem offered_bucket_unique (menv : ManagerEnv) (w : World) (avail : AvailableGroups)
    (hr : ∀ g ∈ visitedGroups menv, AAIGroup.IsAvailableForAttack menv.env (w.groups g) = true →
      isContinentBound w g = true → continentInRange menv w g)
    (hav : DetermineCombatUnitGroupsAvailableForattack menv w = some avail)
    (c : Nat) (g : GroupId) (hg : g ∈ offeredGroups menv w c) :
    ∃! b : Bucket, g ∈ avail.bucket b := by
  obtain ⟨avail1, h1, hG, hAG, hC, hAC, _⟩ :=
    DetermineCombatUnitGroupsAvailableForattack_spec menv w hr
  rw [hav] at h1
  cases h1
  obtain ⟨hv, hass, hb⟩ := mem_offeredGroups menv w c g hg
  have hnaa : isAvailableAntiAir menv w g = false := by
    unfold isAvailableAssault at hass
    unfold isAvailableAntiAir
    rw [Bool.and_eq_true] at hass
    rw [hass.1, hass.2]
    rfl
  rcases hb with hb | ⟨hb, hcid⟩
  · refine ⟨Bucket.assaultGlobal, ?_, fun b hb' => ?_⟩
    · show g ∈ avail.availableAssaultGroupsGlobal
      rw [hG, List.mem_filter]
      exact ⟨hv, by rw [hass, hb]; rfl⟩
    · cases b with
      | assaultGlobal => rfl
      | antiAirGlobal =>
        have : g ∈ avail.availableAAGroupsGlobal := hb'
        rw [hAG, List.mem_filter, hnaa] at this
        exact absurd this.2 (by simp)
      | assaultOnContinent c' =>
        have : g ∈ avail.availableAssaultGroupsOnContinent.getD c' [] := hb'
        rw [hC c', List.mem_filter] at this
        simp [isBoundTo, hb] at this
      | antiAirOnContinent c' =>
        have : g ∈ avail.availableAAGroupsOnContinent.getD c' [] := hb'
        rw [hAC c', List.mem_filter, hnaa] at this
        exact absurd this.2 (by simp)
  · refine ⟨Bucket.assaultOnContinent c, ?_, fun b hb' => ?_⟩
    · show g ∈ avail.availableAssaultGroupsOnContinent.getD c []
      rw [hC c, List.mem_filter]
      exact ⟨hv, by simp [isBoundTo, hass, hb, hcid]⟩
    · cases b with
      | assaultGlobal =>
        have : g ∈ avail.availableAssaultGroupsGlobal := hb'
        rw [hG, List.mem_filter] at this
        simp [hb] at this
      | antiAirGlobal =>
        have : g ∈ avail.availableAAGroupsGlobal := hb'
        rw [hAG, List.mem_filter, hnaa] at this
        exact absurd this.2 (by simp)
      | assaultOnContinent c' =>
        have : g ∈ avail.availableAssaultGroupsOnContinent.getD c' [] := hb'
        rw [hC c', List.mem_filter] at this
        simp only [isBoundTo, Bool.and_eq_true, decide_eq_true_eq] at this
        have hcc : ((c' : Nat) : Int) = (c : Int) := this.2.2.2.symm.trans hcid
        have : c' = c := by exact_mod_cast hcc
        rw [this]
      | antiAirOnContinent c' =>
        have : g ∈ avail.availableAAGroupsOnContinent.getD c' [] := hb'
        rw [hAC c', List.mem_filter, hnaa] at this
        exact absurd this.2 (by simp)

/-- C17: a group with an attack is refused by `IsAvailableForAttack` and by `AddUnit`; a
launch changes the member `attack` only of groups that had none before, sets it to the new
attack, has gathered each such group in exactly one bucket, and leaves every group that
already had an attack as it was. -/
theorem one_attack_per_group (menv : ManagerEnv) (w : World) (availableAttackId : Int)
    (hr : ∀ g ∈ visitedGroups menv, AAIGroup.IsAvailableForAttack menv.env (w.groups g) = true →
      isContinentBound w g = true → continentInRange menv w g)
    (hid : 0 ≤ availableAttackId ∧ availableAttackId.toNat < w.m_activeAttacks.length)
    (hc : ∀ s, 0 ≤ menv.GetContinentID s
      ∧ (menv.GetContinentID s).toNat < menv.GetNumberOfContinents) :
    (∀ (env : Env) (g : AAIGroup), g.attack ≠ none →
      AAIGroup.IsAvailableForAttack env g = false
        ∧ ∀ u d c, (AAIGroup.AddUnit env g u d c).1 = false)
    ∧ ∃ res avail, TryToLaunchAttack menv w availableAttackId = some res
      ∧ DetermineCombatUnitGroupsAvailableForattack menv w = some avail
      ∧ (∀ g, res.groups g ≠ w.groups g →
          (w.groups g).attack = none ∧ (res.groups g).attack = some w.nextAttack
            ∧ ∃! b : Bucket, g ∈ avail.bucket b)
      ∧ (∀ g, (w.groups g).attack ≠ none → res.groups g = w.groups g) := by
  refine ⟨fun env g h => ⟨attached_not_available env g h, attached_not_admitted env g h⟩, ?_⟩
  obtain ⟨res, avail, hres, hav, hout⟩ :=
    TryToLaunchAttack_outcome menv w availableAttackId hr hid hc
  have key : ∀ g, res.groups g ≠ w.groups g →
      (w.groups g).attack = none ∧ (res.groups g).attack = some w.nextAttack
        ∧ ∃! b : Bucket, g ∈ avail.bucket b := by
    intro g hne
    cases hout with
    | noGroups h0 he => rw [he] at hne; exact absurd rfl hne
    | noTarget h0 hsel he => rw [he] at hne; exact absurd rfl hne
    | launched h0 s hsel hl =>
      rcases hl.groups g with e | ⟨hm, _, e⟩
      · exact absurd e hne
      · exact ⟨offered_was_unattached menv w _ g hm, by rw [e],
          offered_bucket_unique menv w avail hr hav _ g hm⟩
  refine ⟨res, avail, hres, hav, key, fun g hatt => ?_⟩
  by_contra hne
  exact hatt (key g hne).1

/-- C17, on the concrete world: the launch into slot 0 of the world with two empty slots. -/
theorem one_attack_per_group_witness :
    (0 : Int) ≤ 0 ∧ (0 : Int).toNat < exampleWorld.m_activeAttacks.length
    ∧ ∃ res, TryToLaunchAttack exampleManagerEnv exampleWorld 0 = some res
        ∧ ∀ g, (exampleWorld.groups g).attack ≠ none → res.groups g = exampleWorld.groups g := by
  obtain ⟨_, res, _, h1, _, _, h2⟩ := one_attack_per_group exampleManagerEnv exampleWorld 0
    (example_in_range exampleWorld (fun g => by
      simp only [exampleWorld]; split_ifs <;> rfl))
    ⟨le_refl 0, by decide⟩ (fun _ => ⟨le_refl 0, by simp [exampleManagerEnv]⟩)
  exact ⟨le_refl 0, by decide, res, h1, h2⟩

/-! ### The groups of a new attack -/

end ManagerTheorems

end AAI
